import Mathlib

/-!
# Tiendita ALOHA: mobile UI layer (`static/js/mobile_optimized.js`)

A shallow embedding of the browser objects the script manipulates.  DOM elements
are identified by their allocation order, JavaScript `Set`s are lists in
insertion order, and the timer table of the page is a list of entries that are
flagged once they have fired.
-/

namespace Tienda

/-! ## MobileNotifications -/

/-- A toast element, identified by the allocation order of `document.createElement`. -/
abbrev Toast := Nat

/-- The callbacks `showToast` and `removeToast` hand to the browser. -/
inductive Callback where
  /-- Embeds `requestAnimationFrame(() => toast.classList.add('show'))` in `showToast`. -/
  | animateIn (toast : Toast)
  /-- Embeds `setTimeout(() => this.removeToast(toast), duration)` in `showToast`. -/
  | autoRemove (toast : Toast)
  /-- Embeds `setTimeout(() => { if (toast.parentNode) toast.remove() }, 300)` in `removeToast`. -/
  | domRemove (toast : Toast)
  deriving DecidableEq, Repr

/-- One entry of the timer table: the callback, its delay in milliseconds and
whether it is still waiting to run. -/
structure TimerEntry where
  callback : Callback
  delay : Nat
  pending : Bool
  deriving DecidableEq, Repr

/-- The fields of a `MobileNotifications` object together with the part of the
page it touches. -/
structure Notifier where
  /-- Embeds `this.activeToasts`, a `Set` listed in insertion order. -/
  activeToasts : List Toast
  /-- Embeds `this.maxToasts`. -/
  maxToasts : Nat
  /-- Children of the element `document.querySelector('.toast-container')`,
  `none` when the query returns `null`. -/
  container : Option (List Toast)
  /-- Toasts whose class list holds `show`. -/
  showClass : List Toast
  /-- Every `setTimeout` / `requestAnimationFrame` registration made so far. -/
  timers : List TimerEntry
  /-- The next element `document.createElement` hands out. -/
  nextToast : Toast
  deriving DecidableEq, Repr

/-- Embeds `Set.prototype.add`: a member keeps its place, a new value goes last. -/
def setAdd (xs : List Toast) (t : Toast) : List Toast :=
  if t ∈ xs then xs else xs ++ [t]

/-- Embeds `Set.prototype.delete`. -/
def setDelete (xs : List Toast) (t : Toast) : List Toast :=
  xs.erase t

/-- Embeds `parent.appendChild(child)`: the child becomes the last child. -/
def appendChild (kids : List Toast) (t : Toast) : List Toast :=
  kids.erase t ++ [t]

/-- Embeds `new MobileNotifications()` on a page whose toast container is `dom` (if
any): `activeToasts = new Set()`, `maxToasts = 3`, and
`setupToastNotifications` creates the container when it is missing.  The flash
messages handled by `setupFlashMessages` are separate elements with timers of
their own and are not part of this state. -/
def Notifier.construct (dom : Option (List Toast)) (nextToast : Toast) : Notifier :=
  { activeToasts := []
    maxToasts := 3
    container := some (dom.getD [])
    showClass := []
    timers := []
    nextToast := nextToast }

/-- Embeds `removeToast(toast)`. -/
def removeToast (s : Notifier) (toast : Toast) : Notifier :=
  if toast ∈ s.activeToasts then
    { s with
      activeToasts := setDelete s.activeToasts toast
      showClass := s.showClass.erase toast
      timers := s.timers ++ [⟨.domRemove toast, 300, true⟩] }
  else s

/-- The eviction at the head of `showToast`:
`if (size >= maxToasts) removeToast(activeToasts.values().next().value)`.
On an empty set the iterator yields `undefined`, which `removeToast` ignores. -/
def evictOldest (s : Notifier) : Notifier :=
  if s.maxToasts ≤ s.activeToasts.length then
    match s.activeToasts.head? with
    | some oldestToast => removeToast s oldestToast
    | none => s
  else s

/-- Embeds `showToast(message, type, duration)`.  The message and the type only decide
how the toast is rendered.  The result is the returned toast, or `none` when
`container.appendChild` raises a `TypeError` because the container is `null`. -/
def showToast (s : Notifier) (duration : Nat) : Notifier × Option Toast :=
  let s1 := evictOldest s
  let toast := s1.nextToast
  let s2 := { s1 with nextToast := toast + 1 }
  match s2.container with
  | none => (s2, none)
  | some kids =>
    ({ s2 with
        container := some (appendChild kids toast)
        activeToasts := setAdd s2.activeToasts toast
        timers := s2.timers ++ [⟨.animateIn toast, 0, true⟩, ⟨.autoRemove toast, duration, true⟩] },
      some toast)

/-- Body of a callback when the browser runs it. -/
def runCallback (s : Notifier) : Callback → Notifier
  | .animateIn toast =>
    { s with showClass := if toast ∈ s.showClass then s.showClass else s.showClass ++ [toast] }
  | .autoRemove toast => removeToast s toast
  | .domRemove toast => { s with container := s.container.map (fun kids => kids.erase toast) }

/-- The browser runs timer number `i`, if that timer is still pending. -/
def fireTimer (s : Notifier) (i : Nat) : Notifier :=
  match s.timers.get? i with
  | some e =>
    if e.pending then
      runCallback { s with timers := s.timers.set i { e with pending := false } } e.callback
    else s
  | none => s

/-- Embeds `destroy()`: `activeToasts.forEach(toast => this.removeToast(toast))`, then
`activeToasts.clear()`. -/
def Notifier.destroy (s : Notifier) : Notifier :=
  { s.activeToasts.foldl removeToast s with activeToasts := [] }

/-- What can happen to a notifier: a call of `showToast`, a call of
`removeToast` (the close button of a toast calls it), a timer running, and
`destroy`. -/
inductive NotifierOp where
  | showToast (duration : Nat)
  | removeToast (toast : Toast)
  | timerExpiry (i : Nat)
  | destroy
  deriving DecidableEq, Repr

def Notifier.step (s : Notifier) : NotifierOp → Notifier
  | .showToast duration => (showToast s duration).1
  | .removeToast toast => removeToast s toast
  | .timerExpiry i => fireTimer s i
  | .destroy => s.destroy

def Notifier.run (s : Notifier) (ops : List NotifierOp) : Notifier :=
  ops.foldl Notifier.step s

/-- The callbacks of all timers registered so far, in registration order. -/
def Notifier.callbacks (s : Notifier) : List Callback :=
  s.timers.map TimerEntry.callback

/-- Number of DOM removals `removeToast` has scheduled for `toast`. -/
def scheduledRemovals (s : Notifier) (toast : Toast) : Nat :=
  s.callbacks.count (.domRemove toast)

/-- Whether `showToast` has inserted `toast` (it registered its auto-dismiss timer). -/
def wasInserted (s : Notifier) (toast : Toast) : Bool :=
  s.callbacks.contains (.autoRemove toast)

/-- No pending auto-dismiss timer refers to a toast outside the live set. -/
def noStaleAutoTimer (s : Notifier) : Bool :=
  s.timers.all (fun e =>
    match e.callback with
    | .autoRemove toast => !e.pending || decide (toast ∈ s.activeToasts)
    | _ => true)

/-- What every state of a notifier satisfies: the live set has no duplicates
and at most three members, its members were allocated and inserted earlier, and
a DOM removal is scheduled exactly for the inserted toasts that left the set. -/
structure Notifier.Inv (s : Notifier) : Prop where
  nodup : s.activeToasts.Nodup
  fresh : ∀ t ∈ s.activeToasts, t < s.nextToast
  maxToasts_eq : s.maxToasts = 3
  bounded : s.activeToasts.length ≤ 3
  inserted_lt : ∀ t, wasInserted s t = true → t < s.nextToast
  live_inserted : ∀ t ∈ s.activeToasts, wasInserted s t = true
  scheduled : ∀ t, scheduledRemovals s t =
    if wasInserted s t = true ∧ t ∉ s.activeToasts then 1 else 0

/-! ## Swipe to dismiss (`setupSwipeToDismiss`) -/

/-- Result of a JavaScript division: a finite number, an infinity or `NaN`. -/
inductive JSNumber where
  | finite (q : ℚ)
  | posInfinity
  | negInfinity
  | nan
  deriving DecidableEq, Repr

/-- The quotient `a / b` of JavaScript with an integer divisor; a zero divisor
gives an infinity or `NaN`. -/
def jsDiv (a : ℚ) (b : ℤ) : JSNumber :=
  if b = 0 then
    if a = 0 then .nan else if 0 < a then .posInfinity else .negInfinity
  else .finite (a / b)

/-- The comparison `x > c` of JavaScript against a finite constant. -/
def JSNumber.gt (x : JSNumber) (c : ℚ) : Bool :=
  match x with
  | .finite q => decide (c < q)
  | .posInfinity => true
  | .negInfinity => false
  | .nan => false

/-- Values written to `element.style.transform`. -/
inductive Transform where
  /-- No inline transform has been written. -/
  | unset
  /-- The text `translateX(<d>px)`. -/
  | translateXPx (d : ℚ)
  /-- The text `translateX(100%)`. -/
  | translateXPlus100
  /-- The text `translateX(-100%)`. -/
  | translateXMinus100
  /-- The text `translateX(0)`. -/
  | translateXZero
  deriving DecidableEq, Repr

/-- The closure variables of one `setupSwipeToDismiss` call.  Coordinates are
exact rationals in CSS pixels, times are integers in milliseconds. -/
structure SwipeState where
  startX : ℚ
  currentX : ℚ
  isDragging : Bool
  startTime : ℤ
  deriving DecidableEq, Repr

/-- The swiped element: its inline style, whether `clearTimeout(timer)` has run
for its auto-hide timer and how many `setTimeout(() => element.remove(), 300)`
timers have been registered. -/
structure SwipeElement where
  transition : String
  transform : Transform
  opacity : ℚ
  timerCleared : Bool
  removalTimers : Nat
  deriving DecidableEq, Repr

/-- The closure variables right after `setupSwipeToDismiss` declared them. -/
def SwipeState.initial : SwipeState :=
  { startX := 0, currentX := 0, isDragging := false, startTime := 0 }

/-- Embeds `handleTouchStart(e)` with `e.touches[0].clientX = clientX` at time `now`. -/
def handleTouchStart (st : SwipeState) (el : SwipeElement) (clientX : ℚ) (now : ℤ) :
    SwipeState × SwipeElement :=
  ({ st with startX := clientX, startTime := now, isDragging := true },
   { el with transition := "none" })

/-- Embeds `handleTouchMove(e)` with `e.touches[0].clientX = clientX`. -/
def handleTouchMove (st : SwipeState) (el : SwipeElement) (clientX : ℚ) :
    SwipeState × SwipeElement :=
  if !st.isDragging then (st, el)
  else
    let st1 := { st with currentX := clientX }
    let deltaX := st1.currentX - st1.startX
    if |deltaX| > 10 then
      (st1, { el with transform := .translateXPx deltaX, opacity := max (3 / 10) (1 - |deltaX| / 200) })
    else (st1, el)

/-- The test `Math.abs(deltaX) > 100 || velocity > 0.5` of `handleTouchEnd`. -/
def swipeDismisses (deltaX : ℚ) (deltaTime : ℤ) : Bool :=
  let velocity := jsDiv |deltaX| deltaTime
  decide (|deltaX| > 100) || velocity.gt (1 / 2)

/-- Embeds `handleTouchEnd()` at time `now`. -/
def handleTouchEnd (st : SwipeState) (el : SwipeElement) (now : ℤ) :
    SwipeState × SwipeElement :=
  if !st.isDragging then (st, el)
  else
    let st1 := { st with isDragging := false }
    let deltaX := st1.currentX - st1.startX
    let deltaTime := now - st1.startTime
    let el1 := { el with transition := "transform 0.3s ease, opacity 0.3s ease" }
    if swipeDismisses deltaX deltaTime then
      (st1, { el1 with
                timerCleared := true
                transform := if deltaX > 0 then .translateXPlus100 else .translateXMinus100
                opacity := 0
                removalTimers := el.removalTimers + 1 })
    else
      (st1, { el1 with transform := .translateXZero, opacity := 1 })

/-! ## MobileForms quantity control -/

/-- The characters `parseInt` skips at the start (WhiteSpace and LineTerminator). -/
def isStrWhiteSpace (c : Char) : Bool :=
  c.toNat ∈ [0x9, 0xA, 0xB, 0xC, 0xD, 0x20, 0xA0, 0x1680, 0x2000, 0x2001, 0x2002, 0x2003,
    0x2004, 0x2005, 0x2006, 0x2007, 0x2008, 0x2009, 0x200A, 0x2028, 0x2029, 0x202F, 0x205F,
    0x3000, 0xFEFF]

/-- Value of a character as a digit of the given radix. -/
def digitValue (radix : Nat) (c : Char) : Option Nat :=
  let v : Option Nat :=
    if 48 ≤ c.toNat ∧ c.toNat ≤ 57 then some (c.toNat - 48)
    else if 97 ≤ c.toNat ∧ c.toNat ≤ 122 then some (c.toNat - 87)
    else if 65 ≤ c.toNat ∧ c.toNat ≤ 90 then some (c.toNat - 55)
    else none
  v.filter (fun d => d < radix)

/-- Reads the longest prefix of digits; `acc` is `none` until a digit was read. -/
def readDigits (radix : Nat) : List Char → Option Nat → Option Nat
  | [], acc => acc
  | c :: cs, acc =>
    match digitValue radix c with
    | some d => readDigits radix cs (some (acc.getD 0 * radix + d))
    | none => acc

/-- Embeds `parseInt(text)` without a radix argument; `none` stands for `NaN`.  Numbers
are exact integers (a double is exact up to 2^53). -/
def parseInt (text : String) : Option ℤ :=
  let cs := text.toList.dropWhile isStrWhiteSpace
  let signed : Bool × List Char :=
    match cs with
    | '-' :: rest => (true, rest)
    | '+' :: rest => (false, rest)
    | _ => (false, cs)
  let based : Nat × List Char :=
    match signed.2 with
    | '0' :: 'x' :: rest => (16, rest)
    | '0' :: 'X' :: rest => (16, rest)
    | _ => (10, signed.2)
  (readDigits based.1 based.2 none).map (fun n => if signed.1 then -(n : ℤ) else (n : ℤ))

/-- Embeds `parseInt(x) || d`: `NaN` and `0` are falsy. -/
def orDefault (x : Option ℤ) (d : ℤ) : ℤ :=
  match x with
  | some v => if v = 0 then d else v
  | none => d

/-- An event handed to `dispatchEvent`. -/
structure DomEvent where
  type : String
  bubbles : Bool
  deriving DecidableEq, Repr

/-- A `.qty-input` element: its value, its `min` and `max` attributes
(`getAttribute` gives `null` for a missing one), the events dispatched on it,
whether it carries the class `quantity-updated` and how many timers wait to
remove that class. -/
structure QtyInput where
  value : String
  minAttr : Option String
  maxAttr : Option String
  dispatched : List DomEvent
  quantityUpdated : Bool
  flashTimers : Nat
  deriving DecidableEq, Repr

/-- Embeds `parseInt(input.getAttribute(name))`: `null` is read as the text `null`. -/
def parseIntAttr (attr : Option String) : Option ℤ :=
  parseInt (attr.getD "null")

/-- Embeds `parseInt(input.getAttribute('min')) || 0`. -/
def QtyInput.min (input : QtyInput) : ℤ :=
  orDefault (parseIntAttr input.minAttr) 0

/-- Embeds `parseInt(input.getAttribute('max')) || 999`. -/
def QtyInput.max (input : QtyInput) : ℤ :=
  orDefault (parseIntAttr input.maxAttr) 999

/-- Embeds `parseInt(input.value) || 0`, the quantity `updateQuantity` reads. -/
def QtyInput.currentValue (input : QtyInput) : ℤ :=
  orDefault (parseInt input.value) 0

/-- Embeds `updateQuantity(input, delta)`. -/
def updateQuantity (input : QtyInput) (delta : ℤ) : QtyInput :=
  let currentValue := input.currentValue
  let min := input.min
  let max := input.max
  let newValue := Max.max min (Min.min max (currentValue + delta))
  if newValue ≠ currentValue then
    { input with
      value := toString newValue
      dispatched := input.dispatched ++ [⟨"change", true⟩]
      quantityUpdated := true
      flashTimers := input.flashTimers + 1 }
  else input

/-- Embeds `validateQuantityInput(input)`. -/
def validateQuantityInput (input : QtyInput) : QtyInput :=
  let value := parseInt input.value
  let min := input.min
  let max := input.max
  match value with
  | none => { input with value := toString min }
  | some v =>
    if v < min then { input with value := toString min }
    else if v > max then { input with value := toString max }
    else input

/-- What the user can do to a quantity control: press the plus button, press
the minus button, or type a text into the input (the `input` listener then
runs `validateQuantityInput`). -/
inductive QtyOp where
  | plus
  | minus
  | edit (text : String)
  deriving DecidableEq, Repr

def QtyInput.step (input : QtyInput) : QtyOp → QtyInput
  | .plus => updateQuantity input 1
  | .minus => updateQuantity input (-1)
  | .edit text => validateQuantityInput { input with value := text }

def QtyInput.run (input : QtyInput) (ops : List QtyOp) : QtyInput :=
  ops.foldl QtyInput.step input

/-- The value is the decimal text of an integer between `lo` and `hi`. -/
def IsIntegerIn (value : String) (lo hi : ℤ) : Prop :=
  ∃ v : ℤ, value = toString v ∧ lo ≤ v ∧ v ≤ hi

/-! ## MobileNavigation -/

/-- Embeds `MobileConfig.breakpoint`. -/
def MobileConfig.breakpoint : ℤ := 768

/-- Embeds `MobileConfig.scrollThreshold`. -/
def MobileConfig.scrollThreshold : ℤ := 10

/-- What the scroll handler reads from the browser: the window width, whether
the user agent matches the mobile pattern, and the two scroll offsets. -/
structure Window where
  innerWidth : ℤ
  userAgentIsMobile : Bool
  pageYOffset : ℤ
  documentScrollTop : ℤ
  deriving DecidableEq, Repr

/-- Embeds `DeviceDetection.isMobile()`. -/
def DeviceDetection.isMobile (w : Window) : Bool :=
  decide (w.innerWidth ≤ MobileConfig.breakpoint) || w.userAgentIsMobile

/-- Embeds `window.pageYOffset || document.documentElement.scrollTop`. -/
def Window.scrollTop (w : Window) : ℤ :=
  if w.pageYOffset ≠ 0 then w.pageYOffset else w.documentScrollTop

/-- The `.mobile-nav` element: its inline transform and its `aria-hidden`
attribute (`none` while the attribute is absent). -/
structure NavElement where
  transform : String
  ariaHidden : Option String
  deriving DecidableEq, Repr

/-- A `MobileNavigation` whose `.mobile-nav` element exists (without it `init`
returns before any scroll listener is registered). -/
structure MobileNavigation where
  mobileNav : NavElement
  lastScrollTop : ℤ
  isVisible : Bool
  deriving DecidableEq, Repr

/-- The fields the constructor sets. -/
def MobileNavigation.construct (el : NavElement) : MobileNavigation :=
  { mobileNav := el, lastScrollTop := 0, isVisible := true }

/-- Embeds `hideNavigation()`. -/
def hideNavigation (nav : MobileNavigation) : MobileNavigation :=
  if !nav.isVisible then nav
  else
    { nav with
      mobileNav := { transform := "translateY(100%)", ariaHidden := some "true" }
      isVisible := false }

/-- Embeds `showNavigation()`. -/
def showNavigation (nav : MobileNavigation) : MobileNavigation :=
  if nav.isVisible then nav
  else
    { nav with
      mobileNav := { transform := "translateY(0)", ariaHidden := some "false" }
      isVisible := true }

/-- Embeds `handleScroll()`. -/
def handleScroll (nav : MobileNavigation) (w : Window) : MobileNavigation :=
  if !DeviceDetection.isMobile w then nav
  else
    let scrollTop := w.scrollTop
    let scrollDelta := |scrollTop - nav.lastScrollTop|
    if scrollDelta < MobileConfig.scrollThreshold then nav
    else
      let nav1 :=
        if scrollTop > nav.lastScrollTop ∧ scrollTop > 100 then hideNavigation nav
        else showNavigation nav
      { nav1 with lastScrollTop := scrollTop }

/-- The navigation after a sequence of scroll events. -/
def MobileNavigation.run (nav : MobileNavigation) (ws : List Window) : MobileNavigation :=
  ws.foldl handleScroll nav

/-! ## Sample states and helper measures -/

/-- A notifier holding the three toasts 0, 1 and 2. -/
def threeToasts : Notifier :=
  (Notifier.construct none 0).run [.showToast 3000, .showToast 3000, .showToast 3000]

/-- The notifier after one toast was shown and closed by its button. -/
def closedToast : Notifier :=
  (Notifier.construct none 0).run [.showToast 3000, .removeToast 0]

/-- A resting element with an auto-hide timer that has not been cleared. -/
def restingElement : SwipeElement :=
  { transition := "", transform := .unset, opacity := 1, timerCleared := false,
    removalTimers := 0 }

/-- A phone-sized window scrolled to the offset `y`. -/
def phoneAt (y : ℤ) : Window :=
  { innerWidth := 400, userAgentIsMobile := true, pageYOffset := y, documentScrollTop := y }

/-- A `.mobile-nav` element without inline style. -/
def plainNav : NavElement :=
  { transform := "", ariaHidden := none }

/-- Value of a list of decimal digit characters. -/
def decimalValue (l : List Char) : Nat :=
  l.foldl (fun a c => a * 10 + (c.toNat - 48)) 0

/-- All characters are decimal digits. -/
def AllDecimal (l : List Char) : Prop :=
  ∀ c ∈ l, 48 ≤ c.toNat ∧ c.toNat ≤ 57

/-- A quantity input with bounds 0 and 10 and no events so far. -/
def qtyZeroToTen : QtyInput :=
  { value := "1", minAttr := some "0", maxAttr := some "10", dispatched := [],
    quantityUpdated := false, flashTimers := 0 }

/-- A quantity input whose `min` attribute is above its `max` attribute. -/
def qtyCrossed : QtyInput :=
  { value := "4", minAttr := some "5", maxAttr := some "3", dispatched := [],
    quantityUpdated := false, flashTimers := 0 }

/-- A quantity input without `min` and `max` attributes. -/
def qtyPlain : QtyInput :=
  { value := "1", minAttr := none, maxAttr := none, dispatched := [],
    quantityUpdated := false, flashTimers := 0 }

/-! ## Direct calls of `hideNavigation` and `showNavigation` -/

/-- A direct call of one of the two visibility methods. -/
inductive NavCall where
  | hideNavigation
  | showNavigation
  deriving DecidableEq, Repr

/-- The method a call runs. -/
def NavCall.apply (c : NavCall) (nav : MobileNavigation) : MobileNavigation :=
  match c with
  | .hideNavigation => Tienda.hideNavigation nav
  | .showNavigation => Tienda.showNavigation nav

/-- The navigation after a sequence of direct calls. -/
def MobileNavigation.call (nav : MobileNavigation) (calls : List NavCall) : MobileNavigation :=
  calls.foldl (fun n c => c.apply n) nav

/-- The transform is the hiding one exactly when `aria-hidden` is `true`, exactly
when `isVisible` is false. -/
def MobileNavigation.InSync (nav : MobileNavigation) : Prop :=
  (nav.mobileNav.transform = "translateY(100%)" ↔ nav.mobileNav.ariaHidden = some "true") ∧
  (nav.mobileNav.ariaHidden = some "true" ↔ nav.isVisible = false)

/-! ## PerfUtils.throttle and PerfUtils.debounce

Time is a clock in milliseconds.  Every event says how long after the previous
event it happens.  A timer never runs before it is due; it runs when the
browser takes its turn (`timer`), which may be late. -/

/-- What happens to a throttled or debounced function: a call with arguments,
or the browser running the oldest pending timer that is due (nothing happens
when no timer is due). -/
inductive LoopEvent (α : Type) where
  | call (elapsed : Nat) (args : α)
  | timer (elapsed : Nat)
  deriving DecidableEq, Repr

/-- The closure of `PerfUtils.throttle(func, limit)`: the variable `inThrottle`,
the due times of the pending `setTimeout(() => inThrottle = false, limit)`
timers, the clock, and the calls of `func` made so far with their times. -/
structure Throttled (α : Type) where
  limit : Nat
  inThrottle : Bool
  timers : List Nat
  now : Nat
  invoked : List (Nat × α)
  deriving DecidableEq, Repr

/-- Embeds `PerfUtils.throttle(func, limit)`: `inThrottle` starts undefined, which is falsy. -/
def PerfUtils.throttle (α : Type) (limit : Nat) : Throttled α :=
  { limit := limit, inThrottle := false, timers := [], now := 0, invoked := [] }

/-- One event on the function returned by `PerfUtils.throttle`. -/
def Throttled.step {α : Type} (s : Throttled α) : LoopEvent α → Throttled α
  | .call elapsed args =>
    let now := s.now + elapsed
    if !s.inThrottle then
      { s with
        now := now
        invoked := s.invoked ++ [(now, args)]
        inThrottle := true
        timers := s.timers ++ [now + s.limit] }
    else { s with now := now }
  | .timer elapsed =>
    let now := s.now + elapsed
    match s.timers with
    | due :: rest =>
      if due ≤ now then { s with now := now, inThrottle := false, timers := rest }
      else { s with now := now }
    | [] => { s with now := now }

/-- The throttled function after a sequence of events. -/
def Throttled.run {α : Type} (s : Throttled α) (events : List (LoopEvent α)) : Throttled α :=
  events.foldl Throttled.step s

/-- The scroll listener of `setupScrollBehavior`:
`PerfUtils.throttle(() => this.handleScroll(), 16)` on `window`, each scroll
event carrying what the window shows at that moment.  The navigation is the
result of `handleScroll` on the events the throttle lets through. -/
def MobileNavigation.afterScrollEvents (nav : MobileNavigation)
    (events : List (LoopEvent Window)) : MobileNavigation :=
  nav.run (((PerfUtils.throttle Window 16).run events).invoked.map Prod.snd)

/-- A timer registered by a debounced function: the time it is due, the
arguments of the call that registered it, and whether it is still pending. -/
structure DebounceTimer (α : Type) where
  due : Nat
  args : α
  pending : Bool
  deriving DecidableEq, Repr

/-- The closure of `PerfUtils.debounce(func, wait, immediate)`: the variable
`timeout` (a timer id, which is truthy, or `none` for `undefined` and `null`),
the timers it registered, the clock, and the calls of `func` made so far with
their times. -/
structure Debounced (α : Type) where
  wait : Nat
  immediate : Bool
  timeout : Option Nat
  timers : List (DebounceTimer α)
  now : Nat
  invoked : List (Nat × α)
  deriving DecidableEq, Repr

/-- Embeds `PerfUtils.debounce(func, wait, immediate)`. -/
def PerfUtils.debounce (α : Type) (wait : Nat) (immediate : Bool) : Debounced α :=
  { wait := wait, immediate := immediate, timeout := none, timers := [], now := 0,
    invoked := [] }

/-- Embeds `clearTimeout(id)` on the timers of a debounced function. -/
def clearDebounceTimer {α : Type} (timers : List (DebounceTimer α)) :
    Option Nat → List (DebounceTimer α)
  | none => timers
  | some id =>
    match timers.get? id with
    | some t => timers.set id { t with pending := false }
    | none => timers

/-- Position of the oldest pending timer that is due at time `now`. -/
def dueTimer {α : Type} : List (DebounceTimer α) → Nat → Option Nat
  | [], _ => none
  | t :: rest, now =>
    if t.pending && decide (t.due ≤ now) then some 0
    else (dueTimer rest now).map (fun i => i + 1)

/-- One event on the function returned by `PerfUtils.debounce`. -/
def Debounced.step {α : Type} (s : Debounced α) : LoopEvent α → Debounced α
  | .call elapsed args =>
    let now := s.now + elapsed
    let callNow := s.immediate && s.timeout.isNone
    let cleared := clearDebounceTimer s.timers s.timeout
    { s with
      now := now
      timers := cleared ++ [⟨now + s.wait, args, true⟩]
      timeout := some cleared.length
      invoked := if callNow then s.invoked ++ [(now, args)] else s.invoked }
  | .timer elapsed =>
    let now := s.now + elapsed
    match dueTimer s.timers now with
    | some i =>
      match s.timers.get? i with
      | some t =>
        { s with
          now := now
          timers := s.timers.set i { t with pending := false }
          timeout := none
          invoked := if !s.immediate then s.invoked ++ [(now, t.args)] else s.invoked }
      | none => { s with now := now }
    | none => { s with now := now }

/-- The debounced function after a sequence of events. -/
def Debounced.run {α : Type} (s : Debounced α) (events : List (LoopEvent α)) : Debounced α :=
  events.foldl Debounced.step s

/-- Whether the events stay within one burst: every call comes less than `wait`
milliseconds after the call before it.  `sinceCall` is the time since the last
call, `none` before the first call. -/
def withinBurst {α : Type} (wait : Nat) : Option Nat → List (LoopEvent α) → Bool
  | _, [] => true
  | none, .timer _ :: rest => withinBurst wait none rest
  | none, .call _ _ :: rest => withinBurst wait (some 0) rest
  | some d, .timer elapsed :: rest => withinBurst wait (some (d + elapsed)) rest
  | some d, .call elapsed _ :: rest =>
    decide (d + elapsed < wait) && withinBurst wait (some 0) rest

/-- Time since the last call at the end of the events, `none` without a call. -/
def sinceLastCall {α : Type} : Option Nat → List (LoopEvent α) → Option Nat
  | d, [] => d
  | none, .timer _ :: rest => sinceLastCall none rest
  | some d, .timer elapsed :: rest => sinceLastCall (some (d + elapsed)) rest
  | _, .call _ _ :: rest => sinceLastCall (some 0) rest

/-- Arguments of the last call among the events. -/
def lastCallArgs {α : Type} : Option α → List (LoopEvent α) → Option α
  | a, [] => a
  | a, .timer _ :: rest => lastCallArgs a rest
  | _, .call _ args :: rest => lastCallArgs (some args) rest

/-- Total time covered by a sequence of events. -/
def elapsedTotal {α : Type} : List (LoopEvent α) → Nat
  | [] => 0
  | .call elapsed _ :: rest => elapsed + elapsedTotal rest
  | .timer elapsed :: rest => elapsed + elapsedTotal rest

/-- The events are turns of the browser only, no calls. -/
def onlyTimers {α : Type} : List (LoopEvent α) → Bool
  | [] => true
  | .call _ _ :: _ => false
  | .timer _ :: rest => onlyTimers rest

/-- What holds for a throttled function at every moment: two calls of `func`
are at least `limit` apart; while the window is open exactly the timer of the
last call of `func` is pending; once it is closed no timer is pending and
every call of `func` is at least `limit` in the past. -/
structure Throttled.Inv {α : Type} (s : Throttled α) : Prop where
  spaced : s.invoked.Pairwise (fun a b => a.1 + s.limit ≤ b.1)
  closed : s.inThrottle = false → s.timers = [] ∧ ∀ e ∈ s.invoked, e.1 + s.limit ≤ s.now
  opened : s.inThrottle = true → ∃ t, s.timers = [t + s.limit] ∧ ∀ e ∈ s.invoked, e.1 ≤ t


/-- A debounced function (with `immediate = false`) that has not called `func`
and has no pending timer. -/
structure Debounced.Quiet {α : Type} (s : Debounced α) (wait : Nat) : Prop where
  wait_eq : s.wait = wait
  immediate_eq : s.immediate = false
  invoked_eq : s.invoked = []
  timeout_eq : s.timeout = none
  idle : ∀ t ∈ s.timers, t.pending = false

/-- A debounced function (with `immediate = false`) inside a burst: `func` has
not been called, and the only pending timer is the newest one, registered by
the last call `d` milliseconds ago with the arguments `a`. -/
structure Debounced.Armed {α : Type} (s : Debounced α) (wait d : Nat) (a : α) : Prop where
  wait_eq : s.wait = wait
  immediate_eq : s.immediate = false
  invoked_eq : s.invoked = []
  newest : ∃ olds due, s.timers = olds ++ [⟨due, a, true⟩] ∧
    (∀ t ∈ olds, t.pending = false) ∧ s.timeout = some olds.length ∧ due + d = s.now + wait

/-! ## MobileForms submit handling -/

/-- Embeds `classList.add(name)`. -/
def classAdd (classes : List String) (name : String) : List String :=
  if name ∈ classes then classes else classes ++ [name]

/-- Embeds `classList.remove(name)`. -/
def classRemove (classes : List String) (name : String) : List String :=
  classes.filter (fun c => c ≠ name)

/-- A `button[type="submit"]` element: its class list, its `disabled` property
and its `aria-busy` attribute (`none` while the attribute is absent). -/
structure SubmitButton where
  classList : List String
  disabled : Bool
  ariaBusy : Option String
  deriving DecidableEq, Repr

/-- The callbacks `MobileForms` hands to `setTimeout`. -/
inductive FormsCallback where
  /-- The fallback of `handleFormSubmit` for a form, 5000 ms. -/
  | restoreSubmit (form : Nat)
  /-- The delayed `scrollIntoView` of `handleInputFocus` for an input, 300 ms. -/
  | scrollIntoView (input : Nat)
  deriving DecidableEq, Repr

/-- One entry of the timer table of `MobileForms`. -/
structure FormsTimer where
  callback : FormsCallback
  delay : Nat
  pending : Bool
  deriving DecidableEq, Repr

/-- The fields of a `MobileForms` object together with the part of the page it
touches.  Forms are numbered in document order. -/
structure MobileForms where
  /-- For each form, the result of `form.querySelector('button[type="submit"]')`. -/
  buttons : List (Option SubmitButton)
  /-- `this.submitTimers`, a `Map` from form to timer id, in insertion order. -/
  submitTimers : List (Nat × Nat)
  /-- `this.scrollTimer`. -/
  scrollTimer : Option Nat
  /-- `this.activeInputs`. -/
  activeInputs : List Nat
  /-- Every `setTimeout` registration made so far; the position is the timer id. -/
  timers : List FormsTimer
  deriving DecidableEq, Repr

/-- Embeds `new MobileForms()` on a page with the given forms. -/
def MobileForms.construct (buttons : List (Option SubmitButton)) : MobileForms :=
  { buttons := buttons, submitTimers := [], scrollTimer := none, activeInputs := [],
    timers := [] }

/-- Embeds `clearTimeout(id)`. -/
def clearFormsTimer (timers : List FormsTimer) (id : Nat) : List FormsTimer :=
  match timers.get? id with
  | some t => timers.set id { t with pending := false }
  | none => timers

/-- Embeds `Map.prototype.get`. -/
def mapGet (m : List (Nat × Nat)) (key : Nat) : Option Nat :=
  (m.find? (fun kv => kv.1 = key)).map Prod.snd

/-- Embeds `Map.prototype.set`: an existing key keeps its place. -/
def mapSet (m : List (Nat × Nat)) (key value : Nat) : List (Nat × Nat) :=
  if (mapGet m key).isSome then m.map (fun kv => if kv.1 = key then (key, value) else kv)
  else m ++ [(key, value)]

/-- Embeds `Map.prototype.delete`. -/
def mapDelete (m : List (Nat × Nat)) (key : Nat) : List (Nat × Nat) :=
  m.filter (fun kv => kv.1 ≠ key)

/-- The submit button of a form, if the form has one. -/
def MobileForms.submitBtn (s : MobileForms) (form : Nat) : Option SubmitButton :=
  (s.buttons.get? form).join

/-- Embeds `handleFormSubmit(e)` with `e.target = form`. -/
def handleFormSubmit (s : MobileForms) (form : Nat) : MobileForms :=
  match s.submitBtn form with
  | some submitBtn =>
    if !submitBtn.disabled then
      let cleared :=
        match mapGet s.submitTimers form with
        | some id => clearFormsTimer s.timers id
        | none => s.timers
      let timer := cleared.length
      { s with
        buttons := s.buttons.set form (some
          { classList := classAdd submitBtn.classList "loading"
            disabled := true
            ariaBusy := some "true" })
        timers := cleared ++ [⟨.restoreSubmit form, 5000, true⟩]
        submitTimers := mapSet s.submitTimers form timer }
    else s
  | none => s

/-- Body of a `MobileForms` callback when the browser runs it. -/
def MobileForms.runCallback (s : MobileForms) : FormsCallback → MobileForms
  | .restoreSubmit form =>
    { s with
      buttons :=
        match s.submitBtn form with
        | some submitBtn =>
          s.buttons.set form (some
            { classList := classRemove submitBtn.classList "loading"
              disabled := false
              ariaBusy := some "false" })
        | none => s.buttons
      submitTimers := mapDelete s.submitTimers form }
  | .scrollIntoView _ => s

/-- The browser runs timer number `i` of `MobileForms`, if it is still pending. -/
def MobileForms.fireTimer (s : MobileForms) (i : Nat) : MobileForms :=
  match s.timers.get? i with
  | some t =>
    if t.pending then
      MobileForms.runCallback { s with timers := s.timers.set i { t with pending := false } }
        t.callback
    else s
  | none => s

/-- Embeds `MobileForms.destroy()`: every timer in `submitTimers` is cleared, the map
is emptied, and `scrollTimer` is cleared when it is set (the timer ids of a
browser are positive, so a stored id is truthy). -/
def MobileForms.destroy (s : MobileForms) : MobileForms :=
  let cleared := s.submitTimers.foldl (fun ts kv => clearFormsTimer ts kv.2) s.timers
  { s with
    timers :=
      match s.scrollTimer with
      | some id => clearFormsTimer cleared id
      | none => cleared
    submitTimers := [] }

/-- A page with one form whose submit button is enabled. -/
def oneForm : MobileForms :=
  MobileForms.construct [some { classList := ["btn"], disabled := false, ariaBusy := none }]

/-- The one-form page after its form was submitted. -/
def oneFormSubmitted : MobileForms :=
  handleFormSubmit oneForm 0

/-! ## MobileManager

The page is described by what the constructors look for.  Objects live in a
heap in allocation order; a listener is recorded with the element it is
attached to, its event type and the code that attached it (every handler in
the script is a closure of its own, so this identifies the handler). -/

/-- The elements listeners are attached to. -/
inductive Target where
  | window
  | document
  /-- The `.mobile-nav` element. -/
  | mobileNav
  /-- A match of `a, button` inside `.mobile-nav`. -/
  | navControl (i : Nat)
  /-- A match of `input, textarea, select`. -/
  | field (i : Nat)
  | form (i : Nat)
  /-- The `.qty-minus` button of a quantity control. -/
  | qtyMinus (i : Nat)
  /-- The `.qty-plus` button of a quantity control. -/
  | qtyPlus (i : Nat)
  /-- The `.qty-input` of a quantity control. -/
  | qtyInput (i : Nat)
  | flashMessage (i : Nat)
  /-- The `.close-btn` of a flash message. -/
  | flashClose (i : Nat)
  deriving DecidableEq, Repr

/-- The code that attached a listener. -/
inductive Owner where
  /-- A component object, by its place in the heap. -/
  | object (ref : Nat)
  /-- A static method of `MobileUtils`, by its name. -/
  | mobileUtils (method : String)
  /-- The body of `MobileManager.init`. -/
  | mobileManager
  deriving DecidableEq, Repr

/-- A listener attached by `addEventListener`. -/
structure Listener where
  owner : Owner
  target : Target
  event : String
  deriving DecidableEq, Repr

/-- The fields of a `MobileNavigation` object that `addEventListener` and
`destroy` use: the listener map (flattened, in registration order) and the two
timer fields, which no method ever assigns. -/
structure NavListeners where
  eventListeners : List Listener
  scrollTimer : Option Nat
  resizeTimer : Option Nat
  deriving DecidableEq, Repr

/-- A value stored in the registry of the manager. -/
inductive Instance where
  | navigation (n : NavListeners)
  | forms (f : MobileForms)
  | notifications (s : Notifier)
  /-- A value without a `destroy` method (`null`, `undefined`, a plain object). -/
  | other
  deriving DecidableEq, Repr

/-- What the constructors and `init` read from the browser and the document. -/
structure Page where
  window : Window
  /-- `DeviceDetection.supportsTouch()`. -/
  supportsTouch : Bool
  /-- Whether the global `IntersectionObserver` is defined. -/
  intersectionObserver : Bool
  /-- `'performance' in window`. -/
  performance : Bool
  /-- `navigator.onLine`. -/
  onLine : Bool
  /-- Number of `a, button` inside `.mobile-nav`, `none` without a `.mobile-nav`. -/
  navControls : Option Nat
  /-- Number of `input, textarea, select` elements. -/
  fields : Nat
  /-- The forms with their submit buttons. -/
  forms : List (Option SubmitButton)
  /-- Number of `.quantity-control` elements that have all three parts. -/
  quantityControls : Nat
  /-- For each `.flash-message`, whether it holds a `.close-btn`. -/
  flashMessages : List Bool
  deriving DecidableEq, Repr

/-- The state `MobileManager` works on. -/
structure World where
  page : Page
  /-- The component objects created so far. -/
  heap : List Instance
  /-- The listeners attached to the page. -/
  listeners : List Listener
  /-- `this.instances`, a `Map` from name to object, in insertion order. -/
  instances : List (String × Nat)
  /-- `this.isInitialized`. -/
  isInitialized : Bool
  /-- `document.body.classList`. -/
  bodyClasses : List String
  /-- The objects whose `destroy()` has been called, one entry per call. -/
  destroyCalls : List Nat
  deriving DecidableEq, Repr

/-- A page on which `new MobileManager()` has just run. -/
def World.fresh (page : Page) : World :=
  { page := page, heap := [], listeners := [], instances := [], isInitialized := false,
    bodyClasses := [], destroyCalls := [] }

/-- Embeds `this.instances.set(name, ref)`. -/
def registrySet (m : List (String × Nat)) (name : String) (ref : Nat) : List (String × Nat) :=
  if m.any (fun kv => kv.1 = name) then m.map (fun kv => if kv.1 = name then (name, ref) else kv)
  else m ++ [(name, ref)]

/-- The listeners `new MobileNavigation()` registers through `this.addEventListener`:
none without a `.mobile-nav`; otherwise the throttled scroll listener, the two
touch listeners of every control, the resize and orientation listeners and
the keydown listener. -/
def navigationListeners (page : Page) (ref : Nat) : List Listener :=
  match page.navControls with
  | none => []
  | some k =>
    [⟨.object ref, .window, "scroll"⟩] ++
    (List.range k).flatMap (fun i =>
      [⟨.object ref, .navControl i, "touchstart"⟩, ⟨.object ref, .navControl i, "touchend"⟩]) ++
    [⟨.object ref, .window, "resize"⟩, ⟨.object ref, .window, "orientationchange"⟩,
     ⟨.object ref, .mobileNav, "keydown"⟩]

/-- Embeds `new MobileNavigation()`. -/
def newMobileNavigation (w : World) : World :=
  let ref := w.heap.length
  let ls := navigationListeners w.page ref
  { w with
    heap := w.heap ++ [.navigation ⟨ls, none, none⟩]
    listeners := w.listeners ++ ls }

/-- The listeners `new MobileForms()` attaches directly to the elements: focus and
blur on every field, submit on every form, and click, click and input on the
parts of every quantity control. -/
def formsListeners (page : Page) (ref : Nat) : List Listener :=
  (List.range page.fields).flatMap (fun i =>
    [⟨.object ref, .field i, "focus"⟩, ⟨.object ref, .field i, "blur"⟩]) ++
  (List.range page.forms.length).map (fun i => ⟨.object ref, .form i, "submit"⟩) ++
  (List.range page.quantityControls).flatMap (fun i =>
    [⟨.object ref, .qtyMinus i, "click"⟩, ⟨.object ref, .qtyPlus i, "click"⟩,
     ⟨.object ref, .qtyInput i, "input"⟩])

/-- Embeds `new MobileForms()`. -/
def newMobileForms (w : World) : World :=
  let ref := w.heap.length
  { w with
    heap := w.heap ++ [.forms (MobileForms.construct w.page.forms)]
    listeners := w.listeners ++ formsListeners w.page ref }

/-- The listeners `setupFlashMessages` attaches: the three swipe listeners of every
flash message and the click listener of every close button it creates. -/
def flashListeners (flashMessages : List Bool) (ref : Nat) : List Listener :=
  (List.range flashMessages.length).flatMap (fun i =>
    [⟨.object ref, .flashMessage i, "touchstart"⟩, ⟨.object ref, .flashMessage i, "touchmove"⟩,
     ⟨.object ref, .flashMessage i, "touchend"⟩] ++
    (if flashMessages.get? i = some false then [⟨.object ref, .flashClose i, "click"⟩] else []))

/-- Embeds `new MobileNotifications()`; afterwards every flash message has a close
button.  Each notifier numbers the toasts it creates from 0. -/
def newMobileNotifications (w : World) : World :=
  let ref := w.heap.length
  { w with
    heap := w.heap ++ [.notifications (Notifier.construct none 0)]
    listeners := w.listeners ++ flashListeners w.page.flashMessages ref
    page := { w.page with flashMessages := w.page.flashMessages.map (fun _ => true) } }

/-- Embeds `MobileUtils.preventZoom()`. -/
def MobileUtils.preventZoom (w : World) : World :=
  if !w.page.supportsTouch then w
  else
    { w with
      listeners := w.listeners ++
        [⟨.mobileUtils "preventZoom", .document, "touchstart"⟩,
         ⟨.mobileUtils "preventZoom", .document, "touchend"⟩] }

/-- Embeds `MobileUtils.setupPullToRefresh()`. -/
def MobileUtils.setupPullToRefresh (w : World) : World :=
  if !w.page.supportsTouch then w
  else
    { w with
      listeners := w.listeners ++
        [⟨.mobileUtils "setupPullToRefresh", .document, "touchstart"⟩,
         ⟨.mobileUtils "setupPullToRefresh", .document, "touchmove"⟩,
         ⟨.mobileUtils "setupPullToRefresh", .document, "touchend"⟩] }

/-- Embeds `MobileUtils.addToHomeScreen()`. -/
def MobileUtils.addToHomeScreen (w : World) : World :=
  { w with
    listeners := w.listeners ++
      [⟨.mobileUtils "addToHomeScreen", .window, "beforeinstallprompt"⟩,
       ⟨.mobileUtils "addToHomeScreen", .window, "appinstalled"⟩] }

/-- Embeds `MobileUtils.setupConnectionMonitoring()`: the two listeners, then the first
`updateConnectionStatus()`, which toggles the class `offline` and, when
offline, builds a notifier of its own and shows a toast on it. -/
def MobileUtils.setupConnectionMonitoring (w : World) : World :=
  let w1 := { w with
    listeners := w.listeners ++
      [⟨.mobileUtils "setupConnectionMonitoring", .window, "online"⟩,
       ⟨.mobileUtils "setupConnectionMonitoring", .window, "offline"⟩]
    bodyClasses :=
      if w.page.onLine then classRemove w.bodyClasses "offline"
      else classAdd w.bodyClasses "offline" }
  if w.page.onLine then w1
  else
    let w2 := newMobileNotifications w1
    { w2 with
      heap := w2.heap.set w1.heap.length
        (.notifications (showToast (Notifier.construct none 0) 5000).1) }

/-- The statements of `MobileManager.init()` up to `MobileUtils.addToHomeScreen()`:
the three components are built and stored, then the first three utilities run. -/
def MobileManager.initComponents (w : World) : World :=
  let w1 := newMobileNavigation w
  let w2 := { w1 with instances := registrySet w1.instances "navigation" w.heap.length }
  let w3 := newMobileForms w2
  let w4 := { w3 with instances := registrySet w3.instances "forms" w2.heap.length }
  let w5 := newMobileNotifications w4
  let w6 := { w5 with instances := registrySet w5.instances "notifications" w4.heap.length }
  MobileUtils.addToHomeScreen (MobileUtils.setupPullToRefresh (MobileUtils.preventZoom w6))

/-- The statements of `MobileManager.init()` after `MobileUtils.optimizeImages()`:
connection monitoring, the body class, the load listener and the flag. -/
def MobileManager.initFinish (w : World) : World :=
  let w8 := MobileUtils.setupConnectionMonitoring w
  let w9 := { w8 with bodyClasses := classAdd w8.bodyClasses "mobile-device" }
  let w10 :=
    if w9.page.performance then
      { w9 with listeners := w9.listeners ++ [⟨.mobileManager, .window, "load"⟩] }
    else w9
  { w10 with isInitialized := true }

/-- Embeds `MobileManager.init()`.  `MobileUtils.optimizeImages()` attaches no listener;
it raises a `ReferenceError` at `new IntersectionObserver(...)` when that
global is missing, the `catch` of `init` logs it, and the statements after the
call, `this.isInitialized = true` among them, do not run. -/
def MobileManager.init (w : World) : World :=
  if w.isInitialized || !DeviceDetection.isMobile w.page.window then w
  else
    let w7 := MobileManager.initComponents w
    if !w7.page.intersectionObserver then w7
    else MobileManager.initFinish w7

/-- Whether the object at `ref` has a `destroy` method. -/
def hasDestroy (heap : List Instance) (ref : Nat) : Bool :=
  match heap.get? ref with
  | some (.navigation _) => true
  | some (.forms _) => true
  | some (.notifications _) => true
  | _ => false

/-- One turn of the `forEach` in `MobileManager.destroy()`:
`if (instance && typeof instance.destroy === 'function') instance.destroy()`.
`MobileNavigation.destroy()` removes every listener of its map and empties the
map (its two timer fields are never set), `MobileForms.destroy()` and
`MobileNotifications.destroy()` are the methods embedded above. -/
def destroyInstance (w : World) (ref : Nat) : World :=
  match w.heap.get? ref with
  | some (.navigation n) =>
    { w with
      listeners := w.listeners.filter (fun l => l ∉ n.eventListeners)
      heap := w.heap.set ref (.navigation { n with eventListeners := [] })
      destroyCalls := w.destroyCalls ++ [ref] }
  | some (.forms f) =>
    { w with
      heap := w.heap.set ref (.forms f.destroy)
      destroyCalls := w.destroyCalls ++ [ref] }
  | some (.notifications s) =>
    { w with
      heap := w.heap.set ref (.notifications s.destroy)
      destroyCalls := w.destroyCalls ++ [ref] }
  | _ => w

/-- Embeds `MobileManager.destroy()`. -/
def MobileManager.destroy (w : World) : World :=
  { w.instances.foldl (fun acc kv => destroyInstance acc kv.2) w with
    instances := []
    isInitialized := false }

/-- Number of listeners attached to a target for an event type. -/
def World.listenersOn (w : World) (target : Target) (event : String) : Nat :=
  (w.listeners.filter (fun l => l.target = target ∧ l.event = event)).length

/-- Whether timer `id` of a `MobileForms` object is pending. -/
def formsTimerPending (timers : List FormsTimer) (id : Nat) : Bool :=
  match timers.get? id with
  | some t => t.pending
  | none => false

/-- A phone page with a navigation bar of two links, one field, one form and
one flash message, in a browser that has `IntersectionObserver`. -/
def phonePage : Page :=
  { window := phoneAt 0, supportsTouch := true, intersectionObserver := true,
    performance := true, onLine := true, navControls := some 2, fields := 1,
    forms := [some { classList := ["btn"], disabled := false, ariaBusy := none }],
    quantityControls := 0, flashMessages := [false] }

/-- The same page in a browser without `IntersectionObserver`. -/
def oldPhonePage : Page :=
  { phonePage with intersectionObserver := false }

/-- The manager on the phone page after `init`, three toasts shown through the
registered notifier and the form submitted once. -/
def busyWorld : World :=
  { MobileManager.init (World.fresh phonePage) with
    heap := ((MobileManager.init (World.fresh phonePage)).heap.set 1
      (.forms oneFormSubmitted)).set 2 (.notifications threeToasts) }

/-- Whether some timer of a notifier is pending. -/
def Notifier.hasPendingTimer (s : Notifier) : Bool :=
  s.timers.any (fun e => e.pending)

/-! ## admin.js and main.js: the CSRF token and the requests -/

/-- How a call ends: with a value, or with an uncaught `TypeError`. -/
inductive Completion (α : Type) where
  | returned (value : α)
  | typeError
  deriving DecidableEq, Repr

/-- What the token lookups read from the page. -/
structure CsrfPage where
  /-- The `content` attribute of `meta[name="csrf-token"]`: `none` without such
  an element, `some none` when the element lacks the attribute. -/
  metaContent : Option (Option String)
  /-- The value of `input[name="csrf_token"]`, `none` without such an element. -/
  inputValue : Option String
  deriving DecidableEq, Repr

/-- Truthiness of a string or `null`. -/
def truthy (v : Option String) : Bool :=
  match v with
  | some text => text ≠ ""
  | none => false

/-- Text of a string or `null` when it is written into a request. -/
def jsText (v : Option String) : String :=
  v.getD "null"

/-- The first declaration of `getCsrfToken` in admin.js (lines 20 to 25).  The
second declaration of the same name replaces it for every caller. -/
def getCsrfTokenFirst (page : CsrfPage) : Completion (Option String) :=
  match page.metaContent with
  | some content => .returned content
  | none =>
    match page.inputValue with
    | some value => .returned (some value)
    | none => .returned (some "")

/-- The declaration of `getCsrfToken` that is in effect in admin.js (lines 505 to
508): `meta.getAttribute('content') || input.value`, without a check that
either element exists. -/
def getCsrfToken (page : CsrfPage) : Completion (Option String) :=
  match page.metaContent with
  | none => .typeError
  | some content =>
    if truthy content then .returned content
    else
      match page.inputValue with
      | some value => .returned (some value)
      | none => .typeError

/-- A request handed to `fetch`. -/
structure Request where
  method : String
  url : String
  headers : List (String × String)
  /-- The fields of the body (form data or URL parameters). -/
  body : List (String × String)
  deriving DecidableEq, Repr

/-- Whether the request carries a CSRF token, as the body field `csrf_token` or
as the header `X-CSRFToken`. -/
def Request.carriesCsrf (r : Request) : Bool :=
  r.body.any (fun kv => kv.1 = "csrf_token") || r.headers.any (fun kv => kv.1 = "X-CSRFToken")

/-- Whether the request carries the given token, as the body field `csrf_token`
or as the header `X-CSRFToken`. -/
def Request.carriesToken (r : Request) (token : String) : Bool :=
  r.body.contains ("csrf_token", token) || r.headers.contains ("X-CSRFToken", token)

/-- What the admin handlers read from the page besides the token. -/
structure AdminPage where
  csrf : CsrfPage
  /-- The fields of `#editToyForm` as `new FormData(form)` lists them, `none`
  without such a form. -/
  editForm : Option (List (String × String))
  /-- The value of `#editToyId`. -/
  editToyId : Option String
  /-- The value of `#deleteToyId`. -/
  deleteToyId : Option String
  deriving DecidableEq, Repr

/-- The request `addToCart(toyId)` of main.js sends.  The token is
`document.querySelector('meta[name="csrf-token"]').content`; the `content`
property of a meta element without the attribute is the empty string. -/
def addToCartRequest (page : CsrfPage) (toyId : String) : Completion (Option Request) :=
  match page.metaContent with
  | none => .typeError
  | some content =>
    .returned (some
      { method := "POST"
        url := "/add_to_cart"
        headers := [("X-Requested-With", "XMLHttpRequest")]
        body := [("toy_id", toyId), ("quantity", "1"), ("csrf_token", content.getD "")] })

/-- The request built by the delete handlers of `initAdminPanel` for a toy. -/
def deleteRequest (page : AdminPage) (toyId : String) : Completion (Option Request) :=
  match getCsrfToken page.csrf with
  | .typeError => .typeError
  | .returned csrfToken =>
    .returned (some
      { method := "POST"
        url := "/admin/toys/" ++ toyId ++ "/delete"
        headers := [("X-Requested-With", "XMLHttpRequest"),
          ("Content-Type", "application/x-www-form-urlencoded")]
        body := [("csrf_token", jsText csrfToken)] })

/-- The request of the `.delete-toy-btn` click handler of `initAdminPanel`, after
the dialog was answered; no request when the user did not confirm. -/
def deleteButtonRequest (page : AdminPage) (toyId : String) (isConfirmed : Bool) :
    Completion (Option Request) :=
  if isConfirmed then deleteRequest page toyId else .returned none

/-- The request of the `#deleteForm` submit handler of `initAdminPanel`. -/
def deleteFormRequest (page : AdminPage) : Completion (Option Request) :=
  match page.deleteToyId with
  | none => .typeError
  | some toyId => deleteRequest page toyId

/-- The request `deleteToy(toyId, toyName)` sends; no request when `confirm`
returned false. -/
def deleteToyRequest (page : AdminPage) (toyId : String) (confirmed : Bool) :
    Completion (Option Request) :=
  if confirmed then
    match getCsrfToken page.csrf with
    | .typeError => .typeError
    | .returned csrfToken =>
      .returned (some
        { method := "POST"
          url := "/admin/delete_toy/" ++ toyId
          headers := [("Content-Type", "application/json"), ("X-CSRFToken", jsText csrfToken)]
          body := [] })
  else .returned none

/-- The request `deleteToySimple(button)` sends, `toyId` being the `data-toy-id`
attribute of the button.  It stops without a request when the id is missing,
when `confirm` returned false, and when the meta tag gives no token. -/
def deleteToySimpleRequest (page : AdminPage) (toyId : Option String) (confirmed : Bool) :
    Completion (Option Request) :=
  if !truthy toyId then .returned none
  else if !confirmed then .returned none
  else
    let csrfToken : Option String := page.csrf.metaContent.join
    if !truthy csrfToken then .returned none
    else
      .returned (some
        { method := "POST"
          url := "/admin/delete_toy/" ++ jsText toyId
          headers := [("X-Requested-With", "XMLHttpRequest")]
          body := [("csrf_token", jsText csrfToken)] })

/-- The request `saveToyEdit()` sends: the fields of the form plus `csrf_token`. -/
def saveToyEditRequest (page : AdminPage) : Completion (Option Request) :=
  match page.editForm, page.editToyId with
  | some fields, some toyId =>
    match getCsrfToken page.csrf with
    | .typeError => .typeError
    | .returned csrfToken =>
      .returned (some
        { method := "POST"
          url := "/admin/edit_toy/" ++ toyId
          headers := [("X-Requested-With", "XMLHttpRequest")]
          body := fields ++ [("csrf_token", jsText csrfToken)] })
  | _, _ => .typeError

/-- The request of the `#editToyForm` submit handler of `initAdminPanel`: the
fields of the form as they are. -/
def editFormRequest (page : AdminPage) : Completion (Option Request) :=
  match page.editForm, page.editToyId with
  | some fields, some toyId =>
    .returned (some
      { method := "POST"
        url := "/admin/toys/" ++ toyId ++ "/edit"
        headers := [("X-Requested-With", "XMLHttpRequest")]
        body := fields })
  | _, _ => .typeError

/-- An admin page that gives the token `tok` in its meta tag and whose edit form
has the fields of a toy. -/
def adminPage : AdminPage :=
  { csrf := { metaContent := some (some "tok"), inputValue := none }
    editForm := some [("name", "Oso"), ("price", "10")]
    editToyId := some "7"
    deleteToyId := some "7" }

/-- A page that gives the token only in a hidden input. -/
def inputOnlyPage : CsrfPage :=
  { metaContent := none, inputValue := some "tok" }

/-- The three-toast notifier after the toast container was taken out of the
document. -/
def withoutContainer : Notifier :=
  { threeToasts with container := none }

/-! ## MobileForms: the events of a page -/

/-- Embeds `handleInputFocus(e)` with `e.target = input`; `isMobile` is the result
of `DeviceDetection.isMobile()`.  The classes of the form group are not part of
the state. -/
def handleInputFocus (s : MobileForms) (isMobile : Bool) (input : Nat) : MobileForms :=
  if !isMobile then s
  else
    let cleared :=
      match s.scrollTimer with
      | some id => clearFormsTimer s.timers id
      | none => s.timers
    { s with
      activeInputs := if input ∈ s.activeInputs then s.activeInputs else s.activeInputs ++ [input]
      scrollTimer := some cleared.length
      timers := cleared ++ [⟨.scrollIntoView input, 300, true⟩] }

/-- Embeds `handleInputBlur(e)` with `e.target = input`. -/
def handleInputBlur (s : MobileForms) (input : Nat) : MobileForms :=
  { s with activeInputs := s.activeInputs.erase input }

/-- What can happen to the forms of a page: a submit event on a form, a focus or
blur event on a field, a timer of `MobileForms` running, other code of the page
enabling the submit button of a form again, and `destroy`. -/
inductive FormsOp where
  | submit (form : Nat)
  | focus (isMobile : Bool) (input : Nat)
  | blur (input : Nat)
  | timer (i : Nat)
  | enable (form : Nat)
  | destroy
  deriving DecidableEq, Repr

/-- Other code of the page sets `disabled = false` on the submit button of a form. -/
def MobileForms.enable (s : MobileForms) (form : Nat) : MobileForms :=
  match s.submitBtn form with
  | some submitBtn =>
    { s with buttons := s.buttons.set form (some { submitBtn with disabled := false }) }
  | none => s

/-- One event of the page acting on `MobileForms`. -/
def MobileForms.step (s : MobileForms) : FormsOp → MobileForms
  | .submit form => handleFormSubmit s form
  | .focus isMobile input => handleInputFocus s isMobile input
  | .blur input => handleInputBlur s input
  | .timer i => s.fireTimer i
  | .enable form => s.enable form
  | .destroy => s.destroy

/-- A sequence of events of the page acting on `MobileForms`. -/
def MobileForms.run (s : MobileForms) (ops : List FormsOp) : MobileForms :=
  ops.foldl MobileForms.step s

/-- Timer `i` is a pending fallback timer of the form. -/
def MobileForms.fallbackPending (s : MobileForms) (form i : Nat) : Prop :=
  ∃ delay, s.timers.get? i = some ⟨.restoreSubmit form, delay, true⟩

/-- What every state of `MobileForms` satisfies: a pending fallback timer of a
form is the one stored for the form in `submitTimers`, a timer stored in
`submitTimers` for a form is a pending fallback timer of that form, and
`scrollTimer` names a timer of `handleInputFocus`. -/
structure MobileForms.Inv (s : MobileForms) : Prop where
  stored : ∀ form i, s.fallbackPending form i → mapGet s.submitTimers form = some i
  pending : ∀ form i, mapGet s.submitTimers form = some i → s.fallbackPending form i
  scroll : ∀ id, s.scrollTimer = some id →
    ∃ input delay p, s.timers.get? id = some ⟨.scrollIntoView input, delay, p⟩

/-! ## admin.js: the loading overlay and the delete handlers -/

/-- The body of a response as `response.json()` delivers it. -/
inductive Payload where
  /-- The body is not JSON: `response.json()` rejects. -/
  | notJson
  /-- The body is the JSON value `null`: reading a property of it throws. -/
  | null
  /-- Any other JSON value, seen through the properties the handlers read:
  the truthiness of `success`, `message` (`none` when it is absent) and
  `cart_count` (`none` when it is absent). -/
  | object (success : Bool) (message : Option String) (cartCount : Option Int)
  deriving DecidableEq, Repr

/-- How a `fetch` call ends: it rejects, or it resolves with a response. -/
inductive FetchOutcome where
  | networkError
  | response (ok redirected : Bool) (payload : Payload)
  deriving DecidableEq, Repr

/-- What the admin handlers do to the browser. -/
structure AdminState where
  /-- The ids of the loading overlays in the document, in document order. -/
  overlays : List String
  /-- The requests handed to `fetch`. -/
  requests : List Request
  /-- How often `location.reload()` was called. -/
  reloads : Nat
  /-- The messages passed to `alert`. -/
  alerts : List String
  /-- The calls of `showToast`: message and type. -/
  toasts : List (String × String)
  /-- The calls of `Swal.fire` after the confirmation: title, text and icon. -/
  swals : List (String × String × String)
  /-- How many errors nothing caught. -/
  uncaught : Nat
  deriving DecidableEq, Repr

/-- The first declaration of `showLoading` in admin.js (lines 5 to 13).  The
second declaration of the same name replaces it for every caller. -/
def showLoadingFirst (s : AdminState) : AdminState :=
  if "globalLoading" ∈ s.overlays then s
  else { s with overlays := s.overlays ++ ["globalLoading"] }

/-- The first declaration of `hideLoading` in admin.js (lines 14 to 17). -/
def hideLoadingFirst (s : AdminState) : AdminState :=
  { s with overlays := s.overlays.erase "globalLoading" }

/-- The declaration of `showLoading` that is in effect in admin.js (lines 511 to
516): a new element with the id `loading-overlay` is appended on every call. -/
def showLoading (s : AdminState) : AdminState :=
  { s with overlays := s.overlays ++ ["loading-overlay"] }

/-- The declaration of `hideLoading` that is in effect in admin.js (lines 518 to
521): `getElementById` gives the first element with the id, and it is removed. -/
def hideLoading (s : AdminState) : AdminState :=
  { s with overlays := s.overlays.erase "loading-overlay" }

/-- Embeds `showToast(message, type)` as the admin handlers see it. -/
def AdminState.showToast (s : AdminState) (message type : String) : AdminState :=
  { s with toasts := s.toasts ++ [(message, type)] }

/-- Embeds `alert(message)`. -/
def AdminState.alert (s : AdminState) (message : String) : AdminState :=
  { s with alerts := s.alerts ++ [message] }

/-- Embeds `location.reload()`. -/
def AdminState.reload (s : AdminState) : AdminState :=
  { s with reloads := s.reloads + 1 }

/-- Embeds `a || b` for a string or `undefined` on the left. -/
def orElse (v : Option String) (fallback : String) : String :=
  if truthy v then jsText v else fallback

/-- Embeds `deleteToy(toyId, toyName)`; `confirmed` is what `confirm` returned and
`outcome` is how the request ends. -/
def deleteToy (page : AdminPage) (toyId : String) (confirmed : Bool) (outcome : FetchOutcome)
    (s : AdminState) : AdminState :=
  if confirmed then
    let s := showLoading s
    match deleteToyRequest page toyId true with
    | .typeError => { s with uncaught := s.uncaught + 1 }
    | .returned none => s
    | .returned (some request) =>
      let s := { s with requests := s.requests ++ [request] }
      let caught (s : AdminState) : AdminState :=
        (hideLoading s).showToast "Error al eliminar juguete" "error"
      match outcome with
      | .networkError => caught s
      | .response _ _ .notJson => caught s
      | .response _ _ .null => caught (hideLoading s)
      | .response _ _ (.object success message _) =>
        let s := hideLoading s
        if success then (s.showToast "Juguete eliminado exitosamente" "success").reload
        else s.showToast (orElse message "Error al eliminar juguete") "error"
  else s

/-- Embeds `deleteToySimple(button)`; `toyId` is the `data-toy-id` attribute of
the button, `confirmed` is what `confirm` returns when it is asked, and
`outcome` is how the request ends. -/
def deleteToySimple (page : AdminPage) (toyId : Option String) (confirmed : Bool)
    (outcome : FetchOutcome) (s : AdminState) : AdminState :=
  if !truthy toyId then s.alert "Error: No se pudo identificar el juguete"
  else if !confirmed then s
  else
    match deleteToySimpleRequest page toyId true with
    | .typeError => { s with uncaught := s.uncaught + 1 }
    | .returned none => s.alert "Error: Token de seguridad no encontrado"
    | .returned (some request) =>
      let s := { s with requests := s.requests ++ [request] }
      let caught (s : AdminState) : AdminState :=
        s.alert "Error de conexión. Por favor, intenta nuevamente."
      match outcome with
      | .networkError => caught s
      | .response _ _ .notJson => caught s
      | .response _ _ .null => caught s
      | .response _ _ (.object success message _) =>
        if success then (s.alert "Juguete eliminado exitosamente").reload
        else s.alert ("Error: " ++ orElse message "No se pudo eliminar el juguete")

/-- Embeds the `.delete-toy-btn` click handler of `initAdminPanel`; `isConfirmed`
is the answer to the SweetAlert dialog and `outcome` is how the request ends.
The reload after a successful delete happens when the success dialog closes. -/
def deleteButtonClick (page : AdminPage) (toyId : String) (isConfirmed : Bool)
    (outcome : FetchOutcome) (s : AdminState) : AdminState :=
  match deleteButtonRequest page toyId isConfirmed with
  | .typeError => { s with uncaught := s.uncaught + 1 }
  | .returned none => s
  | .returned (some request) =>
    let s := { s with requests := s.requests ++ [request] }
    let failed (s : AdminState) : AdminState :=
      { s with swals := s.swals ++ [("Error", "No se pudo eliminar el juguete.", "error")] }
    match outcome with
    | .networkError => failed s
    | .response ok _ _ =>
      if ok then
        let s := hideLoading s
        { s with
          swals := s.swals ++ [("Eliminado", "El juguete ha sido eliminado.", "success")]
          reloads := s.reloads + 1 }
      else failed s

/-- Embeds the `#deleteForm` submit handler of `initAdminPanel`. -/
def deleteFormSubmit (page : AdminPage) (outcome : FetchOutcome) (s : AdminState) :
    AdminState :=
  match deleteFormRequest page with
  | .typeError => { s with uncaught := s.uncaught + 1 }
  | .returned none => s
  | .returned (some request) =>
    let s := { s with requests := s.requests ++ [request] }
    match outcome with
    | .networkError => (hideLoading s).alert "Error al eliminar el juguete"
    | .response ok _ _ =>
      if ok then s.reload
      else (hideLoading s).alert "Error al eliminar el juguete"

/-- A browser in which the admin handlers have done nothing yet. -/
def quietAdmin : AdminState :=
  { overlays := [], requests := [], reloads := 0, alerts := [], toasts := [], swals := [],
    uncaught := 0 }

/-- A response with HTTP status 500 whose body is the JSON object
`\x7b"success": true\x7d`. -/
def failedButSuccessBody : FetchOutcome :=
  .response false false (.object true none none)

/-- A response with HTTP status 500 whose body is an HTML error page. -/
def failedHtml : FetchOutcome :=
  .response false false .notJson

/-! ## main.js: the cart badge and addToCart -/

/-- What `addToCart` and `updateCartBadge` read and change. -/
structure CartPage where
  csrf : CsrfPage
  /-- Whether the document has a `.cart-link` element. -/
  desktopLink : Bool
  /-- The text of the `.cart-badge` elements, in document order. -/
  desktopBadges : List String
  /-- Whether the document has a `.cart-link-mobile` element. -/
  mobileLink : Bool
  /-- The text of the `.cart-badge-mobile` elements, in document order. -/
  mobileBadges : List String
  /-- The calls of `showToast`: message and type. -/
  toasts : List (String × String)
  /-- The requests handed to `fetch`. -/
  requests : List Request
  /-- How many errors nothing caught. -/
  uncaught : Nat
  deriving DecidableEq, Repr

/-- One half of `updateCartBadge(count)`: `link` says whether the cart link
exists, `badges` are the matching badge elements; `querySelector` gives the
first of them. -/
def updateBadges (link : Bool) (badges : List String) (count : Int) : List String :=
  if link then
    if count > 0 then
      match badges with
      | _ :: rest => toString count :: rest
      | [] => [toString count]
    else
      match badges with
      | _ :: rest => rest
      | [] => []
  else badges

/-- Embeds `updateCartBadge(count)` for a number `count`. -/
def updateCartBadge (page : CartPage) (count : Int) : CartPage :=
  { page with
    desktopBadges := updateBadges page.desktopLink page.desktopBadges count
    mobileBadges := updateBadges page.mobileLink page.mobileBadges count }

/-- Embeds `showToast(message, type)` as `addToCart` sees it. -/
def CartPage.showToast (page : CartPage) (message type : String) : CartPage :=
  { page with toasts := page.toasts ++ [(message, type)] }

/-- The second `then` callback of `addToCart`, for a value `data` that is not
`null`. -/
def addToCartData (page : CartPage) (success : Bool) (message : Option String)
    (cartCount : Option Int) : CartPage :=
  if success then
    let page := page.showToast "✨ ¡Producto agregado al carrito!" "success"
    match cartCount with
    | some count => updateCartBadge page count
    | none => page
  else page.showToast (orElse message "❌ Error al agregar al carrito") "error"

/-- Embeds `addToCart(toyId)`; `outcome` is how the request ends. -/
def addToCart (page : CartPage) (toyId : String) (outcome : FetchOutcome) : CartPage :=
  match addToCartRequest page.csrf toyId with
  | .typeError => { page with uncaught := page.uncaught + 1 }
  | .returned none => page
  | .returned (some request) =>
    let page := { page with requests := page.requests ++ [request] }
    let caught (page : CartPage) : CartPage :=
      page.showToast "❌ Error al agregar al carrito" "error"
    match outcome with
    | .networkError => caught page
    | .response _ redirected payload =>
      if redirected then
        addToCartData (page.showToast "✨ ¡Producto agregado al carrito!" "success")
          true none none
      else
        match payload with
        | .notJson => caught page
        | .null => caught page
        | .object success message cartCount => addToCartData page success message cartCount

/-- A shop page with a cart link in both navigation bars, the badge "2" on the
desktop link and no badge on the mobile link. -/
def shopPage : CartPage :=
  { csrf := { metaContent := some (some "tok"), inputValue := none }
    desktopLink := true, desktopBadges := ["2"], mobileLink := true, mobileBadges := []
    toasts := [], requests := [], uncaught := 0 }

/-- The shop page without the `csrf-token` meta tag. -/
def shopPageWithoutMeta : CartPage :=
  { shopPage with csrf := { metaContent := none, inputValue := none } }

/-- Whether the second `then` callback of `deleteToy` and `deleteToySimple` takes
the body for a success: it is a JSON value with a truthy `success`. -/
def Payload.succeeds : Payload → Bool
  | .object success _ _ => success
  | _ => false

/-! ## admin.js: the user filters -/

/-- A `.user-card` element: its `data-name`, `data-active` and `data-admin`
attributes (`none` when the attribute is absent) and its `style.display`. -/
structure UserCard where
  name : Option String
  active : Option String
  admin : Option String
  display : String
  deriving DecidableEq, Repr

/-- Embeds `String.prototype.includes`: `term` occurs in `text`. -/
def includes (text term : String) : Bool :=
  text.toList.tails.any (fun rest => term.toList.isPrefixOf rest)

/-- The body of the `forEach` callback of `applyUserFilters` for one card, `term`
being the lower-cased search text.  `name.includes` throws when the card has no
`data-name` and the term is not empty. -/
def filterCard (term status : String) (card : UserCard) : Completion UserCard :=
  let isActive : Bool := card.active = some "true"
  let isAdmin : Bool := card.admin = some "true"
  let finish (visible : Bool) : Completion UserCard :=
    let visible := if status = "active" ∧ !isActive then false else visible
    let visible := if status = "inactive" ∧ isActive then false else visible
    let visible := if status = "admin" ∧ !isAdmin then false else visible
    .returned { card with display := if visible then "block" else "none" }
  if term ≠ "" then
    match card.name with
    | none => .typeError
    | some name => finish (if !includes name term then false else true)
  else finish true

/-- Embeds `userCards.forEach(...)`: the cards after the changes, and whether the
loop was left by a `TypeError`; the cards from the one that threw onwards keep
their display. -/
def filterCards (term status : String) : List UserCard → List UserCard × Bool
  | [] => ([], false)
  | card :: rest =>
    match filterCard term status card with
    | .typeError => (card :: rest, true)
    | .returned shown => ((filterCards term status rest).map (shown :: ·) id)

/-- Embeds `applyUserFilters()`; `toLowerCase` stands for the method of the
browser, `userSearch` and `statusFilter` are the values of the two controls. -/
def applyUserFilters (toLowerCase : String → String) (userSearch statusFilter : String)
    (cards : List UserCard) : List UserCard × Bool :=
  filterCards (toLowerCase userSearch) statusFilter cards

/-- Whether `applyUserFilters` is to show the card, in the words of the rule. -/
def UserCard.matchesFilters (card : UserCard) (term status : String) : Prop :=
  (term = "" ∨ ∃ name, card.name = some name ∧ term.toList <:+: name.toList) ∧
  (status = "active" → card.active = some "true") ∧
  (status = "inactive" → card.active ≠ some "true") ∧
  (status = "admin" → card.admin = some "true")

/-- Three user cards: an active administrator, an inactive user and an active
user. -/
def sampleCards : List UserCard :=
  [ { name := some "ana", active := some "true", admin := some "true", display := "" },
    { name := some "luis", active := some "false", admin := some "false", display := "" },
    { name := some "mariana", active := some "true", admin := some "false", display := "" } ]

/-- Lower-casing of the letters A to Z, a stand-in for `toLowerCase` on the
sample inputs. -/
def asciiLower (text : String) : String :=
  ⟨text.toList.map Char.toLower⟩

/-! ## Notifier lemmas -/

theorem removeToast_activeToasts (s : Notifier) (t : Toast) :
    (removeToast s t).activeToasts = s.activeToasts.erase t := by
  unfold removeToast setDelete
  split
  · rfl
  · rename_i h
    simp [List.erase_of_not_mem h]

theorem removeToast_of_not_mem (s : Notifier) (t : Toast) (h : t ∉ s.activeToasts) :
    removeToast s t = s := by
  simp [removeToast, h]

theorem removeToast_callbacks (s : Notifier) (t : Toast) :
    (removeToast s t).callbacks =
      if t ∈ s.activeToasts then s.callbacks ++ [.domRemove t] else s.callbacks := by
  unfold removeToast Notifier.callbacks
  split <;> simp

theorem removeToast_nextToast (s : Notifier) (t : Toast) :
    (removeToast s t).nextToast = s.nextToast := by
  unfold removeToast; split <;> rfl

theorem removeToast_maxToasts (s : Notifier) (t : Toast) :
    (removeToast s t).maxToasts = s.maxToasts := by
  unfold removeToast; split <;> rfl

theorem removeToast_container (s : Notifier) (t : Toast) :
    (removeToast s t).container = s.container := by
  unfold removeToast; split <;> rfl

theorem Notifier.Inv.removeToast {s : Notifier} (h : s.Inv) (t : Toast) :
    (Tienda.removeToast s t).Inv := by
  by_cases ht : t ∈ s.activeToasts
  swap
  · rw [removeToast_of_not_mem s t ht]; exact h
  have hcb : (Tienda.removeToast s t).callbacks = s.callbacks ++ [.domRemove t] := by
    rw [removeToast_callbacks, if_pos ht]
  have hins : ∀ u, wasInserted (Tienda.removeToast s t) u = wasInserted s u := by
    intro u; simp [wasInserted, hcb]
  refine ⟨?_, ?_, ?_, ?_, ?_, ?_, ?_⟩
  · rw [removeToast_activeToasts]; exact h.nodup.erase t
  · intro u hu
    rw [removeToast_activeToasts] at hu
    rw [removeToast_nextToast]
    exact h.fresh u (List.mem_of_mem_erase hu)
  · rw [removeToast_maxToasts]; exact h.maxToasts_eq
  · rw [removeToast_activeToasts]
    exact le_trans (List.length_erase_le _ _) h.bounded
  · intro u hu
    rw [removeToast_nextToast]
    exact h.inserted_lt u (by rwa [hins] at hu)
  · intro u hu
    rw [removeToast_activeToasts] at hu
    rw [hins]
    exact h.live_inserted u (List.mem_of_mem_erase hu)
  · intro u
    have hs := h.scheduled u
    rw [hins, removeToast_activeToasts]
    unfold scheduledRemovals at hs ⊢
    rw [hcb, List.count_append, hs]
    by_cases hut : u = t
    · subst hut
      have h1 : wasInserted s u = true := h.live_inserted u ht
      have h2 : u ∉ s.activeToasts.erase u := fun hm => (List.Nodup.mem_erase_iff h.nodup).1 hm |>.1 rfl
      simp [h1, h2, ht]
    · have h3 : (u ∈ s.activeToasts.erase t) ↔ u ∈ s.activeToasts := by
        constructor
        · exact List.mem_of_mem_erase
        · intro hm; exact (List.mem_erase_of_ne hut).2 hm
      have h4 : Callback.domRemove t ≠ Callback.domRemove u := by
        intro hc; injection hc with hc; exact hut hc.symm
      simp [h3, List.count_singleton, h4]

theorem evictOldest_activeToasts (s : Notifier) :
    (evictOldest s).activeToasts =
      if s.maxToasts ≤ s.activeToasts.length then s.activeToasts.tail else s.activeToasts := by
  unfold evictOldest
  split
  · cases hl : s.activeToasts with
    | nil => simp [hl]
    | cons a l => simp [removeToast_activeToasts, hl]
  · rfl

theorem evictOldest_nextToast (s : Notifier) : (evictOldest s).nextToast = s.nextToast := by
  unfold evictOldest
  split
  · split
    · exact removeToast_nextToast _ _
    · rfl
  · rfl

theorem evictOldest_container (s : Notifier) : (evictOldest s).container = s.container := by
  unfold evictOldest
  split
  · split
    · exact removeToast_container _ _
    · rfl
  · rfl

theorem Notifier.Inv.evictOldest {s : Notifier} (h : s.Inv) : (Tienda.evictOldest s).Inv := by
  unfold Tienda.evictOldest
  split
  · split
    · exact h.removeToast _
    · exact h
  · exact h

theorem evictOldest_length_lt {s : Notifier} (h : s.Inv) :
    (evictOldest s).activeToasts.length < 3 := by
  rw [evictOldest_activeToasts, h.maxToasts_eq]
  have hb := h.bounded
  split
  · rename_i h3
    rw [List.length_tail]
    omega
  · omega

theorem showToast_activeToasts (s : Notifier) (duration : Nat)
    (hfresh : ∀ t ∈ s.activeToasts, t < s.nextToast) :
    (showToast s duration).1.activeToasts =
      (evictOldest s).activeToasts ++ (if s.container.isSome then [s.nextToast] else []) := by
  have hnot : s.nextToast ∉ (evictOldest s).activeToasts := by
    intro hm
    rw [evictOldest_activeToasts] at hm
    have : s.nextToast ∈ s.activeToasts := by
      split at hm
      · exact List.mem_of_mem_tail hm
      · exact hm
    exact absurd (hfresh _ this) (lt_irrefl _)
  unfold showToast
  simp only [evictOldest_container, evictOldest_nextToast]
  cases hc : s.container with
  | none => simp
  | some kids => simp [setAdd, hnot]

theorem Notifier.Inv.of_insert {s1 s3 : Notifier} (h1 : s1.Inv)
    (hlen : s1.activeToasts.length < 3)
    (hact : s3.activeToasts = s1.activeToasts ++ [s1.nextToast])
    (hcb : s3.callbacks = s1.callbacks ++ [.animateIn s1.nextToast, .autoRemove s1.nextToast])
    (hnext : s3.nextToast = s1.nextToast + 1) (hmax : s3.maxToasts = s1.maxToasts) :
    s3.Inv := by
  have hnew : s1.nextToast ∉ s1.activeToasts := fun hm =>
    absurd (h1.fresh _ hm) (lt_irrefl _)
  have hnotins : wasInserted s1 s1.nextToast = false := by
    cases hw : wasInserted s1 s1.nextToast with
    | false => rfl
    | true => exact absurd (h1.inserted_lt _ hw) (lt_irrefl _)
  have hins : ∀ u, wasInserted s3 u = (wasInserted s1 u || decide (u = s1.nextToast)) := by
    intro u
    simp only [wasInserted, hcb, List.contains_eq_any_beq, List.any_append, List.any_cons,
      List.any_nil, Bool.or_false]
    congr 1
    by_cases hu : u = s1.nextToast
    · subst hu; simp
    · have : ¬ (s1.nextToast = u) := fun hc => hu hc.symm
      simp [hu, this]
  refine ⟨?_, ?_, ?_, ?_, ?_, ?_, ?_⟩
  · rw [hact]
    exact List.Nodup.append h1.nodup (List.nodup_singleton _) (by simpa using hnew)
  · intro u hu
    rw [hact, List.mem_append, List.mem_singleton] at hu
    rw [hnext]
    rcases hu with hu | hu
    · exact Nat.lt_succ_of_lt (h1.fresh u hu)
    · subst hu; exact Nat.lt_succ_self _
  · rw [hmax]; exact h1.maxToasts_eq
  · rw [hact, List.length_append, List.length_singleton]; omega
  · intro u hu
    rw [hins, Bool.or_eq_true, decide_eq_true_eq] at hu
    rw [hnext]
    rcases hu with hu | hu
    · exact Nat.lt_succ_of_lt (h1.inserted_lt u hu)
    · subst hu; exact Nat.lt_succ_self _
  · intro u hu
    rw [hact, List.mem_append, List.mem_singleton] at hu
    rw [hins, Bool.or_eq_true, decide_eq_true_eq]
    rcases hu with hu | hu
    · exact Or.inl (h1.live_inserted u hu)
    · exact Or.inr hu
  · intro u
    have hs := h1.scheduled u
    unfold scheduledRemovals at hs ⊢
    have hcount : List.count (Callback.domRemove u) s3.callbacks =
        List.count (Callback.domRemove u) s1.callbacks := by
      rw [hcb, List.count_append]
      simp [List.count_cons]
    rw [hcount, hs, hins, hact]
    by_cases hu : u = s1.nextToast
    · subst hu
      simp [hnotins]
    · simp [hu]

theorem Notifier.Inv.of_alloc {s1 s2 : Notifier} (h1 : s1.Inv)
    (hact : s2.activeToasts = s1.activeToasts) (hcb : s2.callbacks = s1.callbacks)
    (hnext : s1.nextToast ≤ s2.nextToast) (hmax : s2.maxToasts = s1.maxToasts) :
    s2.Inv := by
  have hins : ∀ u, wasInserted s2 u = wasInserted s1 u := by
    intro u; simp [wasInserted, hcb]
  refine ⟨?_, ?_, ?_, ?_, ?_, ?_, ?_⟩
  · rw [hact]; exact h1.nodup
  · intro u hu
    rw [hact] at hu
    exact lt_of_lt_of_le (h1.fresh u hu) hnext
  · rw [hmax]; exact h1.maxToasts_eq
  · rw [hact]; exact h1.bounded
  · intro u hu
    rw [hins] at hu
    exact lt_of_lt_of_le (h1.inserted_lt u hu) hnext
  · intro u hu
    rw [hact] at hu
    rw [hins]; exact h1.live_inserted u hu
  · intro u
    rw [hins, hact]
    unfold scheduledRemovals
    rw [hcb]
    exact h1.scheduled u

theorem Notifier.Inv.showToast {s : Notifier} (h : s.Inv) (duration : Nat) :
    (Tienda.showToast s duration).1.Inv := by
  have h1 := h.evictOldest
  have hlen := evictOldest_length_lt h
  unfold Tienda.showToast
  dsimp only
  generalize Tienda.evictOldest s = s1 at h1 hlen ⊢
  have hnew : s1.nextToast ∉ s1.activeToasts := fun hm =>
    absurd (h1.fresh _ hm) (lt_irrefl _)
  cases hc : s1.container with
  | none =>
    refine h1.of_alloc ?_ ?_ ?_ ?_ <;> simp [Notifier.callbacks]
  | some kids =>
    refine h1.of_insert hlen ?_ ?_ ?_ ?_ <;> simp [setAdd, hnew, Notifier.callbacks]

theorem callbacks_set_pending (timers : List TimerEntry) (i : Nat) (e : TimerEntry)
    (hi : timers.get? i = some e) :
    (timers.set i { e with pending := false }).map TimerEntry.callback =
      timers.map TimerEntry.callback := by
  induction timers generalizing i with
  | nil => simp
  | cons a l ih =>
    cases i with
    | zero =>
      simp only [List.get?_cons_zero, Option.some.injEq] at hi
      subst hi
      simp
    | succ j =>
      simp only [List.get?_cons_succ] at hi
      simp [ih j hi]

theorem Notifier.Inv.runCallback {s : Notifier} (h : s.Inv) (c : Callback) :
    (Tienda.runCallback s c).Inv := by
  cases c with
  | animateIn t => exact h.of_alloc rfl rfl (le_refl _) rfl
  | autoRemove t => exact h.removeToast t
  | domRemove t => exact h.of_alloc rfl rfl (le_refl _) rfl

theorem Notifier.Inv.fireTimer {s : Notifier} (h : s.Inv) (i : Nat) :
    (Tienda.fireTimer s i).Inv := by
  unfold Tienda.fireTimer
  split
  · rename_i e he
    split
    · apply Notifier.Inv.runCallback
      exact h.of_alloc rfl (callbacks_set_pending s.timers i e he) (le_refl _) rfl
    · exact h
  · exact h

theorem foldl_removeToast_inv (l : List Toast) {s : Notifier} (h : s.Inv) :
    (l.foldl removeToast s).Inv := by
  induction l generalizing s with
  | nil => exact h
  | cons a l ih => exact ih (h.removeToast a)

theorem foldl_removeToast_activeToasts (l : List Toast) (s : Notifier) :
    (l.foldl removeToast s).activeToasts = s.activeToasts.diff l := by
  induction l generalizing s with
  | nil => simp
  | cons a l ih =>
    rw [List.foldl_cons, ih, removeToast_activeToasts, List.diff_cons]

theorem destroy_forEach_empties {s : Notifier} (h : s.activeToasts.Nodup) :
    (s.activeToasts.foldl removeToast s).activeToasts = [] := by
  rw [foldl_removeToast_activeToasts]
  apply List.eq_nil_iff_forall_not_mem.2
  intro a ha
  exact ((List.Nodup.mem_diff_iff h).1 ha).2 ((List.Nodup.mem_diff_iff h).1 ha).1

theorem Notifier.Inv.destroy {s : Notifier} (h : s.Inv) : s.destroy.Inv := by
  have h1 := foldl_removeToast_inv s.activeToasts h
  exact h1.of_alloc (by simp [Notifier.destroy, destroy_forEach_empties h.nodup]) rfl
    (le_refl _) rfl

theorem Notifier.Inv.construct (dom : Option (List Toast)) (nextToast : Toast) :
    (Notifier.construct dom nextToast).Inv := by
  refine ⟨?_, ?_, ?_, ?_, ?_, ?_, ?_⟩ <;>
    simp [Notifier.construct, wasInserted, scheduledRemovals, Notifier.callbacks]

theorem Notifier.Inv.step {s : Notifier} (h : s.Inv) (op : NotifierOp) : (s.step op).Inv := by
  cases op with
  | showToast duration => exact h.showToast duration
  | removeToast toast => exact h.removeToast toast
  | timerExpiry i => exact h.fireTimer i
  | destroy => exact h.destroy

theorem Notifier.Inv.run {s : Notifier} (h : s.Inv) (ops : List NotifierOp) :
    (s.run ops).Inv := by
  induction ops generalizing s with
  | nil => exact h
  | cons op ops ih => exact ih (h.step op)

/-! ## Claims on MobileNotifications -/

/-- C1: on a page with a toast container, `showToast` on a live set holding
`maxToasts` or more toasts drops exactly the earliest-inserted live toast (the
live set becomes its tail) and then inserts the new toast as last element; with
fewer than `maxToasts` live toasts nothing is evicted and the new toast is
appended.  The returned toast is the newly created element. -/
theorem showToast_fifo_eviction (s : Notifier) (duration : Nat) (kids : List Toast)
    (hcontainer : s.container = some kids)
    (hfresh : ∀ t ∈ s.activeToasts, t < s.nextToast) :
    (s.maxToasts ≤ s.activeToasts.length →
      (showToast s duration).1.activeToasts = s.activeToasts.tail ++ [s.nextToast]) ∧
    (s.activeToasts.length < s.maxToasts →
      (showToast s duration).1.activeToasts = s.activeToasts ++ [s.nextToast]) ∧
    (showToast s duration).2 = some s.nextToast := by
  refine ⟨?_, ?_, ?_⟩
  · intro hfull
    rw [showToast_activeToasts s duration hfresh, evictOldest_activeToasts, if_pos hfull,
      hcontainer]
    rfl
  · intro hroom
    rw [showToast_activeToasts s duration hfresh, evictOldest_activeToasts,
      if_neg (Nat.not_le.2 hroom), hcontainer]
    rfl
  · unfold showToast
    simp [evictOldest_container, evictOldest_nextToast, hcontainer]

theorem showToast_fifo_eviction_witness :
    threeToasts.container = some [0, 1, 2] ∧
    (∀ t ∈ threeToasts.activeToasts, t < threeToasts.nextToast) ∧
    threeToasts.activeToasts = [0, 1, 2] ∧
    (showToast threeToasts 3000).1.activeToasts = [1, 2, 3] :=
  ⟨by decide, by decide, by decide,
    (showToast_fifo_eviction threeToasts 3000 [0, 1, 2] (by decide) (by decide)).1 (by decide)⟩

/-- C2: after any sequence of `showToast`, `removeToast`, timer-expiry and
`destroy` operations on a freshly constructed notifier, the live set holds at
most `maxToasts = 3` toasts. -/
theorem activeToasts_bounded (dom : Option (List Toast)) (nextToast : Toast)
    (ops : List NotifierOp) :
    ((Notifier.construct dom nextToast).run ops).activeToasts.length ≤ 3 ∧
    ((Notifier.construct dom nextToast).run ops).maxToasts = 3 :=
  ⟨((Notifier.Inv.construct dom nextToast).run ops).bounded,
   ((Notifier.Inv.construct dom nextToast).run ops).maxToasts_eq⟩

/-- C3: `removeToast` on a toast outside the live set changes nothing (no field
changes, no timer is registered); after `removeToast` the toast is outside the
live set; and in every state reached from a fresh notifier the number of DOM
removals scheduled for a toast is one if the toast was inserted and has left
the live set, and zero otherwise, whatever the order of close clicks,
timeouts and evictions was. -/
theorem removeToast_idempotent (dom : Option (List Toast)) (nextToast : Toast)
    (ops : List NotifierOp) (toast : Toast) :
    (toast ∉ ((Notifier.construct dom nextToast).run ops).activeToasts →
      removeToast ((Notifier.construct dom nextToast).run ops) toast =
        (Notifier.construct dom nextToast).run ops) ∧
    toast ∉ (removeToast ((Notifier.construct dom nextToast).run ops) toast).activeToasts ∧
    removeToast (removeToast ((Notifier.construct dom nextToast).run ops) toast) toast =
      removeToast ((Notifier.construct dom nextToast).run ops) toast ∧
    scheduledRemovals ((Notifier.construct dom nextToast).run ops) toast =
      (if wasInserted ((Notifier.construct dom nextToast).run ops) toast = true ∧
          toast ∉ ((Notifier.construct dom nextToast).run ops).activeToasts then 1 else 0) := by
  have hinv := (Notifier.Inv.construct dom nextToast).run ops
  have hgone : toast ∉
      (removeToast ((Notifier.construct dom nextToast).run ops) toast).activeToasts := by
    rw [removeToast_activeToasts]
    exact fun hm => ((List.Nodup.mem_erase_iff hinv.nodup).1 hm).1 rfl
  exact ⟨removeToast_of_not_mem _ _, hgone, removeToast_of_not_mem _ _ hgone,
    hinv.scheduled toast⟩

theorem removeToast_idempotent_witness :
    scheduledRemovals ((Notifier.construct none 0).run
      [.showToast 3000, .removeToast 0, .timerExpiry 1, .removeToast 0]) 0 = 1 :=
  (removeToast_idempotent none 0
    [.showToast 3000, .removeToast 0, .timerExpiry 1, .removeToast 0] 0).2.2.2

/-- C4, as stated, fails: after a toast is shown and closed by its button, its
auto-dismiss timer is still pending although the toast has left the live set. -/
theorem stale_auto_timer_after_close :
    noStaleAutoTimer ((Notifier.construct none 0).run [.showToast 3000, .removeToast 0]) = false ∧
    ((Notifier.construct none 0).run [.showToast 3000, .removeToast 0]).activeToasts = [] ∧
    ((Notifier.construct none 0).run [.showToast 3000, .removeToast 0]).timers.get? 1 =
      some ⟨.autoRemove 0, 3000, true⟩ := by
  decide

/-- C4, amended: `removeToast` cancels no timer (it keeps the timer table and
appends at most its own DOM-removal timer), and a pending auto-dismiss timer
whose toast has left the live set is inert: when it runs, nothing changes
except that the timer is no longer pending. -/
theorem stale_auto_timer_inert (s : Notifier) (i : Nat) (toast : Toast) (delay : Nat)
    (htimer : s.timers.get? i = some ⟨.autoRemove toast, delay, true⟩)
    (hgone : toast ∉ s.activeToasts) :
    fireTimer s i = { s with timers := s.timers.set i ⟨.autoRemove toast, delay, false⟩ } ∧
    ∀ t, s.timers <+: (removeToast s t).timers := by
  constructor
  · unfold fireTimer
    rw [htimer]
    simp only [if_true, runCallback]
    exact removeToast_of_not_mem _ _ hgone
  · intro t
    unfold removeToast
    split
    · exact List.prefix_append _ _
    · exact List.prefix_refl _

theorem stale_auto_timer_inert_witness :
    closedToast.timers.get? 1 = some ⟨.autoRemove 0, 3000, true⟩ ∧
    0 ∉ closedToast.activeToasts ∧
    fireTimer closedToast 1 =
      { closedToast with timers := closedToast.timers.set 1 ⟨.autoRemove 0, 3000, false⟩ } :=
  ⟨by decide, by decide, (stale_auto_timer_inert closedToast 1 0 3000 (by decide) (by decide)).1⟩

/-! ## Claims on swipe to dismiss -/

theorem swipeDismisses_iff (deltaX : ℚ) (deltaTime : ℤ) (hdt : 0 < deltaTime) :
    swipeDismisses deltaX deltaTime = true ↔
      (|deltaX| > 100 ∨ |deltaX| / (deltaTime : ℚ) > 1 / 2) := by
  have hne : deltaTime ≠ 0 := ne_of_gt hdt
  simp [swipeDismisses, jsDiv, JSNumber.gt, hne]

theorem handleTouchEnd_of_active (st : SwipeState) (el : SwipeElement) (now : ℤ)
    (hactive : st.isDragging = true) (hdt : 0 < now - st.startTime) :
    handleTouchEnd st el now =
      ({ st with isDragging := false },
       if |st.currentX - st.startX| > 100 ∨
           |st.currentX - st.startX| / ((now - st.startTime : ℤ) : ℚ) > 1 / 2 then
         { transition := "transform 0.3s ease, opacity 0.3s ease"
           transform :=
             if st.currentX - st.startX > 0 then .translateXPlus100 else .translateXMinus100
           opacity := 0
           timerCleared := true
           removalTimers := el.removalTimers + 1 }
       else
         { transition := "transform 0.3s ease, opacity 0.3s ease"
           transform := .translateXZero
           opacity := 1
           timerCleared := el.timerCleared
           removalTimers := el.removalTimers }) := by
  have hiff := swipeDismisses_iff (st.currentX - st.startX) (now - st.startTime) hdt
  unfold handleTouchEnd
  simp only [hactive, Bool.not_true, Bool.false_eq_true, if_false]
  by_cases hd : swipeDismisses (st.currentX - st.startX) (now - st.startTime) = true
  · rw [if_pos hd, if_pos (hiff.1 hd)]
  · rw [if_neg hd, if_neg (fun h => hd (hiff.2 h))]


/-- C5: at the end of an active touch sequence of positive duration, with
`dx = currentX - startX` and `dt = now - startTime`, the element is dismissed
exactly when `|dx| > 100` or `|dx| / dt > 0.5`: then the auto-hide timer is
cleared, the element slides to `+100%` for `dx > 0` and to `-100%` otherwise,
its opacity becomes 0 and one removal is scheduled; in the other case the
transform is reset to `translateX(0)`, the opacity to 1, and no removal is
scheduled. -/
theorem handleTouchEnd_decision (st : SwipeState) (el : SwipeElement) (now : ℤ)
    (hactive : st.isDragging = true) (hdt : 0 < now - st.startTime) :
    handleTouchEnd st el now =
      ({ st with isDragging := false },
       if |st.currentX - st.startX| > 100 ∨
           |st.currentX - st.startX| / ((now - st.startTime : ℤ) : ℚ) > 1 / 2 then
         { transition := "transform 0.3s ease, opacity 0.3s ease"
           transform :=
             if st.currentX - st.startX > 0 then .translateXPlus100 else .translateXMinus100
           opacity := 0
           timerCleared := true
           removalTimers := el.removalTimers + 1 }
       else
         { transition := "transform 0.3s ease, opacity 0.3s ease"
           transform := .translateXZero
           opacity := 1
           timerCleared := el.timerCleared
           removalTimers := el.removalTimers }) :=
  handleTouchEnd_of_active st el now hactive hdt

theorem handleTouchEnd_decision_witness :
    (handleTouchEnd ⟨0, 40, true, 0⟩ restingElement 50).2 =
      { transition := "transform 0.3s ease, opacity 0.3s ease"
        transform := .translateXPlus100
        opacity := 0
        timerCleared := true
        removalTimers := 1 } := by
  have h := handleTouchEnd_decision ⟨0, 40, true, 0⟩ restingElement 50 rfl (by decide)
  rw [h]
  norm_num [restingElement]

/-- C6, as stated, fails: a release at exactly 100 px after 100 ms is dismissed,
because its velocity of 1 px/ms exceeds 0.5. -/
theorem swipe_at_threshold_dismissed :
    |(100 : ℚ) - 0| = 100 ∧
    (handleTouchEnd ⟨0, 100, true, 0⟩ restingElement 100).2.removalTimers = 1 ∧
    (handleTouchEnd ⟨0, 100, true, 0⟩ restingElement 100).2.transform = .translateXPlus100 := by
  have h := handleTouchEnd_of_active ⟨0, 100, true, 0⟩ restingElement 100 rfl (by decide)
  rw [h]
  norm_num [restingElement]

theorem swipeDismisses_at_threshold (deltaX : ℚ) (deltaTime : ℤ) (hdx : |deltaX| = 100) :
    swipeDismisses deltaX deltaTime = true ↔ (0 ≤ deltaTime ∧ deltaTime < 200) := by
  rcases lt_trichotomy deltaTime 0 with hneg | hzero | hpos
  · have hne : deltaTime ≠ 0 := ne_of_lt hneg
    have hq : ((deltaTime : ℤ) : ℚ) < 0 := by exact_mod_cast hneg
    have hdiv : (100 : ℚ) / (deltaTime : ℚ) < 0 := div_neg_of_pos_of_neg (by norm_num) hq
    simp only [swipeDismisses, jsDiv, JSNumber.gt, hdx, hne, if_false]
    constructor
    · intro h
      simp only [gt_iff_lt, lt_self_iff_false, decide_False, Bool.false_or,
        decide_eq_true_eq] at h
      linarith
    · intro h; omega
  · subst hzero
    simp [swipeDismisses, jsDiv, JSNumber.gt, hdx]
  · have hne : deltaTime ≠ 0 := ne_of_gt hpos
    have hq : (0 : ℚ) < ((deltaTime : ℤ) : ℚ) := by exact_mod_cast hpos
    simp only [swipeDismisses, jsDiv, JSNumber.gt, hdx, hne, if_false, gt_iff_lt,
      lt_self_iff_false, decide_False, Bool.false_or, decide_eq_true_eq]
    rw [lt_div_iff₀ hq]
    constructor
    · intro h
      have h2 : ((deltaTime : ℤ) : ℚ) < 200 := by linarith
      have h3 : deltaTime < 200 := by exact_mod_cast h2
      exact ⟨le_of_lt hpos, h3⟩
    · intro h
      have h2 : ((deltaTime : ℤ) : ℚ) < 200 := by exact_mod_cast h.2
      linarith

/-- C6, amended: a release at exactly 100 px is never dismissed by the distance
test; it is dismissed exactly when the touch lasted less than 200 ms (velocity
above 0.5 px/ms, a zero duration included), and is reset to rest otherwise. -/
theorem swipe_at_threshold (st : SwipeState) (el : SwipeElement) (now : ℤ)
    (hactive : st.isDragging = true) (hdx : |st.currentX - st.startX| = 100) :
    (swipeDismisses (st.currentX - st.startX) (now - st.startTime) = true ↔
      (0 ≤ now - st.startTime ∧ now - st.startTime < 200)) ∧
    ((handleTouchEnd st el now).2.removalTimers = el.removalTimers + 1 ↔
      (0 ≤ now - st.startTime ∧ now - st.startTime < 200)) ∧
    (¬ (0 ≤ now - st.startTime ∧ now - st.startTime < 200) →
      (handleTouchEnd st el now).2.transform = .translateXZero ∧
      (handleTouchEnd st el now).2.opacity = 1 ∧
      (handleTouchEnd st el now).2.removalTimers = el.removalTimers) := by
  have hkey := swipeDismisses_at_threshold (st.currentX - st.startX) (now - st.startTime) hdx
  refine ⟨hkey, ?_, ?_⟩
  · unfold handleTouchEnd
    simp only [hactive, Bool.not_true, Bool.false_eq_true, if_false]
    by_cases hd : swipeDismisses (st.currentX - st.startX) (now - st.startTime) = true
    · simp [hd, hkey.1 hd]
    · have hn := fun h => hd (hkey.2 h)
      simp only [hd, if_false]
      constructor
      · intro h; simp at h
      · intro h; exact absurd h hn
  · intro hn
    have hd : ¬ swipeDismisses (st.currentX - st.startX) (now - st.startTime) = true :=
      fun h => hn (hkey.1 h)
    unfold handleTouchEnd
    simp [hactive, hd]

theorem swipe_at_threshold_witness :
    (handleTouchEnd ⟨0, 100, true, 0⟩ restingElement 200).2.removalTimers = 0 ∧
    (handleTouchEnd ⟨0, 100, true, 0⟩ restingElement 200).2.transform = .translateXZero :=
  have h := (swipe_at_threshold ⟨0, 100, true, 0⟩ restingElement 200 rfl (by norm_num)).2.2
    (by decide)
  ⟨h.2.2, h.1⟩

/-! ## Claims on MobileNavigation -/

/-- C9, as stated, fails: from the visible state with `lastScrollTop = 100`
(reached from the initial state by one scroll to offset 100) a scroll to 110
hides the navigation although the scroll delta is 10, which does not exceed
`scrollThreshold`. -/
theorem hide_at_threshold_delta :
    ((MobileNavigation.construct plainNav).run [phoneAt 100]).isVisible = true ∧
    ((MobileNavigation.construct plainNav).run [phoneAt 100]).lastScrollTop = 100 ∧
    DeviceDetection.isMobile (phoneAt 110) = true ∧
    ¬ (|(phoneAt 110).scrollTop - 100| > MobileConfig.scrollThreshold) ∧
    (handleScroll ((MobileNavigation.construct plainNav).run [phoneAt 100])
      (phoneAt 110)).isVisible = false := by
  decide

/-- C9, amended: the navigation starts visible with `lastScrollTop = 0`, and one
`handleScroll` step on a mobile device hides a visible navigation exactly when
the scroll delta is at least `scrollThreshold` (10), the scroll is downward and
the new offset is above 100; in every other case it stays visible. -/
theorem handleScroll_hides_iff (el : NavElement) (nav : MobileNavigation) (w : Window)
    (hvisible : nav.isVisible = true) (hmobile : DeviceDetection.isMobile w = true) :
    (MobileNavigation.construct el).isVisible = true ∧
    (MobileNavigation.construct el).lastScrollTop = 0 ∧
    ((handleScroll nav w).isVisible = false ↔
      (MobileConfig.scrollThreshold ≤ |w.scrollTop - nav.lastScrollTop| ∧
        w.scrollTop > nav.lastScrollTop ∧ w.scrollTop > 100)) ∧
    ((handleScroll nav w).isVisible = true ↔
      ¬ (MobileConfig.scrollThreshold ≤ |w.scrollTop - nav.lastScrollTop| ∧
        w.scrollTop > nav.lastScrollTop ∧ w.scrollTop > 100)) := by
  have hcases : (handleScroll nav w).isVisible =
      !decide (MobileConfig.scrollThreshold ≤ |w.scrollTop - nav.lastScrollTop| ∧
        w.scrollTop > nav.lastScrollTop ∧ w.scrollTop > 100) := by
    unfold handleScroll
    simp only [hmobile, Bool.not_true, Bool.false_eq_true, if_false]
    by_cases hd : |w.scrollTop - nav.lastScrollTop| < MobileConfig.scrollThreshold
    · have hnd : ¬ MobileConfig.scrollThreshold ≤ |w.scrollTop - nav.lastScrollTop| :=
        not_le.2 hd
      simp [hd, hnd, hvisible]
    · have hnd : MobileConfig.scrollThreshold ≤ |w.scrollTop - nav.lastScrollTop| :=
        not_lt.1 hd
      by_cases hdown : w.scrollTop > nav.lastScrollTop ∧ w.scrollTop > 100
      · simp [hd, hnd, hdown, hideNavigation, hvisible]
      · simp [hd, hnd, hdown, showNavigation, hvisible]
  refine ⟨rfl, rfl, ?_, ?_⟩
  · rw [hcases, Bool.not_eq_false', decide_eq_true_eq]
  · rw [hcases, Bool.not_eq_true', decide_eq_false_iff_not]

theorem handleScroll_hides_iff_witness :
    (handleScroll ((MobileNavigation.construct plainNav).run [phoneAt 100])
      (phoneAt 110)).isVisible = false :=
  (handleScroll_hides_iff plainNav ((MobileNavigation.construct plainNav).run [phoneAt 100])
    (phoneAt 110) (by decide) (by decide)).2.2.1.2 (by decide)

theorem handleScroll_hidden_inv (nav : MobileNavigation) (w : Window)
    (h : nav.isVisible = false → nav.lastScrollTop > 100) :
    (handleScroll nav w).isVisible = false → (handleScroll nav w).lastScrollTop > 100 := by
  unfold handleScroll
  by_cases hm : DeviceDetection.isMobile w = true
  swap
  · simpa [hm] using h
  simp only [hm, Bool.not_true, Bool.false_eq_true, if_false]
  by_cases hd : |w.scrollTop - nav.lastScrollTop| < MobileConfig.scrollThreshold
  · simpa [hd] using h
  · simp only [hd, if_false]
    by_cases hdown : w.scrollTop > nav.lastScrollTop ∧ w.scrollTop > 100
    · intro _; exact hdown.2
    · simp only [hdown, if_false]
      intro hv
      unfold showNavigation at hv
      by_cases hvis : nav.isVisible = true
      · simp [hvis] at hv
      · simp [hvis] at hv

theorem run_hidden_inv (nav : MobileNavigation) (ws : List Window)
    (h : nav.isVisible = false → nav.lastScrollTop > 100) :
    (nav.run ws).isVisible = false → (nav.run ws).lastScrollTop > 100 := by
  induction ws generalizing nav with
  | nil => exact h
  | cons w ws ih => exact ih (handleScroll nav w) (handleScroll_hidden_inv nav w h)

/-- C10: in every state reached from the initial navigation by `handleScroll`
steps, a hidden navigation has `lastScrollTop > 100`, and a further
`handleScroll` step whose scroll offset is not below `lastScrollTop` leaves a
hidden navigation hidden: only an upward scroll shows it again. -/
theorem hidden_shown_only_upward (el : NavElement) (ws : List Window) (w : Window) :
    (((MobileNavigation.construct el).run ws).isVisible = false →
      ((MobileNavigation.construct el).run ws).lastScrollTop > 100) ∧
    (((MobileNavigation.construct el).run ws).isVisible = false →
      w.scrollTop ≥ ((MobileNavigation.construct el).run ws).lastScrollTop →
      (handleScroll ((MobileNavigation.construct el).run ws) w).isVisible = false) := by
  have hinv := run_hidden_inv (MobileNavigation.construct el) ws
    (by simp [MobileNavigation.construct])
  refine ⟨hinv, ?_⟩
  intro hhid hge
  have hlast := hinv hhid
  generalize (MobileNavigation.construct el).run ws = nav at hhid hge hlast
  unfold handleScroll
  by_cases hm : DeviceDetection.isMobile w = true
  swap
  · simp [hm, hhid]
  simp only [hm, Bool.not_true, Bool.false_eq_true, if_false]
  by_cases hd : |w.scrollTop - nav.lastScrollTop| < MobileConfig.scrollThreshold
  · simp [hd, hhid]
  · have hgt : w.scrollTop > nav.lastScrollTop := by
      rcases eq_or_lt_of_le hge with heq | hlt
      · exfalso
        apply hd
        rw [← heq]
        simp [MobileConfig.scrollThreshold]
      · exact hlt
    have hdown : w.scrollTop > nav.lastScrollTop ∧ w.scrollTop > 100 :=
      ⟨hgt, lt_trans hlast hgt⟩
    simp [hd, hdown, hideNavigation, hhid]

theorem hidden_shown_only_upward_witness :
    ((MobileNavigation.construct plainNav).run [phoneAt 200]).isVisible = false ∧
    (handleScroll ((MobileNavigation.construct plainNav).run [phoneAt 200])
      (phoneAt 230)).isVisible = false :=
  ⟨by decide,
   (hidden_shown_only_upward plainNav [phoneAt 200] (phoneAt 230)).2 (by decide) (by decide)⟩

/-! ## Reading back a printed integer -/

theorem digitChar_toNat (k : Nat) (hk : k < 10) : (Nat.digitChar k).toNat = 48 + k := by
  interval_cases k <;> rfl

theorem foldl_decimal_append (l : List Char) (c : Char) (a : Nat) :
    (l ++ [c]).foldl (fun a c => a * 10 + (c.toNat - 48)) a =
      l.foldl (fun a c => a * 10 + (c.toNat - 48)) a * 10 + (c.toNat - 48) := by
  simp [List.foldl_append]

theorem toDigitsCore_spec (fuel n : Nat) (ds : List Char) (h : n < fuel) :
    ∃ l, Nat.toDigitsCore 10 fuel n ds = l ++ ds ∧ l ≠ [] ∧ AllDecimal l ∧
      decimalValue l = n := by
  induction fuel generalizing n ds with
  | zero => omega
  | succ fuel ih =>
    have hd := digitChar_toNat (n % 10) (Nat.mod_lt _ (by decide))
    unfold Nat.toDigitsCore
    dsimp only
    by_cases h0 : n / 10 = 0
    · rw [if_pos h0]
      refine ⟨[Nat.digitChar (n % 10)], rfl, by simp, ?_, ?_⟩
      · intro c hc
        rw [List.mem_singleton] at hc
        subst hc
        omega
      · simp only [decimalValue, List.foldl_cons, List.foldl_nil, hd]
        omega
    · rw [if_neg h0]
      obtain ⟨l, hl, _, hall, hval⟩ := ih (n / 10) (Nat.digitChar (n % 10) :: ds) (by omega)
      refine ⟨l ++ [Nat.digitChar (n % 10)], by simp [hl], by simp, ?_, ?_⟩
      · intro c hc
        rw [List.mem_append, List.mem_singleton] at hc
        rcases hc with hc | hc
        · exact hall c hc
        · subst hc; omega
      · unfold decimalValue at hval ⊢
        rw [foldl_decimal_append, hval, hd]
        omega

theorem toString_nat_spec (n : Nat) :
    ∃ l, (toString n).toList = l ∧ l ≠ [] ∧ AllDecimal l ∧ decimalValue l = n := by
  obtain ⟨l, hl, hne, hall, hval⟩ := toDigitsCore_spec (n + 1) n [] (Nat.lt_succ_self n)
  refine ⟨l, ?_, hne, hall, hval⟩
  show (Nat.repr n).toList = l
  unfold Nat.repr Nat.toDigits
  rw [hl]
  simp [List.asString]

theorem digitValue_decimal (c : Char) (hc : 48 ≤ c.toNat ∧ c.toNat ≤ 57) :
    digitValue 10 c = some (c.toNat - 48) := by
  unfold digitValue
  simp only [hc.1, hc.2, and_self, if_true]
  have : c.toNat - 48 < 10 := by omega
  simp [Option.filter, this]

theorem readDigits_decimal (l : List Char) (hall : AllDecimal l) (acc : Option Nat) :
    readDigits 10 l acc =
      if l = [] then acc
      else some (l.foldl (fun a c => a * 10 + (c.toNat - 48)) (acc.getD 0)) := by
  induction l generalizing acc with
  | nil => simp [readDigits]
  | cons c cs ih =>
    have hc := hall c (List.mem_cons_self c cs)
    have hcs : AllDecimal cs := fun d hd => hall d (List.mem_cons_of_mem c hd)
    unfold readDigits
    rw [digitValue_decimal c hc]
    dsimp only
    rw [ih hcs]
    by_cases hnil : cs = []
    · subst hnil; simp
    · simp [hnil]

theorem radix_of_decimal (l : List Char) (hall : AllDecimal l) :
    (match l with
      | '0' :: 'x' :: rest => (16, rest)
      | '0' :: 'X' :: rest => (16, rest)
      | _ => (10, l)) = (10, l) := by
  split
  · have hx := hall 'x' (List.mem_cons_of_mem _ (List.mem_cons_self _ _))
    exact absurd hx.2 (by decide)
  · have hx := hall 'X' (List.mem_cons_of_mem _ (List.mem_cons_self _ _))
    exact absurd hx.2 (by decide)
  · rfl

theorem parseInt_decimal (text : String) (l : List Char) (hl : text.toList = l)
    (hne : l ≠ []) (hall : AllDecimal l) : parseInt text = some (decimalValue l : ℤ) := by
  cases l with
  | nil => exact absurd rfl hne
  | cons c cs =>
    have hc := hall c (List.mem_cons_self c cs)
    have hws : isStrWhiteSpace c = false := by
      unfold isStrWhiteSpace
      simp only [decide_eq_false_iff_not, List.mem_cons, List.mem_singleton, not_or,
        List.not_mem_nil, or_false]
      omega
    have hminus : c ≠ '-' := by
      rintro rfl
      exact absurd hc.1 (by decide)
    have hplus : c ≠ '+' := by
      rintro rfl
      exact absurd hc.1 (by decide)
    have hsigned : (match c :: cs with
        | '-' :: rest => (true, rest)
        | '+' :: rest => (false, rest)
        | _ => (false, c :: cs)) = (false, c :: cs) := by
      split
      · rename_i heq; exact absurd (List.cons.inj heq).1 hminus
      · rename_i heq; exact absurd (List.cons.inj heq).1 hplus
      · rfl
    unfold parseInt
    rw [hl]
    simp only [List.dropWhile_cons, hws, Bool.false_eq_true, if_false]
    rw [hsigned]
    dsimp only
    rw [radix_of_decimal (c :: cs) hall]
    dsimp only
    rw [readDigits_decimal (c :: cs) hall none]
    simp [decimalValue]

theorem parseInt_minus_decimal (text : String) (l : List Char) (hl : text.toList = '-' :: l)
    (hne : l ≠ []) (hall : AllDecimal l) : parseInt text = some (-(decimalValue l : ℤ)) := by
  have hws : isStrWhiteSpace '-' = false := by decide
  unfold parseInt
  rw [hl]
  simp only [List.dropWhile_cons, hws, Bool.false_eq_true, if_false]
  rw [radix_of_decimal l hall]
  dsimp only
  rw [readDigits_decimal l hall none]
  simp [decimalValue, hne]

theorem parseInt_toString (v : ℤ) : parseInt (toString v) = some v := by
  cases v with
  | ofNat n =>
    obtain ⟨l, hl, hne, hall, hval⟩ := toString_nat_spec n
    have : toString (Int.ofNat n) = toString n := rfl
    rw [this, parseInt_decimal _ l hl hne hall, hval]
    rfl
  | negSucc n =>
    obtain ⟨l, hl, hne, hall, hval⟩ := toString_nat_spec (n + 1)
    have : toString (Int.negSucc n) = "-" ++ toString (n + 1) := rfl
    have hlist : ("-" ++ toString (n + 1)).toList = '-' :: l := by
      have hdata : (toString (n + 1)).data = l := hl
      rw [String.toList, String.data_append, hdata]
      rfl
    rw [this, parseInt_minus_decimal _ l hlist hne hall, hval]
    rfl

/-! ## Claims on the quantity control -/

theorem orDefault_some_zero (v : ℤ) : orDefault (some v) 0 = v := by
  unfold orDefault
  by_cases h : v = 0 <;> simp [h]

theorem currentValue_toString (input : QtyInput) (v : ℤ) (h : input.value = toString v) :
    input.currentValue = v := by
  unfold QtyInput.currentValue
  rw [h, parseInt_toString, orDefault_some_zero]

theorem updateQuantity_range (input : QtyInput) (delta : ℤ) (hbounds : input.min ≤ input.max) :
    (updateQuantity input delta).minAttr = input.minAttr ∧
    (updateQuantity input delta).maxAttr = input.maxAttr ∧
    input.min ≤ (updateQuantity input delta).currentValue ∧
    (updateQuantity input delta).currentValue ≤ input.max := by
  have hlo : input.min ≤ Max.max input.min (Min.min input.max (input.currentValue + delta)) :=
    le_max_left _ _
  have hhi : Max.max input.min (Min.min input.max (input.currentValue + delta)) ≤ input.max :=
    max_le hbounds (min_le_left _ _)
  unfold updateQuantity
  dsimp only
  split
  · refine ⟨rfl, rfl, ?_, ?_⟩
    · rw [currentValue_toString _ _ rfl]; exact hlo
    · rw [currentValue_toString _ _ rfl]; exact hhi
  · rename_i heq
    have heq' := not_not.1 heq
    refine ⟨rfl, rfl, ?_, ?_⟩
    · rw [← heq']; exact hlo
    · rw [← heq']; exact hhi

theorem validateQuantityInput_range (input : QtyInput) (hbounds : input.min ≤ input.max) :
    (validateQuantityInput input).minAttr = input.minAttr ∧
    (validateQuantityInput input).maxAttr = input.maxAttr ∧
    input.min ≤ (validateQuantityInput input).currentValue ∧
    (validateQuantityInput input).currentValue ≤ input.max := by
  unfold validateQuantityInput
  dsimp only
  split
  · refine ⟨rfl, rfl, ?_, ?_⟩
    · rw [currentValue_toString _ _ rfl]
    · rw [currentValue_toString _ _ rfl]; exact hbounds
  · rename_i v hv
    split
    · refine ⟨rfl, rfl, ?_, ?_⟩
      · rw [currentValue_toString _ _ rfl]
      · rw [currentValue_toString _ _ rfl]; exact hbounds
    · rename_i hlo
      split
      · refine ⟨rfl, rfl, ?_, ?_⟩
        · rw [currentValue_toString _ _ rfl]; exact hbounds
        · rw [currentValue_toString _ _ rfl]
      · rename_i hhi
        have hcur : input.currentValue = v := by
          unfold QtyInput.currentValue
          rw [hv, orDefault_some_zero]
        refine ⟨rfl, rfl, ?_, ?_⟩
        · rw [hcur]; exact not_lt.1 hlo
        · rw [hcur]; exact not_lt.1 hhi

theorem QtyInput.step_range (input : QtyInput) (op : QtyOp) (hbounds : input.min ≤ input.max) :
    (input.step op).minAttr = input.minAttr ∧
    (input.step op).maxAttr = input.maxAttr ∧
    input.min ≤ (input.step op).currentValue ∧
    (input.step op).currentValue ≤ input.max := by
  cases op with
  | plus => exact updateQuantity_range input 1 hbounds
  | minus => exact updateQuantity_range input (-1) hbounds
  | edit text => exact validateQuantityInput_range { input with value := text } hbounds

theorem QtyInput.run_attrs (input : QtyInput) (ops : List QtyOp)
    (hbounds : input.min ≤ input.max) :
    (input.run ops).minAttr = input.minAttr ∧ (input.run ops).maxAttr = input.maxAttr := by
  induction ops generalizing input with
  | nil => exact ⟨rfl, rfl⟩
  | cons op ops ih =>
    have hs := input.step_range op hbounds
    have hb : (input.step op).min ≤ (input.step op).max := by
      unfold QtyInput.min QtyInput.max
      rw [hs.1, hs.2.1]
      exact hbounds
    have := ih (input.step op) hb
    exact ⟨this.1.trans hs.1, this.2.trans hs.2.1⟩

/-- C7, as stated, fails: with `min = 0` and `max = 10`, typing `10.5` passes
validation untouched, so the value is not an integer within the bounds; and
with `min = 5` above `max = 3` the plus button produces 5, above `max`. -/
theorem quantity_value_escapes :
    (qtyZeroToTen.min = 0 ∧ qtyZeroToTen.max = 10 ∧
      (qtyZeroToTen.run [.edit "10.5"]).value = "10.5" ∧
      ¬ IsIntegerIn (qtyZeroToTen.run [.edit "10.5"]).value 0 10) ∧
    (qtyCrossed.min = 5 ∧ qtyCrossed.max = 3 ∧
      (qtyCrossed.run [.plus]).value = "5" ∧
      ¬ IsIntegerIn (qtyCrossed.run [.plus]).value 5 3) := by
  refine ⟨⟨by decide, by decide, by decide, ?_⟩, ⟨by decide, by decide, by decide, ?_⟩⟩
  · rintro ⟨v, hv, -, -⟩
    have hvalue : (qtyZeroToTen.run [.edit "10.5"]).value = "10.5" := by decide
    rw [hvalue] at hv
    have hparse : parseInt "10.5" = some v := by rw [hv]; exact parseInt_toString v
    have hten : parseInt "10.5" = some 10 := by decide
    have hv10 : v = 10 := by
      rw [hten] at hparse
      exact (Option.some.inj hparse).symm
    subst hv10
    exact absurd hv (by decide)
  · rintro ⟨v, -, hlo, hhi⟩
    omega

/-- C7, amended: when the bounds the control reads from the attributes,
`min = parseInt(min) || 0` and `max = parseInt(max) || 999`, satisfy
`min ≤ max`, then after every operation of a sequence of plus clicks, minus
clicks and validated direct edits the bounds are unchanged and the quantity the
control reads from the input, `parseInt(value) || 0`, is an integer between
`min` and `max`. -/
theorem quantity_within_bounds (input : QtyInput) (ops : List QtyOp) (hops : ops ≠ [])
    (hbounds : input.min ≤ input.max) :
    (input.run ops).min = input.min ∧ (input.run ops).max = input.max ∧
    input.min ≤ (input.run ops).currentValue ∧
    (input.run ops).currentValue ≤ input.max := by
  obtain ⟨init, op, rfl⟩ : ∃ init op, ops = init ++ [op] :=
    ⟨ops.dropLast, ops.getLast hops, (List.dropLast_append_getLast hops).symm⟩
  have hattrs := input.run_attrs init hbounds
  have hmin : (input.run init).min = input.min := by
    unfold QtyInput.min; rw [hattrs.1]
  have hmax : (input.run init).max = input.max := by
    unfold QtyInput.max; rw [hattrs.2]
  have hs := (input.run init).step_range op (by rw [hmin, hmax]; exact hbounds)
  have hrun : input.run (init ++ [op]) = (input.run init).step op := by
    simp [QtyInput.run, List.foldl_append]
  rw [hrun]
  refine ⟨?_, ?_, ?_, ?_⟩
  · unfold QtyInput.min; rw [hs.1, hattrs.1]
  · unfold QtyInput.max; rw [hs.2.1, hattrs.2]
  · rw [← hmin]; exact hs.2.2.1
  · rw [← hmax]; exact hs.2.2.2

theorem quantity_within_bounds_witness :
    qtyZeroToTen.min ≤ qtyZeroToTen.max ∧
    (0 : ℤ) ≤ (qtyZeroToTen.run [.edit "10.5", .plus, .edit "abc", .minus]).currentValue ∧
    (qtyZeroToTen.run [.edit "10.5", .plus, .edit "abc", .minus]).currentValue ≤ 10 :=
  have h := quantity_within_bounds qtyZeroToTen [.edit "10.5", .plus, .edit "abc", .minus]
    (by decide) (by decide)
  ⟨by decide, h.2.2.1, h.2.2.2⟩

/-- C8, failing input: typing `1000` into an input without attributes makes
`validateQuantityInput` replace the value by `999` without dispatching any
event, whereas the plus button changes the value and dispatches a bubbling
`change` event. -/
theorem validateQuantityInput_silent_clamp :
    qtyPlain.step (.edit "1000") = { qtyPlain with value := "999" } ∧
    (qtyPlain.step (.edit "1000")).dispatched = [] ∧
    (qtyPlain.step .plus).value = "2" ∧
    (qtyPlain.step .plus).dispatched = [⟨"change", true⟩] := by
  decide

/-! ## Claims on direct visibility calls -/

theorem NavCall.apply_inSync (c : NavCall) (nav : MobileNavigation) (h : nav.InSync) :
    (c.apply nav).InSync := by
  cases c with
  | hideNavigation =>
    unfold NavCall.apply Tienda.hideNavigation
    by_cases hv : nav.isVisible = true
    · simp [hv, MobileNavigation.InSync]
    · simpa [hv] using h
  | showNavigation =>
    unfold NavCall.apply Tienda.showNavigation
    by_cases hv : nav.isVisible = true
    · simpa [hv] using h
    · simp [hv, MobileNavigation.InSync]

theorem MobileNavigation.call_inSync (nav : MobileNavigation) (calls : List NavCall)
    (h : nav.InSync) : (nav.call calls).InSync := by
  induction calls generalizing nav with
  | nil => exact h
  | cons c cs ih => exact ih (c.apply nav) (c.apply_inSync nav h)

theorem NavCall.apply_changes_all (c : NavCall) (nav : MobileNavigation) (h : nav.InSync)
    (hchange : (c.apply nav).mobileNav.transform ≠ nav.mobileNav.transform ∨
      (c.apply nav).mobileNav.ariaHidden ≠ nav.mobileNav.ariaHidden ∨
      (c.apply nav).isVisible ≠ nav.isVisible) :
    (c.apply nav).mobileNav.transform ≠ nav.mobileNav.transform ∧
      (c.apply nav).mobileNav.ariaHidden ≠ nav.mobileNav.ariaHidden ∧
      (c.apply nav).isVisible ≠ nav.isVisible := by
  obtain ⟨h1, h2⟩ := h
  cases c with
  | hideNavigation =>
    unfold NavCall.apply Tienda.hideNavigation at hchange ⊢
    by_cases hv : nav.isVisible = true
    · have ha : nav.mobileNav.ariaHidden ≠ some "true" := fun hc => by
        have := h2.1 hc
        rw [hv] at this
        exact absurd this (by decide)
      have ht : nav.mobileNav.transform ≠ "translateY(100%)" := fun hc => ha (h1.1 hc)
      simp only [hv, Bool.not_true, Bool.false_eq_true, if_false]
      exact ⟨fun hc => ht hc.symm, fun hc => ha hc.symm, by decide⟩
    · simp [hv] at hchange
  | showNavigation =>
    unfold NavCall.apply Tienda.showNavigation at hchange ⊢
    by_cases hv : nav.isVisible = true
    · simp [hv] at hchange
    · have hf : nav.isVisible = false := by simpa using hv
      have ha : nav.mobileNav.ariaHidden = some "true" := h2.2 hf
      have ht : nav.mobileNav.transform = "translateY(100%)" := h1.2 ha
      rw [ha, ht, hf]
      simp only [Bool.false_eq_true, if_false]
      exact ⟨by decide, by decide, by decide⟩

/-- C11: for a `.mobile-nav` element that starts without the hiding transform
and without `aria-hidden = true`, in every state reached by any sequence of
`hideNavigation` and `showNavigation` calls the transform is `translateY(100%)`
exactly when `aria-hidden` is `true`, exactly when `isVisible` is false; and a
further call that changes the transform, `aria-hidden` or `isVisible` changes
all three. -/
theorem transform_aria_in_sync (el : NavElement) (calls : List NavCall) (c : NavCall)
    (htransform : el.transform ≠ "translateY(100%)")
    (haria : el.ariaHidden ≠ some "true") :
    ((MobileNavigation.construct el).call calls).InSync ∧
    ((c.apply ((MobileNavigation.construct el).call calls)).mobileNav.transform ≠
        ((MobileNavigation.construct el).call calls).mobileNav.transform ∨
      (c.apply ((MobileNavigation.construct el).call calls)).mobileNav.ariaHidden ≠
        ((MobileNavigation.construct el).call calls).mobileNav.ariaHidden ∨
      (c.apply ((MobileNavigation.construct el).call calls)).isVisible ≠
        ((MobileNavigation.construct el).call calls).isVisible →
      (c.apply ((MobileNavigation.construct el).call calls)).mobileNav.transform ≠
        ((MobileNavigation.construct el).call calls).mobileNav.transform ∧
      (c.apply ((MobileNavigation.construct el).call calls)).mobileNav.ariaHidden ≠
        ((MobileNavigation.construct el).call calls).mobileNav.ariaHidden ∧
      (c.apply ((MobileNavigation.construct el).call calls)).isVisible ≠
        ((MobileNavigation.construct el).call calls).isVisible) := by
  have hinit : (MobileNavigation.construct el).InSync := by
    unfold MobileNavigation.InSync MobileNavigation.construct
    simp [htransform, haria]
  have hsync := (MobileNavigation.construct el).call_inSync calls hinit
  exact ⟨hsync, c.apply_changes_all _ hsync⟩

theorem transform_aria_in_sync_witness :
    plainNav.transform ≠ "translateY(100%)" ∧ plainNav.ariaHidden ≠ some "true" ∧
    ((MobileNavigation.construct plainNav).call [.showNavigation, .hideNavigation, .hideNavigation]).InSync ∧
    (NavCall.showNavigation.apply
      ((MobileNavigation.construct plainNav).call [.showNavigation, .hideNavigation, .hideNavigation])).mobileNav.ariaHidden ≠
      ((MobileNavigation.construct plainNav).call [.showNavigation, .hideNavigation, .hideNavigation]).mobileNav.ariaHidden :=
  ⟨by decide, by decide,
    (transform_aria_in_sync plainNav [.showNavigation, .hideNavigation, .hideNavigation] .showNavigation (by decide) (by decide)).1,
    ((transform_aria_in_sync plainNav [.showNavigation, .hideNavigation, .hideNavigation] .showNavigation (by decide) (by decide)).2
      (Or.inr (Or.inr (by decide)))).2.1⟩

/-! ## Claims on PerfUtils.throttle -/

theorem Throttled.step_limit {α : Type} (s : Throttled α) (ev : LoopEvent α) :
    (s.step ev).limit = s.limit := by
  cases ev with
  | call elapsed args =>
    unfold Throttled.step
    dsimp only
    split <;> rfl
  | timer elapsed =>
    unfold Throttled.step
    dsimp only
    split
    · split <;> rfl
    · rfl

theorem Throttled.run_limit {α : Type} (s : Throttled α) (events : List (LoopEvent α)) :
    (s.run events).limit = s.limit := by
  induction events generalizing s with
  | nil => rfl
  | cons ev evs ih =>
    show ((s.step ev).run evs).limit = s.limit
    rw [ih, s.step_limit]

theorem Throttled.Inv.throttleStep {α : Type} {s : Throttled α} (h : s.Inv) (ev : LoopEvent α) :
    (s.step ev).Inv := by
  obtain ⟨limit, inThrottle, timers, now, invoked⟩ := s
  obtain ⟨hspaced, hclosed, hopened⟩ := h
  dsimp only at hspaced hclosed hopened
  cases inThrottle with
  | false =>
    obtain ⟨htimers, hpast⟩ := hclosed rfl
    subst htimers
    cases ev with
    | call elapsed args =>
      refine ⟨?_, ?_, ?_⟩
      · show List.Pairwise _ (invoked ++ [(now + elapsed, args)])
        rw [List.pairwise_append]
        refine ⟨hspaced, List.pairwise_singleton _ _, ?_⟩
        intro a ha b hb
        rw [List.mem_singleton] at hb
        subst hb
        have := hpast a ha
        show a.1 + limit ≤ now + elapsed
        omega
      · intro hc; exact absurd hc (by simp [Throttled.step])
      · intro _
        refine ⟨now + elapsed, by simp [Throttled.step], ?_⟩
        intro e he
        have he2 : e ∈ invoked ++ [(now + elapsed, args)] := he
        rw [List.mem_append, List.mem_singleton] at he2
        rcases he2 with he2 | he2
        · have := hpast e he2; omega
        · subst he2; exact le_refl _
    | timer elapsed =>
      refine ⟨hspaced, ?_, ?_⟩
      · intro _
        refine ⟨rfl, ?_⟩
        intro e he
        have := hpast e he
        show e.1 + limit ≤ now + elapsed
        omega
      · intro hc; exact absurd hc (by simp [Throttled.step])
  | true =>
    obtain ⟨t, htimers, hle⟩ := hopened rfl
    subst htimers
    cases ev with
    | call elapsed args =>
      refine ⟨hspaced, ?_, ?_⟩
      · intro hc; exact absurd hc (by simp [Throttled.step])
      · intro _; exact ⟨t, rfl, hle⟩
    | timer elapsed =>
      by_cases hdue : t + limit ≤ now + elapsed
      · have hstep : Throttled.step ⟨limit, true, [t + limit], now, invoked⟩ (.timer elapsed) =
            ⟨limit, false, [], now + elapsed, invoked⟩ := by
          simp [Throttled.step, hdue]
        rw [hstep]
        refine ⟨hspaced, ?_, ?_⟩
        · intro _
          refine ⟨rfl, ?_⟩
          intro e he
          have := hle e he
          show e.1 + limit ≤ now + elapsed
          omega
        · intro hc; simp at hc
      · have hstep : Throttled.step ⟨limit, true, [t + limit], now, invoked⟩ (.timer elapsed) =
            ⟨limit, true, [t + limit], now + elapsed, invoked⟩ := by
          simp [Throttled.step, hdue]
        rw [hstep]
        refine ⟨hspaced, ?_, ?_⟩
        · intro hc; simp at hc
        · intro _; exact ⟨t, rfl, hle⟩

theorem Throttled.Inv.throttleRun {α : Type} {s : Throttled α} (h : s.Inv)
    (events : List (LoopEvent α)) : (s.run events).Inv := by
  induction events generalizing s with
  | nil => exact h
  | cons ev evs ih => exact ih (h.throttleStep ev)

theorem Throttled.Inv.freshThrottle (α : Type) (limit : Nat) : (PerfUtils.throttle α limit).Inv := by
  refine ⟨?_, ?_, ?_⟩ <;> simp [PerfUtils.throttle]

theorem Throttled.step_invoked_prefix {α : Type} (s : Throttled α) (ev : LoopEvent α) :
    s.invoked <+: (s.step ev).invoked := by
  cases ev with
  | call elapsed args =>
    unfold Throttled.step
    dsimp only
    split
    · exact List.prefix_append _ _
    · exact List.prefix_refl _
  | timer elapsed =>
    unfold Throttled.step
    dsimp only
    split
    · split <;> exact List.prefix_refl _
    · exact List.prefix_refl _

theorem Throttled.run_invoked_prefix {α : Type} (s : Throttled α)
    (events : List (LoopEvent α)) : s.invoked <+: (s.run events).invoked := by
  induction events generalizing s with
  | nil => exact List.prefix_refl _
  | cons ev evs ih => exact (s.step_invoked_prefix ev).trans (ih (s.step ev))

theorem Throttled.throttle_run_append {α : Type} (s : Throttled α) (xs ys : List (LoopEvent α)) :
    s.run (xs ++ ys) = (s.run xs).run ys := by
  simp [Throttled.run, List.foldl_append]

theorem Throttled.run_onlyTimers {α : Type} (limit : Nat) (pre : List (LoopEvent α))
    (now : Nat) (hpre : onlyTimers pre = true) :
    ({ limit := limit, inThrottle := false, timers := [], now := now, invoked := [] } :
        Throttled α).run pre =
      { limit := limit, inThrottle := false, timers := [], now := now + elapsedTotal pre,
        invoked := [] } := by
  induction pre generalizing now with
  | nil => simp [Throttled.run, elapsedTotal]
  | cons ev evs ih =>
    cases ev with
    | call elapsed args => simp [onlyTimers] at hpre
    | timer elapsed =>
      have hrest : onlyTimers evs = true := by simpa [onlyTimers] using hpre
      show (Throttled.step _ (.timer elapsed)).run evs = _
      unfold Throttled.step
      dsimp only
      rw [ih (now + elapsed) hrest]
      simp [elapsedTotal, Nat.add_assoc]

theorem throttle_first_call {α : Type} (limit : Nat) (pre post : List (LoopEvent α))
    (elapsed : Nat) (args : α) (hpre : onlyTimers pre = true) :
    ((PerfUtils.throttle α limit).run (pre ++ .call elapsed args :: post)).invoked.head? =
      some (elapsedTotal pre + elapsed, args) := by
  rw [Throttled.throttle_run_append]
  unfold PerfUtils.throttle
  rw [Throttled.run_onlyTimers limit pre 0 hpre]
  show ((Throttled.step _ (.call elapsed args)).run post).invoked.head? = _
  have hpfx := Throttled.run_invoked_prefix
    (Throttled.step (⟨limit, false, [], 0 + elapsedTotal pre, []⟩ : Throttled α)
      (.call elapsed args)) post
  obtain ⟨rest, hrest⟩ := hpfx
  rw [← hrest]
  simp [Throttled.step]

/-- C13: for every sequence of calls and timer turns on a function made by
`PerfUtils.throttle(func, limit)`, any two calls of `func` are at least
`limit` milliseconds apart, the first call of the sequence calls `func` (with
its own arguments, at its own time), and a call arriving while the window is
open is dropped. -/
theorem throttle_rate_bound {α : Type} (limit : Nat) (events pre post : List (LoopEvent α))
    (elapsed : Nat) (args : α) :
    ((PerfUtils.throttle α limit).run events).invoked.Pairwise
      (fun a b => a.1 + limit ≤ b.1) ∧
    (onlyTimers pre = true →
      ((PerfUtils.throttle α limit).run (pre ++ .call elapsed args :: post)).invoked.head? =
        some (elapsedTotal pre + elapsed, args)) ∧
    (((PerfUtils.throttle α limit).run events).inThrottle = true →
      (((PerfUtils.throttle α limit).run events).step (.call elapsed args)).invoked =
        ((PerfUtils.throttle α limit).run events).invoked) := by
  refine ⟨?_, throttle_first_call limit pre post elapsed args, ?_⟩
  · have h := ((Throttled.Inv.freshThrottle α limit).throttleRun events).spaced
    rw [Throttled.run_limit] at h
    exact h
  · intro hopen
    unfold Throttled.step
    simp [hopen]

theorem throttle_rate_bound_witness :
    ((PerfUtils.throttle Nat 16).run
      [.timer 3, .call 2 7, .call 5 8, .timer 11, .call 1 9]).invoked.head? = some (5, 7) :=
  (throttle_rate_bound 16 [] [.timer 3] [.call 5 8, .timer 11, .call 1 9] 2 7).2.1 (by decide)

/-! ## Claims on the throttled scroll listener -/

theorem Throttled.run_timers_invoked {α : Type} (s : Throttled α) (polls : List (LoopEvent α))
    (hpolls : onlyTimers polls = true) : (s.run polls).invoked = s.invoked := by
  induction polls generalizing s with
  | nil => rfl
  | cons ev evs ih =>
    cases ev with
    | call elapsed args => simp [onlyTimers] at hpolls
    | timer elapsed =>
      have hrest : onlyTimers evs = true := by simpa [onlyTimers] using hpolls
      show ((s.step (.timer elapsed)).run evs).invoked = s.invoked
      rw [ih _ hrest]
      unfold Throttled.step
      dsimp only
      split
      · split <;> rfl
      · rfl

/-- C12, as stated, fails: a scroll to offset 50 followed 5 ms later by a scroll
to offset 200 runs `handleScroll` for the first event only; the second event
is dropped, no timer is left that could run it later, and the navigation stays
visible with `lastScrollTop = 50`, although `handleScroll` at the final offset
would hide it. -/
theorem last_scroll_event_dropped :
    (((PerfUtils.throttle Window 16).run
        [.call 0 (phoneAt 50), .call 5 (phoneAt 200), .timer 11]).invoked.map Prod.snd =
      [phoneAt 50]) ∧
    ((PerfUtils.throttle Window 16).run
        [.call 0 (phoneAt 50), .call 5 (phoneAt 200), .timer 11]).timers = [] ∧
    ((MobileNavigation.construct plainNav).afterScrollEvents
        [.call 0 (phoneAt 50), .call 5 (phoneAt 200), .timer 11]).lastScrollTop = 50 ∧
    ((MobileNavigation.construct plainNav).afterScrollEvents
        [.call 0 (phoneAt 50), .call 5 (phoneAt 200), .timer 11]).isVisible = true ∧
    (handleScroll ((MobileNavigation.construct plainNav).afterScrollEvents
        [.call 0 (phoneAt 50), .call 5 (phoneAt 200), .timer 11]) (phoneAt 200)).isVisible =
      false := by
  decide

/-- C12, amended: a scroll event that arrives while the throttle window is
closed runs `handleScroll` at once, so the navigation then reflects its scroll
position; a scroll event that arrives while the window is open is dropped: it
changes neither the navigation nor the pending timers, and the timer turns
that follow never run `handleScroll` for it. -/
theorem last_scroll_event_throttled (nav : MobileNavigation) (events : List (LoopEvent Window))
    (elapsed : Nat) (w : Window) (polls : List (LoopEvent Window))
    (hpolls : onlyTimers polls = true) :
    (((PerfUtils.throttle Window 16).run events).inThrottle = false →
      nav.afterScrollEvents (events ++ .call elapsed w :: polls) =
        handleScroll (nav.afterScrollEvents events) w) ∧
    (((PerfUtils.throttle Window 16).run events).inThrottle = true →
      nav.afterScrollEvents (events ++ .call elapsed w :: polls) = nav.afterScrollEvents events ∧
      ((PerfUtils.throttle Window 16).run (events ++ [.call elapsed w])).timers =
        ((PerfUtils.throttle Window 16).run events).timers) := by
  have hsplit : (PerfUtils.throttle Window 16).run (events ++ .call elapsed w :: polls) =
      ((((PerfUtils.throttle Window 16).run events).step (.call elapsed w)).run polls) := by
    rw [Throttled.throttle_run_append]; rfl
  have hone : (PerfUtils.throttle Window 16).run (events ++ [.call elapsed w]) =
      ((PerfUtils.throttle Window 16).run events).step (.call elapsed w) := by
    rw [Throttled.throttle_run_append]; rfl
  constructor
  · intro hclosed
    unfold MobileNavigation.afterScrollEvents
    rw [hsplit, Throttled.run_timers_invoked _ polls hpolls]
    unfold Throttled.step
    simp [hclosed, MobileNavigation.run, List.foldl_append]
  · intro hopen
    constructor
    · unfold MobileNavigation.afterScrollEvents
      rw [hsplit, Throttled.run_timers_invoked _ polls hpolls]
      unfold Throttled.step
      simp [hopen]
    · rw [hone]
      unfold Throttled.step
      simp [hopen]

theorem last_scroll_event_throttled_witness :
    (MobileNavigation.construct plainNav).afterScrollEvents
        ([.call 0 (phoneAt 50), .timer 16] ++ .call 4 (phoneAt 200) :: [.timer 30]) =
      handleScroll ((MobileNavigation.construct plainNav).afterScrollEvents
        [.call 0 (phoneAt 50), .timer 16]) (phoneAt 200) :=
  (last_scroll_event_throttled (MobileNavigation.construct plainNav)
    [.call 0 (phoneAt 50), .timer 16] 4 (phoneAt 200) [.timer 30] (by decide)).1 (by decide)

/-! ## Claims on PerfUtils.debounce -/

theorem dueTimer_idle {α : Type} (timers : List (DebounceTimer α)) (now : Nat)
    (h : ∀ t ∈ timers, t.pending = false) : dueTimer timers now = none := by
  induction timers with
  | nil => rfl
  | cons t ts ih =>
    have ht := h t (List.mem_cons_self _ _)
    have hts := ih (fun u hu => h u (List.mem_cons_of_mem _ hu))
    simp [dueTimer, ht, hts]

theorem dueTimer_newest {α : Type} (olds : List (DebounceTimer α)) (x : DebounceTimer α)
    (now : Nat) (h : ∀ t ∈ olds, t.pending = false) :
    dueTimer (olds ++ [x]) now =
      if x.pending && decide (x.due ≤ now) then some olds.length else none := by
  induction olds with
  | nil =>
    simp only [List.nil_append, dueTimer, List.length_nil]
    split <;> rfl
  | cons t ts ih =>
    have ht := h t (List.mem_cons_self _ _)
    have hts := ih (fun u hu => h u (List.mem_cons_of_mem _ hu))
    rw [List.cons_append, dueTimer, hts]
    simp only [ht, Bool.false_and, Bool.false_eq_true, if_false, List.length_cons]
    split <;> rfl

theorem get?_newest {α : Type} (olds : List α) (x : α) :
    (olds ++ [x]).get? olds.length = some x := by
  induction olds with
  | nil => rfl
  | cons t ts ih => simp

theorem set_newest {α : Type} (olds : List α) (x y : α) :
    (olds ++ [x]).set olds.length y = olds ++ [y] := by
  induction olds with
  | nil => rfl
  | cons t ts ih => simp [ih]

theorem Debounced.debounce_run_append {α : Type} (s : Debounced α) (xs ys : List (LoopEvent α)) :
    s.run (xs ++ ys) = (s.run xs).run ys := by
  simp [Debounced.run, List.foldl_append]

theorem Debounced.step_now {α : Type} (s : Debounced α) (ev : LoopEvent α) :
    (s.step ev).now = s.now + elapsedTotal [ev] := by
  cases ev with
  | call elapsed args => simp [Debounced.step, elapsedTotal]
  | timer elapsed =>
    unfold Debounced.step
    dsimp only
    split
    · split <;> simp [elapsedTotal]
    · simp [elapsedTotal]

theorem elapsedTotal_cons {α : Type} (ev : LoopEvent α) (evs : List (LoopEvent α)) :
    elapsedTotal (ev :: evs) = elapsedTotal [ev] + elapsedTotal evs := by
  cases ev <;> simp [elapsedTotal]

theorem Debounced.run_now {α : Type} (s : Debounced α) (events : List (LoopEvent α)) :
    (s.run events).now = s.now + elapsedTotal events := by
  induction events generalizing s with
  | nil => simp [Debounced.run, elapsedTotal]
  | cons ev evs ih =>
    show ((s.step ev).run evs).now = _
    rw [ih, s.step_now, elapsedTotal_cons ev evs, Nat.add_assoc]

theorem Debounced.Quiet.timer {α : Type} {s : Debounced α} {wait : Nat} (h : s.Quiet wait)
    (elapsed : Nat) : (s.step (.timer elapsed)).Quiet wait := by
  have hstep : s.step (.timer elapsed) = { s with now := s.now + elapsed } := by
    unfold Debounced.step
    simp [dueTimer_idle s.timers _ h.idle]
  rw [hstep]
  exact ⟨h.wait_eq, h.immediate_eq, h.invoked_eq, h.timeout_eq, h.idle⟩

theorem Debounced.Quiet.firstCall {α : Type} {s : Debounced α} {wait : Nat} (h : s.Quiet wait)
    (elapsed : Nat) (a : α) : (s.step (.call elapsed a)).Armed wait 0 a := by
  have hstep : s.step (.call elapsed a) =
      { s with
        now := s.now + elapsed
        timers := s.timers ++ [⟨s.now + elapsed + s.wait, a, true⟩]
        timeout := some s.timers.length } := by
    unfold Debounced.step
    simp [h.timeout_eq, h.immediate_eq, clearDebounceTimer]
  rw [hstep]
  refine ⟨h.wait_eq, h.immediate_eq, h.invoked_eq, s.timers, s.now + elapsed + s.wait, rfl,
    h.idle, rfl, ?_⟩
  simp [h.wait_eq]

theorem Debounced.Armed.nextCall {α : Type} {s : Debounced α} {wait d : Nat} {a0 : α}
    (h : s.Armed wait d a0) (elapsed : Nat) (a : α) :
    (s.step (.call elapsed a)).Armed wait 0 a := by
  obtain ⟨hwait, himm, hinv, olds, due, htimers, hidle, htimeout, hdue⟩ := h
  have hstep : s.step (.call elapsed a) =
      { s with
        now := s.now + elapsed
        timers := (olds ++ [⟨due, a0, false⟩]) ++ [⟨s.now + elapsed + s.wait, a, true⟩]
        timeout := some (olds ++ [(⟨due, a0, false⟩ : DebounceTimer α)]).length } := by
    unfold Debounced.step
    simp [htimeout, himm, clearDebounceTimer, htimers, get?_newest, set_newest]
  rw [hstep]
  refine ⟨hwait, himm, hinv, olds ++ [⟨due, a0, false⟩], s.now + elapsed + s.wait, rfl, ?_,
    rfl, ?_⟩
  · intro t ht
    rw [List.mem_append, List.mem_singleton] at ht
    rcases ht with ht | ht
    · exact hidle t ht
    · subst ht; rfl
  · simp [hwait]

theorem Debounced.Armed.timer_early {α : Type} {s : Debounced α} {wait d : Nat} {a : α}
    (h : s.Armed wait d a) (elapsed : Nat) (hearly : d + elapsed < wait) :
    (s.step (.timer elapsed)).Armed wait (d + elapsed) a ∧
    (s.step (.timer elapsed)).now = s.now + elapsed := by
  obtain ⟨hwait, himm, hinv, olds, due, htimers, hidle, htimeout, hdue⟩ := h
  have hnot : ¬ due ≤ s.now + elapsed := by omega
  have hstep : s.step (.timer elapsed) = { s with now := s.now + elapsed } := by
    unfold Debounced.step
    simp [htimers, dueTimer_newest olds _ _ hidle, hnot]
  rw [hstep]
  refine ⟨⟨hwait, himm, hinv, olds, due, htimers, hidle, htimeout, ?_⟩, rfl⟩
  show due + (d + elapsed) = s.now + elapsed + wait
  omega

theorem Debounced.Armed.timer_due {α : Type} {s : Debounced α} {wait d : Nat} {a : α}
    (h : s.Armed wait d a) (elapsed : Nat) (hdue : wait ≤ d + elapsed) :
    (s.step (.timer elapsed)).invoked = [(s.now + elapsed, a)] ∧
    ∀ t ∈ (s.step (.timer elapsed)).timers, t.pending = false := by
  obtain ⟨hwait, himm, hinv, olds, due, htimers, hidle, htimeout, hd⟩ := h
  have hle : due ≤ s.now + elapsed := by omega
  have hstep : s.step (.timer elapsed) =
      { s with
        now := s.now + elapsed
        timers := olds ++ [⟨due, a, false⟩]
        timeout := none
        invoked := [(s.now + elapsed, a)] } := by
    unfold Debounced.step
    simp [htimers, dueTimer_newest olds _ _ hidle, hle, get?_newest, set_newest, himm, hinv]
  rw [hstep]
  refine ⟨rfl, ?_⟩
  intro t ht
  have ht2 : t ∈ olds ++ [⟨due, a, false⟩] := ht
  rw [List.mem_append, List.mem_singleton] at ht2
  rcases ht2 with ht2 | ht2
  · exact hidle t ht2
  · subst ht2; rfl

theorem Debounced.run_idle {α : Type} (s : Debounced α) (polls : List Nat)
    (h : ∀ t ∈ s.timers, t.pending = false) :
    (s.run (polls.map LoopEvent.timer)).invoked = s.invoked := by
  induction polls generalizing s with
  | nil => rfl
  | cons e es ih =>
    have hstep : s.step (.timer e) = { s with now := s.now + e } := by
      unfold Debounced.step
      simp [dueTimer_idle s.timers _ h]
    show ((s.step (.timer e)).run (es.map LoopEvent.timer)).invoked = s.invoked
    rw [hstep]
    exact ih { s with now := s.now + e } h

theorem Debounced.Armed.run_early {α : Type} {s : Debounced α} {wait d : Nat} {a : α}
    (h : s.Armed wait d a) (quiet : List Nat) (hquiet : d + quiet.sum < wait) :
    (s.run (quiet.map LoopEvent.timer)).Armed wait (d + quiet.sum) a := by
  induction quiet generalizing s d with
  | nil => simpa using h
  | cons e es ih =>
    rw [List.sum_cons] at hquiet
    have h1 := (h.timer_early e (by omega)).1
    have h2 := ih h1 (by omega)
    rw [List.sum_cons, ← Nat.add_assoc]
    exact h2

theorem withinBurst_before_call {α : Type} (wait x elapsed : Nat) (a : α)
    (events : List (LoopEvent α))
    (h : withinBurst wait (some x) (events ++ [.call elapsed a]) = true) : x < wait := by
  induction events generalizing x with
  | nil =>
    simp [withinBurst] at h
    omega
  | cons ev evs ih =>
    cases ev with
    | call e b =>
      simp [withinBurst] at h
      omega
    | timer e =>
      simp only [List.cons_append, withinBurst] at h
      have := ih (x + e) h
      omega

theorem Debounced.Armed.armed_run_burst {α : Type} {s : Debounced α} {wait d : Nat} {a0 : α}
    (h : s.Armed wait d a0) (events : List (LoopEvent α)) (elapsed : Nat) (a : α)
    (hburst : withinBurst wait (some d) (events ++ [.call elapsed a]) = true) :
    (s.run (events ++ [.call elapsed a])).Armed wait 0 a := by
  induction events generalizing s d a0 with
  | nil => exact h.nextCall elapsed a
  | cons ev evs ih =>
    cases ev with
    | call e b =>
      have hrest : withinBurst wait (some 0) (evs ++ [.call elapsed a]) = true := by
        simp only [List.cons_append, withinBurst, Bool.and_eq_true] at hburst
        exact hburst.2
      exact ih (h.nextCall e b) hrest
    | timer e =>
      have hrest : withinBurst wait (some (d + e)) (evs ++ [.call elapsed a]) = true := by
        simpa [withinBurst] using hburst
      have hearly := withinBurst_before_call wait (d + e) elapsed a evs hrest
      exact ih (h.timer_early e hearly).1 hrest

theorem Debounced.Quiet.quiet_run_burst {α : Type} {s : Debounced α} {wait : Nat}
    (h : s.Quiet wait) (events : List (LoopEvent α)) (elapsed : Nat) (a : α)
    (hburst : withinBurst wait none (events ++ [.call elapsed a]) = true) :
    (s.run (events ++ [.call elapsed a])).Armed wait 0 a := by
  induction events generalizing s with
  | nil => exact h.firstCall elapsed a
  | cons ev evs ih =>
    cases ev with
    | call e b =>
      have hrest : withinBurst wait (some 0) (evs ++ [.call elapsed a]) = true := by
        simpa [withinBurst] using hburst
      exact (h.firstCall e b).armed_run_burst evs elapsed a hrest
    | timer e =>
      have hrest : withinBurst wait none (evs ++ [.call elapsed a]) = true := by
        simpa [withinBurst] using hburst
      exact ih (h.timer e) hrest

theorem Debounced.Quiet.freshDebounce (α : Type) (wait : Nat) :
    (PerfUtils.debounce α wait false).Quiet wait :=
  ⟨rfl, rfl, rfl, rfl, by simp [PerfUtils.debounce]⟩

theorem elapsedTotal_append {α : Type} (xs ys : List (LoopEvent α)) :
    elapsedTotal (xs ++ ys) = elapsedTotal xs + elapsedTotal ys := by
  induction xs with
  | nil => simp [elapsedTotal]
  | cons ev evs ih =>
    rw [List.cons_append, elapsedTotal_cons, ih, elapsedTotal_cons ev evs, Nat.add_assoc]

theorem elapsedTotal_timers {α : Type} (polls : List Nat) :
    elapsedTotal (polls.map (LoopEvent.timer : Nat → LoopEvent α)) = polls.sum := by
  induction polls with
  | nil => rfl
  | cons e es ih => simp [elapsedTotal, ih]

/-- C14: with `immediate = false`, in every burst of calls (each call less than
`wait` milliseconds after the call before it, with any timer turns in
between) `func` is not called during the burst nor during the quiet time that
is shorter than `wait`; the first timer turn at or after `wait` milliseconds
from the last call calls `func` once, with the arguments of the last call, and
no later timer turn calls it again.  When that turn comes exactly `wait`
milliseconds after the last call, that is the time of the call of `func`. -/
theorem debounce_burst {α : Type} (wait : Nat) (burst : List (LoopEvent α)) (elapsed : Nat)
    (a : α) (quiet : List Nat) (e : Nat) (later : List Nat)
    (hburst : withinBurst wait none (burst ++ [.call elapsed a]) = true)
    (hquiet : quiet.sum < wait) (hdue : wait ≤ quiet.sum + e) :
    ((PerfUtils.debounce α wait false).run
      (burst ++ [.call elapsed a] ++ quiet.map LoopEvent.timer)).invoked = [] ∧
    ((PerfUtils.debounce α wait false).run
      (burst ++ [.call elapsed a] ++ quiet.map LoopEvent.timer ++ [.timer e] ++
        later.map LoopEvent.timer)).invoked =
      [(elapsedTotal (burst ++ [.call elapsed a]) + (quiet.sum + e), a)] := by
  have harmed := (Debounced.Quiet.freshDebounce α wait).quiet_run_burst burst elapsed a hburst
  have hnow0 := Debounced.run_now (PerfUtils.debounce α wait false) (burst ++ [.call elapsed a])
  have hquietArmed := harmed.run_early quiet (by omega)
  have hnow1 := Debounced.run_now
    ((PerfUtils.debounce α wait false).run (burst ++ [.call elapsed a]))
    (quiet.map LoopEvent.timer)
  rw [elapsedTotal_timers] at hnow1
  constructor
  · rw [Debounced.debounce_run_append]
    exact hquietArmed.invoked_eq
  · rw [Debounced.debounce_run_append, Debounced.debounce_run_append, Debounced.debounce_run_append]
    have hfire := hquietArmed.timer_due e (by omega)
    have hone : Debounced.run
        (((PerfUtils.debounce α wait false).run (burst ++ [.call elapsed a])).run
          (quiet.map LoopEvent.timer)) [.timer e] =
        Debounced.step
          (((PerfUtils.debounce α wait false).run (burst ++ [.call elapsed a])).run
            (quiet.map LoopEvent.timer)) (.timer e) := rfl
    rw [hone, Debounced.run_idle _ later hfire.2, hfire.1, hnow1, hnow0]
    simp [PerfUtils.debounce, Nat.add_assoc]

theorem debounce_burst_witness :
    ((PerfUtils.debounce Nat 250 false).run
      ([.call 0 1, .timer 100, .call 50 2] ++ [.call 200 3] ++
        [(100 : Nat), 100].map LoopEvent.timer ++ [.timer 50] ++
        [(400 : Nat)].map LoopEvent.timer)).invoked = [(600, 3)] :=
  (debounce_burst 250 [.call 0 1, .timer 100, .call 50 2] 200 3 [100, 100] 50 [400]
    (by decide) (by decide) (by decide)).2

/-! ## Claims on MobileForms submit handling -/

theorem mapGet_mapSet (m : List (Nat × Nat)) (key value : Nat) :
    mapGet (mapSet m key value) key = some value := by
  unfold mapSet
  split
  · rename_i h
    induction m with
    | nil => simp [mapGet] at h
    | cons kv rest ih =>
      by_cases hk : kv.1 = key
      · simp [mapGet, hk]
      · have hrest : (mapGet rest key).isSome = true := by
          simpa [mapGet, hk] using h
        have := ih hrest
        simp only [mapGet, List.map_cons, hk, if_false, List.find?_cons, decide_False] at this ⊢
        exact this
  · rename_i h
    have hnone : mapGet m key = none := by
      cases hg : mapGet m key with
      | none => rfl
      | some v => rw [hg] at h; exact absurd rfl h
    unfold mapGet at hnone ⊢
    rw [List.find?_append]
    cases hf : List.find? (fun kv => decide (kv.1 = key)) m with
    | none => simp
    | some kv => rw [hf] at hnone; simp at hnone

theorem mapGet_mapDelete (m : List (Nat × Nat)) (key : Nat) :
    mapGet (mapDelete m key) key = none := by
  unfold mapGet mapDelete
  induction m with
  | nil => rfl
  | cons kv rest ih =>
    by_cases hk : kv.1 = key
    · simp [List.filter_cons, hk]
    · simp [List.filter_cons, hk, List.find?_cons]

theorem submitBtn_set (buttons : List (Option SubmitButton)) (form : Nat)
    (old new : SubmitButton) (h : (buttons.get? form).join = some old) :
    ((buttons.set form (some new)).get? form).join = some new := by
  have hlt : form < buttons.length := by
    by_contra hge
    rw [List.get?_eq_none.2 (not_lt.1 hge)] at h
    simp at h
  simp [List.getElem?_set, hlt]

theorem not_mem_classRemove (classes : List String) (name : String) :
    name ∉ classRemove classes name := by
  simp [classRemove]

theorem mem_classAdd (classes : List String) (name : String) :
    name ∈ classAdd classes name := by
  unfold classAdd
  split
  · assumption
  · simp

theorem MobileForms.fireTimer_restore (s : MobileForms) (i form delay : Nat)
    (btn : SubmitButton)
    (htimer : s.timers.get? i = some ⟨.restoreSubmit form, delay, true⟩)
    (hbtn : s.submitBtn form = some btn) :
    (s.fireTimer i).submitBtn form =
      some { classList := classRemove btn.classList "loading", disabled := false,
             ariaBusy := some "false" } ∧
    mapGet (s.fireTimer i).submitTimers form = none := by
  unfold MobileForms.fireTimer
  rw [htimer]
  simp only [if_true, MobileForms.runCallback]
  unfold MobileForms.submitBtn at hbtn ⊢
  dsimp only
  rw [hbtn]
  exact ⟨submitBtn_set s.buttons form btn _ hbtn, mapGet_mapDelete _ _⟩

theorem handleFormSubmit_of_enabled (s : MobileForms) (form : Nat) (btn : SubmitButton)
    (hbtn : s.submitBtn form = some btn) (henabled : btn.disabled = false) :
    ∃ cleared, cleared.length = s.timers.length ∧
      handleFormSubmit s form =
        { s with
          buttons := s.buttons.set form (some
            { classList := classAdd btn.classList "loading", disabled := true,
              ariaBusy := some "true" })
          timers := cleared ++ [⟨.restoreSubmit form, 5000, true⟩]
          submitTimers := mapSet s.submitTimers form s.timers.length } := by
  unfold handleFormSubmit
  rw [hbtn]
  simp only [henabled, Bool.not_false, if_true]
  cases hget : mapGet s.submitTimers form with
  | none => exact ⟨s.timers, rfl, rfl⟩
  | some id =>
    have hlen : (clearFormsTimer s.timers id).length = s.timers.length := by
      unfold clearFormsTimer
      split <;> simp
    refine ⟨clearFormsTimer s.timers id, hlen, ?_⟩
    simp only [hlen]

/-- C15: a submit event on a form whose submit button exists and is enabled
gives the button the class `loading`, `disabled = true` and `aria-busy = true`,
and registers exactly one new timer, the 5000 ms fallback of that form, stored
under the form in `submitTimers`.  When that timer fires, at once or in any
later state in which it is still pending, the button has `disabled = false`,
`aria-busy = false`, no class `loading`, and `submitTimers` has no entry for the
form. -/
theorem handleFormSubmit_busy_then_restored (s later : MobileForms) (form : Nat)
    (btn laterBtn : SubmitButton) (i delay : Nat)
    (hbtn : s.submitBtn form = some btn) (henabled : btn.disabled = false)
    (hpending : later.timers.get? i = some ⟨.restoreSubmit form, delay, true⟩)
    (hlater : later.submitBtn form = some laterBtn) :
    ((handleFormSubmit s form).submitBtn form =
      some { classList := classAdd btn.classList "loading", disabled := true,
             ariaBusy := some "true" } ∧
      "loading" ∈ classAdd btn.classList "loading") ∧
    ((handleFormSubmit s form).timers.length = s.timers.length + 1 ∧
      (handleFormSubmit s form).timers.get? s.timers.length =
        some ⟨.restoreSubmit form, 5000, true⟩ ∧
      mapGet (handleFormSubmit s form).submitTimers form = some s.timers.length) ∧
    (((handleFormSubmit s form).fireTimer s.timers.length).submitBtn form =
      some { classList := classRemove (classAdd btn.classList "loading") "loading",
             disabled := false, ariaBusy := some "false" } ∧
      mapGet ((handleFormSubmit s form).fireTimer s.timers.length).submitTimers form = none) ∧
    ((later.fireTimer i).submitBtn form =
      some { classList := classRemove laterBtn.classList "loading", disabled := false,
             ariaBusy := some "false" } ∧
      "loading" ∉ classRemove laterBtn.classList "loading" ∧
      mapGet (later.fireTimer i).submitTimers form = none) := by
  obtain ⟨cleared, hlen, hsubmit⟩ := handleFormSubmit_of_enabled s form btn hbtn henabled
  have hbtn1 : (handleFormSubmit s form).submitBtn form =
      some { classList := classAdd btn.classList "loading", disabled := true,
             ariaBusy := some "true" } := by
    rw [hsubmit]
    exact submitBtn_set s.buttons form btn _ hbtn
  have htimer1 : (handleFormSubmit s form).timers.get? s.timers.length =
      some ⟨.restoreSubmit form, 5000, true⟩ := by
    rw [hsubmit, ← hlen]
    simp
  have hfire1 := (handleFormSubmit s form).fireTimer_restore s.timers.length form 5000 _
    htimer1 hbtn1
  have hfire2 := later.fireTimer_restore i form delay laterBtn hpending hlater
  refine ⟨⟨hbtn1, mem_classAdd _ _⟩, ⟨?_, htimer1, ?_⟩, hfire1,
    ⟨hfire2.1, not_mem_classRemove _ _, hfire2.2⟩⟩
  · rw [hsubmit]; simp [hlen]
  · rw [hsubmit]; exact mapGet_mapSet _ _ _

theorem handleFormSubmit_busy_then_restored_witness :
    oneForm.submitBtn 0 = some ⟨["btn"], false, none⟩ ∧
    (handleFormSubmit oneForm 0).submitBtn 0 = some ⟨["btn", "loading"], true, some "true"⟩ ∧
    (oneFormSubmitted.fireTimer 0).submitBtn 0 = some ⟨["btn"], false, some "false"⟩ :=
  ⟨by decide,
   (handleFormSubmit_busy_then_restored oneForm oneFormSubmitted 0 ⟨["btn"], false, none⟩
      ⟨["btn", "loading"], true, some "true"⟩ 0 5000 (by decide) (by decide) (by decide)
      (by decide)).1.1,
   (handleFormSubmit_busy_then_restored oneForm oneFormSubmitted 0 ⟨["btn"], false, none⟩
      ⟨["btn", "loading"], true, some "true"⟩ 0 5000 (by decide) (by decide) (by decide)
      (by decide)).2.2.2.1⟩

/-! ## Claims on MobileManager -/

theorem MobileManager.init_noop (w : World)
    (h : w.isInitialized = true ∨ DeviceDetection.isMobile w.page.window = false) :
    MobileManager.init w = w := by
  unfold MobileManager.init
  rcases h with h | h <;> simp [h]

theorem MobileManager.initComponents_observer (w : World) :
    (MobileManager.initComponents w).page.intersectionObserver =
      w.page.intersectionObserver := by
  unfold MobileManager.initComponents MobileUtils.addToHomeScreen
    MobileUtils.setupPullToRefresh MobileUtils.preventZoom
    newMobileNotifications newMobileForms newMobileNavigation
  dsimp only
  split <;> rfl

theorem MobileManager.initFinish_isInitialized (w : World) :
    (MobileManager.initFinish w).isInitialized = true := by
  unfold MobileManager.initFinish
  rfl

theorem MobileManager.init_isInitialized (w : World)
    (hobserver : w.page.intersectionObserver = true)
    (hmobile : DeviceDetection.isMobile w.page.window = true) :
    (MobileManager.init w).isInitialized = true := by
  unfold MobileManager.init
  by_cases hinit : w.isInitialized = true
  · simp [hinit]
  · simp [hinit, hmobile, MobileManager.initComponents_observer, hobserver,
      MobileManager.initFinish_isInitialized]

theorem MobileManager.init_twice (w : World)
    (hobserver : w.page.intersectionObserver = true) :
    MobileManager.init (MobileManager.init w) = MobileManager.init w := by
  by_cases hmobile : DeviceDetection.isMobile w.page.window = true
  · exact MobileManager.init_noop _
      (Or.inl (MobileManager.init_isInitialized w hobserver hmobile))
  · have hw : MobileManager.init w = w :=
      MobileManager.init_noop w (Or.inr (by simpa using hmobile))
    rw [hw, hw]

theorem MobileManager.initComponents_instances (w : World) :
    (MobileManager.initComponents w).instances =
      registrySet (registrySet (registrySet w.instances "navigation" w.heap.length)
        "forms" (w.heap.length + 1)) "notifications" (w.heap.length + 2) := by
  unfold MobileManager.initComponents MobileUtils.addToHomeScreen
    MobileUtils.setupPullToRefresh MobileUtils.preventZoom
    newMobileNotifications newMobileForms newMobileNavigation
  dsimp only
  split <;> simp

theorem MobileManager.initFinish_instances (w : World) :
    (MobileManager.initFinish w).instances = w.instances := by
  unfold MobileManager.initFinish MobileUtils.setupConnectionMonitoring newMobileNotifications
  dsimp only
  split <;> split <;> rfl

theorem MobileManager.init_fresh_instances (page : Page)
    (hobserver : page.intersectionObserver = true)
    (hmobile : DeviceDetection.isMobile page.window = true) :
    (MobileManager.init (World.fresh page)).instances =
      [("navigation", 0), ("forms", 1), ("notifications", 2)] := by
  unfold MobileManager.init
  have hobs : (MobileManager.initComponents (World.fresh page)).page.intersectionObserver =
      true := by
    rw [MobileManager.initComponents_observer]; exact hobserver
  have hmob : DeviceDetection.isMobile (World.fresh page).page.window = true := hmobile
  have hinit : (World.fresh page).isInitialized = false := rfl
  simp only [hinit, hmob, Bool.not_true, Bool.or_self, Bool.false_eq_true, if_false, hobs]
  rw [MobileManager.initFinish_instances, MobileManager.initComponents_instances]
  show registrySet (registrySet (registrySet [] "navigation" 0) "forms" 1) "notifications" 2 = _
  decide

/-- C16: `init()` changes nothing when the manager is already initialised or
the device is not mobile; in a browser that provides `IntersectionObserver`
(so that `init` runs to its end), `init(); init()` gives the same state as a
single `init()`, registry, flag and attached listeners included; and on a
fresh manager on a mobile device the registry then holds exactly one object
each under `navigation`, `forms` and `notifications`. -/
theorem init_idempotent (w : World) (page : Page)
    (hobserver : w.page.intersectionObserver = true)
    (hpage : page.intersectionObserver = true)
    (hmobile : DeviceDetection.isMobile page.window = true) :
    (w.isInitialized = true ∨ DeviceDetection.isMobile w.page.window = false →
      MobileManager.init w = w) ∧
    MobileManager.init (MobileManager.init w) = MobileManager.init w ∧
    (MobileManager.init (MobileManager.init (World.fresh page))).instances =
      [("navigation", 0), ("forms", 1), ("notifications", 2)] ∧
    (MobileManager.init (MobileManager.init (World.fresh page))).listeners =
      (MobileManager.init (World.fresh page)).listeners := by
  refine ⟨MobileManager.init_noop w, MobileManager.init_twice w hobserver, ?_, ?_⟩
  · rw [MobileManager.init_twice (World.fresh page) hpage]
    exact MobileManager.init_fresh_instances page hpage hmobile
  · rw [MobileManager.init_twice (World.fresh page) hpage]

theorem init_idempotent_witness :
    phonePage.intersectionObserver = true ∧
    DeviceDetection.isMobile phonePage.window = true ∧
    MobileManager.init (MobileManager.init (World.fresh phonePage)) =
      MobileManager.init (World.fresh phonePage) ∧
    (MobileManager.init (MobileManager.init (World.fresh phonePage))).instances =
      [("navigation", 0), ("forms", 1), ("notifications", 2)] :=
  ⟨by decide, by decide,
   (init_idempotent (World.fresh phonePage) phonePage (by decide) (by decide) (by decide)).2.1,
   (init_idempotent (World.fresh phonePage) phonePage (by decide) (by decide) (by decide)).2.2.1⟩

/-- What `init` does in a browser without `IntersectionObserver`: the first call stops
before it sets the flag, so a second call builds and registers everything
again. -/
theorem init_twice_without_observer :
    (MobileManager.init (World.fresh oldPhonePage)).isInitialized = false ∧
    (MobileManager.init (World.fresh oldPhonePage)).instances =
      [("navigation", 0), ("forms", 1), ("notifications", 2)] ∧
    (MobileManager.init (MobileManager.init (World.fresh oldPhonePage))).instances =
      [("navigation", 3), ("forms", 4), ("notifications", 5)] ∧
    (MobileManager.init (World.fresh oldPhonePage)).listenersOn .window "scroll" = 1 ∧
    (MobileManager.init (MobileManager.init (World.fresh oldPhonePage))).listenersOn
      .window "scroll" = 2 := by
  decide

theorem get?_set_self {α : Type} (l : List α) (i : Nat) (x : α) (h : i < l.length) :
    (l.set i x).get? i = some x := by
  induction l generalizing i with
  | nil => simp at h
  | cons a rest ih =>
    cases i with
    | zero => rfl
    | succ j => exact ih j (Nat.lt_of_succ_lt_succ h)

theorem get?_set_other {α : Type} (l : List α) (i j : Nat) (x : α) (h : i ≠ j) :
    (l.set i x).get? j = l.get? j := by
  induction l generalizing i j with
  | nil => rfl
  | cons a rest ih =>
    cases i with
    | zero =>
      cases j with
      | zero => exact absurd rfl h
      | succ k => rfl
    | succ i2 =>
      cases j with
      | zero => rfl
      | succ k => exact ih i2 k (fun hc => h (by rw [hc]))

theorem lt_length_of_get? {α : Type} (l : List α) (i : Nat) (x : α) (h : l.get? i = some x) :
    i < l.length := by
  by_contra hge
  rw [List.get?_eq_none.2 (not_lt.1 hge)] at h
  exact absurd h (by simp)

theorem hasDestroy_destroyInstance (w : World) (ref other : Nat) :
    hasDestroy (destroyInstance w ref).heap other = hasDestroy w.heap other := by
  unfold destroyInstance
  split
  · rename_i n hn
    unfold hasDestroy
    by_cases ho : ref = other
    · subst ho
      dsimp only
      rw [get?_set_self _ _ _ (lt_length_of_get? _ _ _ hn), hn]
    · dsimp only
      rw [get?_set_other _ _ _ _ ho]
  · rename_i f hf
    unfold hasDestroy
    by_cases ho : ref = other
    · subst ho
      dsimp only
      rw [get?_set_self _ _ _ (lt_length_of_get? _ _ _ hf), hf]
    · dsimp only
      rw [get?_set_other _ _ _ _ ho]
  · rename_i s hs
    unfold hasDestroy
    by_cases ho : ref = other
    · subst ho
      dsimp only
      rw [get?_set_self _ _ _ (lt_length_of_get? _ _ _ hs), hs]
    · dsimp only
      rw [get?_set_other _ _ _ _ ho]
  · rfl

theorem destroyCalls_destroyInstance (w : World) (ref : Nat) :
    (destroyInstance w ref).destroyCalls =
      w.destroyCalls ++ (if hasDestroy w.heap ref then [ref] else []) := by
  unfold destroyInstance hasDestroy
  split <;> simp_all

theorem destroyCalls_foldl (entries : List (String × Nat)) (w : World) :
    (entries.foldl (fun acc kv => destroyInstance acc kv.2) w).destroyCalls =
      w.destroyCalls ++ (entries.map Prod.snd).filter (hasDestroy w.heap) := by
  induction entries generalizing w with
  | nil => simp
  | cons kv rest ih =>
    rw [List.foldl_cons, ih, destroyCalls_destroyInstance]
    have hsame : hasDestroy (destroyInstance w kv.2).heap = hasDestroy w.heap := by
      funext other
      exact hasDestroy_destroyInstance w kv.2 other
    rw [hsame]
    by_cases hd : hasDestroy w.heap kv.2 = true
    · simp [hd, List.filter_cons]
    · simp [hd, List.filter_cons]

/-- C17: for every manager state, `destroy()` runs to its end, leaves the
registry empty and `isInitialized = false`, and calls `destroy()` once for
every registry entry whose value has a `destroy` method, in registry order: an
object registered once is destroyed exactly once.  On a manager whose `init`
never ran it changes nothing. -/
theorem destroy_clears_registry (w : World) (page : Page) (ref : Nat) :
    (MobileManager.destroy w).instances = [] ∧
    (MobileManager.destroy w).isInitialized = false ∧
    (MobileManager.destroy w).destroyCalls =
      w.destroyCalls ++ (w.instances.map Prod.snd).filter (hasDestroy w.heap) ∧
    ((w.instances.map Prod.snd).count ref = 1 → hasDestroy w.heap ref = true →
      ((w.instances.map Prod.snd).filter (hasDestroy w.heap)).count ref = 1) ∧
    MobileManager.destroy (World.fresh page) = World.fresh page := by
  refine ⟨rfl, rfl, ?_, ?_, rfl⟩
  · exact destroyCalls_foldl w.instances w
  · intro hcount hd
    rw [List.count_filter hd]
    exact hcount

theorem destroy_clears_registry_witness :
    (MobileManager.destroy busyWorld).destroyCalls = [0, 1, 2] ∧
    (MobileManager.destroy busyWorld).instances = [] :=
  ⟨(destroy_clears_registry busyWorld phonePage 0).2.2.1.trans (by decide),
   (destroy_clears_registry busyWorld phonePage 0).1⟩

theorem formsTimerPending_clear_self (timers : List FormsTimer) (id : Nat) :
    formsTimerPending (clearFormsTimer timers id) id = false := by
  unfold clearFormsTimer
  cases hget : timers.get? id with
  | none =>
    dsimp only
    unfold formsTimerPending
    rw [hget]
  | some t =>
    dsimp only
    unfold formsTimerPending
    rw [get?_set_self _ _ _ (lt_length_of_get? _ _ _ hget)]

theorem formsTimerPending_clear_mono (timers : List FormsTimer) (id j : Nat)
    (h : formsTimerPending timers j = false) :
    formsTimerPending (clearFormsTimer timers id) j = false := by
  by_cases hj : id = j
  · subst hj; exact formsTimerPending_clear_self timers id
  · unfold clearFormsTimer
    cases hget : timers.get? id with
    | none => exact h
    | some t =>
      dsimp only
      unfold formsTimerPending at h ⊢
      rw [get?_set_other _ _ _ _ hj]
      exact h

theorem formsTimerPending_foldl_mono (m : List (Nat × Nat)) (timers : List FormsTimer) (j : Nat)
    (h : formsTimerPending timers j = false) :
    formsTimerPending (m.foldl (fun ts kv => clearFormsTimer ts kv.2) timers) j = false := by
  induction m generalizing timers with
  | nil => exact h
  | cons kv rest ih => exact ih _ (formsTimerPending_clear_mono timers kv.2 j h)

theorem formsTimerPending_foldl (m : List (Nat × Nat)) (timers : List FormsTimer)
    (kv : Nat × Nat) (hkv : kv ∈ m) :
    formsTimerPending (m.foldl (fun ts kv => clearFormsTimer ts kv.2) timers) kv.2 = false := by
  induction m generalizing timers with
  | nil => simp at hkv
  | cons head rest ih =>
    rw [List.mem_cons] at hkv
    rcases hkv with hkv | hkv
    · subst hkv
      exact formsTimerPending_foldl_mono rest _ _ (formsTimerPending_clear_self timers kv.2)
    · exact ih _ hkv

theorem MobileForms.destroy_cancels (f : MobileForms) :
    f.destroy.submitTimers = [] ∧
    (∀ kv ∈ f.submitTimers, formsTimerPending f.destroy.timers kv.2 = false) ∧
    (∀ id, f.scrollTimer = some id → formsTimerPending f.destroy.timers id = false) := by
  refine ⟨rfl, ?_, ?_⟩
  · intro kv hkv
    unfold MobileForms.destroy
    dsimp only
    split
    · exact formsTimerPending_clear_mono _ _ _ (formsTimerPending_foldl _ _ kv hkv)
    · exact formsTimerPending_foldl _ _ kv hkv
  · intro id hid
    unfold MobileForms.destroy
    dsimp only
    rw [hid]
    exact formsTimerPending_clear_self _ id

theorem Notifier.destroy_activeToasts (s : Notifier) : s.destroy.activeToasts = [] := rfl

theorem destroyInstance_navigation (w : World) (ref : Nat) (n : NavListeners)
    (h : w.heap.get? ref = some (.navigation n)) :
    destroyInstance w ref =
      { w with
        listeners := w.listeners.filter (fun l => l ∉ n.eventListeners)
        heap := w.heap.set ref (.navigation { n with eventListeners := [] })
        destroyCalls := w.destroyCalls ++ [ref] } := by
  unfold destroyInstance; rw [h]

theorem destroyInstance_forms (w : World) (ref : Nat) (f : MobileForms)
    (h : w.heap.get? ref = some (.forms f)) :
    destroyInstance w ref =
      { w with
        heap := w.heap.set ref (.forms f.destroy)
        destroyCalls := w.destroyCalls ++ [ref] } := by
  unfold destroyInstance; rw [h]

theorem destroyInstance_notifications (w : World) (ref : Nat) (s : Notifier)
    (h : w.heap.get? ref = some (.notifications s)) :
    destroyInstance w ref =
      { w with
        heap := w.heap.set ref (.notifications s.destroy)
        destroyCalls := w.destroyCalls ++ [ref] } := by
  unfold destroyInstance; rw [h]

/-- C18, as stated, fails: on the initialised manager with three live toasts and
a submitted form, `destroy()` leaves the submit listener of `MobileForms` and
the swipe listener of `MobileNotifications` attached, and the notifier keeps
pending timers (the auto-dismiss timers, and the removal timers `destroy`
itself starts). -/
theorem destroy_leaves_listeners_and_timers :
    busyWorld.isInitialized = true ∧
    (⟨.object 1, .form 0, "submit"⟩ : Listener) ∈ (MobileManager.destroy busyWorld).listeners ∧
    (⟨.object 2, .flashMessage 0, "touchstart"⟩ : Listener) ∈
      (MobileManager.destroy busyWorld).listeners ∧
    (MobileManager.destroy busyWorld).heap.get? 2 = some (.notifications threeToasts.destroy) ∧
    threeToasts.destroy.hasPendingTimer = true ∧
    threeToasts.destroy.timers.length = threeToasts.timers.length + 3 := by
  decide

/-- C18, amended: after `destroy()` on a manager whose registry holds the three
components, every listener recorded in the listener map of `MobileNavigation`
is detached and the map is empty; every timer recorded in `submitTimers` of
`MobileForms` and its `scrollTimer` is cancelled and `submitTimers` is empty;
and the live set of `MobileNotifications` is empty. -/
theorem destroy_cleans_tracked (w : World) (rn rf rs : Nat) (n : NavListeners)
    (f : MobileForms) (s : Notifier)
    (hreg : w.instances = [("navigation", rn), ("forms", rf), ("notifications", rs)])
    (hn : w.heap.get? rn = some (.navigation n))
    (hf : w.heap.get? rf = some (.forms f))
    (hs : w.heap.get? rs = some (.notifications s)) :
    ((∀ l ∈ n.eventListeners, l ∉ (MobileManager.destroy w).listeners) ∧
      (MobileManager.destroy w).heap.get? rn =
        some (.navigation { n with eventListeners := [] })) ∧
    ((MobileManager.destroy w).heap.get? rf = some (.forms f.destroy) ∧
      f.destroy.submitTimers = [] ∧
      (∀ kv ∈ f.submitTimers, formsTimerPending f.destroy.timers kv.2 = false) ∧
      (∀ id, f.scrollTimer = some id → formsTimerPending f.destroy.timers id = false)) ∧
    ((MobileManager.destroy w).heap.get? rs = some (.notifications s.destroy) ∧
      s.destroy.activeToasts = []) := by
  have hnf : rn ≠ rf := by
    intro h; rw [h, hf] at hn; exact absurd hn (by simp)
  have hns : rn ≠ rs := by
    intro h; rw [h, hs] at hn; exact absurd hn (by simp)
  have hfs : rf ≠ rs := by
    intro h; rw [h, hs] at hf; exact absurd hf (by simp)
  have hrn := lt_length_of_get? _ _ _ hn
  have hrf := lt_length_of_get? _ _ _ hf
  have hrs := lt_length_of_get? _ _ _ hs
  have h1 := destroyInstance_navigation w rn n hn
  have hf1 : (destroyInstance w rn).heap.get? rf = some (.forms f) := by
    rw [h1]; dsimp only; rw [get?_set_other _ _ _ _ hnf, hf]
  have h2 := destroyInstance_forms (destroyInstance w rn) rf f hf1
  have hs2 : (destroyInstance (destroyInstance w rn) rf).heap.get? rs =
      some (.notifications s) := by
    rw [h2, h1]; dsimp only
    rw [get?_set_other _ _ _ _ hfs, get?_set_other _ _ _ _ hns, hs]
  have h3 := destroyInstance_notifications (destroyInstance (destroyInstance w rn) rf) rs s hs2
  have hdestroy : MobileManager.destroy w =
      { destroyInstance (destroyInstance (destroyInstance w rn) rf) rs with
        instances := [], isInitialized := false } := by
    unfold MobileManager.destroy
    rw [hreg]
    rfl
  have hlen1 : (w.heap.set rn (Instance.navigation { n with eventListeners := [] })).length =
      w.heap.length := by simp
  refine ⟨⟨?_, ?_⟩, ⟨?_, f.destroy_cancels⟩, ⟨?_, rfl⟩⟩
  · intro l hl hmem
    rw [hdestroy, h3, h2, h1] at hmem
    dsimp only at hmem
    rw [List.mem_filter] at hmem
    simp [hl] at hmem
  · rw [hdestroy, h3, h2, h1]
    dsimp only
    rw [get?_set_other _ _ _ _ (Ne.symm hns), get?_set_other _ _ _ _ (Ne.symm hnf),
      get?_set_self _ _ _ hrn]
  · rw [hdestroy, h3, h2, h1]
    dsimp only
    rw [get?_set_other _ _ _ _ (Ne.symm hfs), get?_set_self _ _ _ (by rw [hlen1]; exact hrf)]
  · rw [hdestroy, h3, h2, h1]
    dsimp only
    rw [get?_set_self _ _ _ (by simp; exact hrs)]

theorem destroy_cleans_tracked_witness :
    (⟨.object 0, .window, "scroll"⟩ : Listener) ∉ (MobileManager.destroy busyWorld).listeners ∧
    formsTimerPending oneFormSubmitted.destroy.timers 0 = false :=
  have h := destroy_cleans_tracked busyWorld 0 1 2
    ⟨navigationListeners phonePage 0, none, none⟩ oneFormSubmitted threeToasts
    (by decide) (by decide) (by decide) (by decide)
  ⟨h.1.1 _ (by decide), h.2.1.2.2.1 (0, 0) (by decide)⟩

/-! ## Claims on the CSRF token -/

/-- C19, failing input: on a page without the meta tag but with the hidden
input, the `getCsrfToken` in effect ends in a `TypeError`, whereas the first
declaration returns the value of the input; with the meta tag present it
returns its content. -/
theorem getCsrfToken_fails_without_meta :
    getCsrfToken inputOnlyPage = .typeError ∧
    getCsrfTokenFirst inputOnlyPage = .returned (some "tok") ∧
    getCsrfToken adminPage.csrf = .returned (some "tok") := by
  decide

theorem getCsrfToken_of_meta (page : CsrfPage) (content : String)
    (hmeta : page.metaContent = some (some content)) (hcontent : content ≠ "") :
    getCsrfToken page = .returned (some content) := by
  unfold getCsrfToken
  rw [hmeta]
  simp [truthy, hcontent]

/-- C20, failing input: the submit handler of the edit form posts the fields of
the form as they are, so on a page whose form has no `csrf_token` field the
request carries no token, whereas `saveToyEdit` on the same page appends it. -/
theorem editFormRequest_without_token :
    editFormRequest adminPage = .returned (some
      { method := "POST", url := "/admin/toys/7/edit",
        headers := [("X-Requested-With", "XMLHttpRequest")],
        body := [("name", "Oso"), ("price", "10")] }) ∧
    (∀ r, editFormRequest adminPage = .returned (some r) → r.carriesCsrf = false) ∧
    (∀ r, saveToyEditRequest adminPage = .returned (some r) → r.carriesToken "tok" = true) := by
  refine ⟨by decide, ?_, ?_⟩
  · intro r hr
    have h : editFormRequest adminPage = .returned (some
      { method := "POST", url := "/admin/toys/7/edit",
        headers := [("X-Requested-With", "XMLHttpRequest")],
        body := [("name", "Oso"), ("price", "10")] }) := by decide
    rw [h] at hr
    injection hr with hr
    injection hr with hr
    subst hr
    decide
  · intro r hr
    have h : saveToyEditRequest adminPage = .returned (some
      { method := "POST", url := "/admin/edit_toy/7",
        headers := [("X-Requested-With", "XMLHttpRequest")],
        body := [("name", "Oso"), ("price", "10"), ("csrf_token", "tok")] }) := by decide
    rw [h] at hr
    injection hr with hr
    injection hr with hr
    subst hr
    decide

theorem deleteRequest_carries (page : AdminPage) (toyId : String) (r : Request)
    (h : deleteRequest page toyId = .returned (some r)) : r.carriesCsrf = true := by
  unfold deleteRequest at h
  split at h
  · exact absurd h (by simp)
  · injection h with h
    injection h with h
    subst h
    simp [Request.carriesCsrf]

/-- Every request built by a handler other than the submit handler of the edit form
carries a CSRF token. -/
theorem other_requests_carry_token (page : AdminPage) (toyId : String) (attr : Option String)
    (answer : Bool) (r : Request) :
    (addToCartRequest page.csrf toyId = .returned (some r) → r.carriesCsrf = true) ∧
    (deleteButtonRequest page toyId answer = .returned (some r) → r.carriesCsrf = true) ∧
    (deleteFormRequest page = .returned (some r) → r.carriesCsrf = true) ∧
    (deleteToyRequest page toyId answer = .returned (some r) → r.carriesCsrf = true) ∧
    (deleteToySimpleRequest page attr answer = .returned (some r) → r.carriesCsrf = true) ∧
    (saveToyEditRequest page = .returned (some r) → r.carriesCsrf = true) := by
  refine ⟨?_, ?_, ?_, ?_, ?_, ?_⟩
  · intro h
    unfold addToCartRequest at h
    split at h
    · exact absurd h (by simp)
    · injection h with h
      injection h with h
      subst h
      simp [Request.carriesCsrf]
  · intro h
    unfold deleteButtonRequest at h
    split at h
    · exact deleteRequest_carries page toyId r h
    · exact absurd h (by simp)
  · intro h
    unfold deleteFormRequest at h
    split at h
    · exact absurd h (by simp)
    · exact deleteRequest_carries page _ r h
  · intro h
    unfold deleteToyRequest at h
    split at h
    · split at h
      · exact absurd h (by simp)
      · injection h with h
        injection h with h
        subst h
        simp [Request.carriesCsrf]
    · exact absurd h (by simp)
  · intro h
    unfold deleteToySimpleRequest at h
    split at h
    · exact absurd h (by simp)
    · split at h
      · exact absurd h (by simp)
      · dsimp only at h
        split at h
        · exact absurd h (by simp)
        · injection h with h
          injection h with h
          subst h
          simp [Request.carriesCsrf]
  · intro h
    unfold saveToyEditRequest at h
    split at h
    · split at h
      · exact absurd h (by simp)
      · injection h with h
        injection h with h
        subst h
        simp [Request.carriesCsrf]
    · exact absurd h (by simp)

/-! ## Claims on the toast container and on taps -/

theorem removeToast_container_isSome (s : Notifier) (t : Toast)
    (h : s.container.isSome = true) : (removeToast s t).container.isSome = true := by
  rw [removeToast_container]; exact h

theorem showToast_container_isSome (s : Notifier) (duration : Nat)
    (h : s.container.isSome = true) : (showToast s duration).1.container.isSome = true := by
  unfold showToast
  dsimp only
  rw [evictOldest_container]
  cases hc : s.container with
  | none => rw [hc] at h; exact absurd h (by decide)
  | some kids => rfl

theorem fireTimer_container_isSome (s : Notifier) (i : Nat)
    (h : s.container.isSome = true) : (fireTimer s i).container.isSome = true := by
  unfold fireTimer
  split
  · rename_i e he
    split
    · cases e.callback with
      | animateIn t => exact h
      | autoRemove t =>
        show (removeToast _ t).container.isSome = true
        exact removeToast_container_isSome _ t h
      | domRemove t =>
        show (Option.map _ s.container).isSome = true
        rw [Option.isSome_map']
        exact h
    · exact h
  · exact h

theorem foldl_removeToast_container (l : List Toast) (s : Notifier) :
    (l.foldl removeToast s).container = s.container := by
  induction l generalizing s with
  | nil => rfl
  | cons a l ih => rw [List.foldl_cons, ih, removeToast_container]

theorem step_container_isSome (s : Notifier) (op : NotifierOp)
    (h : s.container.isSome = true) : (s.step op).container.isSome = true := by
  cases op with
  | showToast duration => exact showToast_container_isSome s duration h
  | removeToast toast => exact removeToast_container_isSome s toast h
  | timerExpiry i => exact fireTimer_container_isSome s i h
  | destroy =>
    show (s.activeToasts.foldl removeToast s).container.isSome = true
    rw [foldl_removeToast_container]; exact h

theorem run_container_isSome (s : Notifier) (ops : List NotifierOp)
    (h : s.container.isSome = true) : (s.run ops).container.isSome = true := by
  induction ops generalizing s with
  | nil => exact h
  | cons op ops ih => exact ih (s.step op) (step_container_isSome s op h)

/-- C25, as stated, fails: when the page holds no `.toast-container` at the time
of the call, `showToast` ends in a `TypeError`; no container is created and the
new toast does not join the live set (the eviction has already happened). -/
theorem showToast_without_container :
    withoutContainer.container = none ∧
    (showToast withoutContainer 3000).2 = none ∧
    (showToast withoutContainer 3000).1.container = none ∧
    (showToast withoutContainer 3000).1.activeToasts = [1, 2] := by
  decide

/-- C25, amended: the constructor creates the `.toast-container` when the page
has none, and it is still there in every state reached from a fresh notifier
by `showToast`, `removeToast`, timers and `destroy`; in each such state
`showToast` succeeds, returns the new toast and appends it to the container
as its last child. -/
theorem showToast_succeeds_after_construct (dom : Option (List Toast)) (nextToast : Toast)
    (ops : List NotifierOp) (duration : Nat) :
    (Notifier.construct dom nextToast).container.isSome = true ∧
    ((Notifier.construct dom nextToast).run ops).container.isSome = true ∧
    (showToast ((Notifier.construct dom nextToast).run ops) duration).2 =
      some ((Notifier.construct dom nextToast).run ops).nextToast ∧
    ∃ kids,
      (showToast ((Notifier.construct dom nextToast).run ops) duration).1.container =
        some (kids ++ [((Notifier.construct dom nextToast).run ops).nextToast]) := by
  have hinit : (Notifier.construct dom nextToast).container.isSome = true := rfl
  have hrun := run_container_isSome _ ops hinit
  refine ⟨hinit, hrun, ?_, ?_⟩
  · generalize (Notifier.construct dom nextToast).run ops = s at hrun
    unfold showToast
    dsimp only
    rw [evictOldest_container, evictOldest_nextToast]
    cases hc : s.container with
    | none => rw [hc] at hrun; exact absurd hrun (by decide)
    | some kids => rfl
  · generalize (Notifier.construct dom nextToast).run ops = s at hrun
    unfold showToast
    dsimp only
    rw [evictOldest_container, evictOldest_nextToast]
    cases hc : s.container with
    | none => rw [hc] at hrun; exact absurd hrun (by decide)
    | some kids => exact ⟨kids.erase s.nextToast, rfl⟩

/-- C26, failing input: on an element that has seen no gesture yet, a touch that
starts at `clientX = 300` and ends 50 ms later without any move is dismissed:
`currentX` still holds its old value 0, so the displacement computed is -300,
not 0. -/
theorem tap_dismisses_element :
    (handleTouchStart SwipeState.initial restingElement 300 0).1 =
      { startX := 300, currentX := 0, isDragging := true, startTime := 0 } ∧
    (handleTouchEnd (handleTouchStart SwipeState.initial restingElement 300 0).1
      (handleTouchStart SwipeState.initial restingElement 300 0).2 50).2 =
      { transition := "transform 0.3s ease, opacity 0.3s ease"
        transform := .translateXMinus100
        opacity := 0
        timerCleared := true
        removalTimers := 1 } := by
  have hstart : handleTouchStart SwipeState.initial restingElement 300 0 =
      (⟨300, 0, true, 0⟩, { restingElement with transition := "none" }) := rfl
  rw [hstart]
  refine ⟨rfl, ?_⟩
  have h := handleTouchEnd_of_active ⟨300, 0, true, 0⟩
    { restingElement with transition := "none" } 50 rfl (by decide)
  rw [h]
  norm_num [restingElement]

/-! ## Claims on double submits -/

theorem find?_replace_other (m : List (Nat × Nat)) (key value other : Nat) (h : other ≠ key) :
    List.find? (fun kv => decide (kv.1 = other))
        (m.map (fun kv => if kv.1 = key then (key, value) else kv)) =
      List.find? (fun kv => decide (kv.1 = other)) m := by
  induction m with
  | nil => rfl
  | cons kv rest ih =>
    rw [List.map_cons, List.find?_cons, List.find?_cons, ih]
    by_cases hk : kv.1 = key
    · have hko : ¬ kv.1 = other := fun hc => h (hc.symm.trans hk)
      have hko2 : ¬ key = other := fun hc => h hc.symm
      simp only [hk, if_true, hko2, decide_False]
    · simp only [hk, if_false]

theorem find?_filter_other (m : List (Nat × Nat)) (key other : Nat) (h : other ≠ key) :
    List.find? (fun kv => decide (kv.1 = other))
        (m.filter (fun kv => decide (kv.1 ≠ key))) =
      List.find? (fun kv => decide (kv.1 = other)) m := by
  induction m with
  | nil => rfl
  | cons kv rest ih =>
    by_cases hk : kv.1 = key
    · have hko : ¬ kv.1 = other := fun hc => h (hc.symm.trans hk)
      rw [List.filter_cons, List.find?_cons]
      simp only [hk, ne_eq, not_true_eq_false, decide_False, Bool.false_eq_true, if_false]
      rw [← hk] at ih ⊢
      simp only [hko, decide_False]
      simpa using ih
    · rw [List.filter_cons, List.find?_cons]
      simp only [hk, ne_eq, not_false_eq_true, decide_True, if_true]
      rw [List.find?_cons, ih]

theorem mapGet_mapSet_other (m : List (Nat × Nat)) (key value other : Nat) (h : other ≠ key) :
    mapGet (mapSet m key value) other = mapGet m other := by
  unfold mapSet
  split
  · unfold mapGet
    rw [find?_replace_other m key value other h]
  · unfold mapGet
    rw [List.find?_append]
    have hko2 : ¬ key = other := fun hc => h hc.symm
    cases hf : List.find? (fun kv => decide (kv.1 = other)) m with
    | none => simp [List.find?_cons, hko2]
    | some kv => simp

theorem mapGet_mapDelete_other (m : List (Nat × Nat)) (key other : Nat) (h : other ≠ key) :
    mapGet (mapDelete m key) other = mapGet m other := by
  unfold mapGet mapDelete
  rw [find?_filter_other m key other h]

theorem clearFormsTimer_length (timers : List FormsTimer) (id : Nat) :
    (clearFormsTimer timers id).length = timers.length := by
  unfold clearFormsTimer
  split <;> simp

theorem clearFormsTimer_get?_other (timers : List FormsTimer) (id j : Nat) (h : id ≠ j) :
    (clearFormsTimer timers id).get? j = timers.get? j := by
  unfold clearFormsTimer
  split
  · exact get?_set_other _ _ _ _ h
  · rfl

theorem clearFormsTimer_pending (timers : List FormsTimer) (id j : Nat) (c : FormsCallback)
    (d : Nat) (h : (clearFormsTimer timers id).get? j = some ⟨c, d, true⟩) :
    timers.get? j = some ⟨c, d, true⟩ ∧ (id ≠ j ∨ timers.get? id = none) := by
  by_cases hj : id = j
  · subst hj
    unfold clearFormsTimer at h
    cases hget : timers.get? id with
    | none =>
      rw [hget] at h
      dsimp only at h
      rw [hget] at h
      exact absurd h (by simp)
    | some t =>
      rw [hget] at h
      dsimp only at h
      rw [get?_set_self _ _ _ (lt_length_of_get? _ _ _ hget)] at h
      injection h with h
      injection h with _ _ hp
      exact absurd hp (by decide)
  · rw [clearFormsTimer_get?_other _ _ _ hj] at h
    exact ⟨h, Or.inl hj⟩

theorem clearFormsTimer_pending_of (timers : List FormsTimer) (id j : Nat) (t : FormsTimer)
    (hid : timers.get? id = some t) (c : FormsCallback) (d : Nat)
    (h : (clearFormsTimer timers id).get? j = some ⟨c, d, true⟩) :
    timers.get? j = some ⟨c, d, true⟩ ∧ id ≠ j := by
  obtain ⟨h1, h2⟩ := clearFormsTimer_pending timers id j c d h
  rcases h2 with h2 | h2
  · exact ⟨h1, h2⟩
  · rw [hid] at h2; exact absurd h2 (by simp)

theorem foldl_clear_pending (m : List (Nat × Nat)) (timers : List FormsTimer) (j : Nat)
    (c : FormsCallback) (d : Nat)
    (h : (m.foldl (fun ts kv => clearFormsTimer ts kv.2) timers).get? j = some ⟨c, d, true⟩) :
    timers.get? j = some ⟨c, d, true⟩ := by
  induction m generalizing timers with
  | nil => exact h
  | cons kv rest ih => exact (clearFormsTimer_pending timers kv.2 j c d (ih _ h)).1

theorem mem_of_mapGet (m : List (Nat × Nat)) (key value : Nat)
    (h : mapGet m key = some value) : (key, value) ∈ m := by
  unfold mapGet at h
  cases hf : List.find? (fun kv => decide (kv.1 = key)) m with
  | none => rw [hf] at h; simp at h
  | some kv =>
    rw [hf] at h
    have hmem := List.mem_of_find?_eq_some hf
    have hkey := List.find?_some hf
    simp only [Option.map_some', Option.some.injEq] at h
    simp only [decide_eq_true_eq] at hkey
    have : kv = (key, value) := by
      cases kv with
      | mk a b => simp_all
    rw [← this]; exact hmem

theorem get?_append_new {α : Type} (l : List α) (x y : α) (j : Nat)
    (h : (l ++ [x]).get? j = some y) : (j < l.length ∧ l.get? j = some y) ∨
      (j = l.length ∧ y = x) := by
  by_cases hj : j < l.length
  · left
    refine ⟨hj, ?_⟩
    rw [List.get?_eq_getElem?, List.getElem?_append_left hj] at h
    rw [List.get?_eq_getElem?]; exact h
  · right
    have hlen := lt_length_of_get? _ _ _ h
    rw [List.length_append, List.length_singleton] at hlen
    have hjl : j = l.length := by omega
    subst hjl
    rw [get?_newest] at h
    exact ⟨rfl, (Option.some.inj h).symm⟩

theorem get?_append_old {α : Type} (l : List α) (x : α) (j : Nat) (y : α)
    (h : l.get? j = some y) : (l ++ [x]).get? j = some y := by
  have hj := lt_length_of_get? _ _ _ h
  rw [List.get?_eq_getElem?, List.getElem?_append_left hj, ← List.get?_eq_getElem?]
  exact h

theorem MobileForms.Inv.submit {s : MobileForms} (h : s.Inv) (form : Nat) :
    (handleFormSubmit s form).Inv := by
  unfold handleFormSubmit
  cases hbtn : s.submitBtn form with
  | none => exact h
  | some btn =>
    dsimp only
    cases hdis : btn.disabled with
    | true => simpa using h
    | false =>
      simp only [Bool.not_false, if_true]
      -- the timer table after the old timer of the form was cleared
      have hcleared : ∀ j c d,
          (match mapGet s.submitTimers form with
            | some id => clearFormsTimer s.timers id
            | none => s.timers).get? j = some ⟨c, d, true⟩ →
          s.timers.get? j = some ⟨c, d, true⟩ ∧ c ≠ .restoreSubmit form := by
        intro j c d hj
        cases hget : mapGet s.submitTimers form with
        | none =>
          rw [hget] at hj
          refine ⟨hj, ?_⟩
          intro hc
          subst hc
          have := h.stored form j ⟨d, hj⟩
          rw [hget] at this
          exact absurd this (by simp)
        | some id =>
          rw [hget] at hj
          obtain ⟨d0, hid⟩ := h.pending form id hget
          obtain ⟨hj1, hne⟩ := clearFormsTimer_pending_of s.timers id j _ hid c d hj
          refine ⟨hj1, ?_⟩
          intro hc
          subst hc
          have := h.stored form j ⟨d, hj1⟩
          rw [hget] at this
          exact hne (Option.some.inj this)
      have hkeep : ∀ j g d, g ≠ form → s.timers.get? j = some ⟨.restoreSubmit g, d, true⟩ →
          (match mapGet s.submitTimers form with
            | some id => clearFormsTimer s.timers id
            | none => s.timers).get? j = some ⟨.restoreSubmit g, d, true⟩ := by
        intro j g d hg hj
        cases hget : mapGet s.submitTimers form with
        | none => exact hj
        | some id =>
          obtain ⟨d0, hid⟩ := h.pending form id hget
          have hne : id ≠ j := by
            intro hc
            subst hc
            rw [hid] at hj
            injection hj with hj
            injection hj with hc _ _
            injection hc with hc
            exact hg hc.symm
          show (clearFormsTimer s.timers id).get? j = _
          rw [clearFormsTimer_get?_other _ _ _ hne]
          exact hj
      refine ⟨?_, ?_, ?_⟩
      · intro g j hp
        obtain ⟨d, hp⟩ := hp
        dsimp only at hp ⊢
        rcases get?_append_new _ _ _ j hp with ⟨_, hold⟩ | ⟨hjn, hnew⟩
        · obtain ⟨hs, hne⟩ := hcleared j _ d hold
          have hg : g ≠ form := fun hc => hne (by rw [hc])
          rw [mapGet_mapSet_other _ _ _ _ hg]
          exact h.stored g j ⟨d, hs⟩
        · injection hnew with hc _ _
          injection hc with hc
          subst hc
          rw [hjn]
          exact mapGet_mapSet _ _ _
      · intro g j hg
        dsimp only at hg ⊢
        by_cases hgf : g = form
        · subst hgf
          rw [mapGet_mapSet] at hg
          have hj := (Option.some.inj hg).symm
          subst hj
          exact ⟨5000, get?_newest _ _⟩
        · rw [mapGet_mapSet_other _ _ _ _ hgf] at hg
          obtain ⟨d, hd⟩ := h.pending g j hg
          exact ⟨d, get?_append_old _ _ _ _ (hkeep j g d hgf hd)⟩
      · intro id hid
        dsimp only at hid ⊢
        obtain ⟨input, d, p, hget⟩ := h.scroll id hid
        refine ⟨input, d, p, get?_append_old _ _ _ _ ?_⟩
        cases hm : mapGet s.submitTimers form with
        | none => exact hget
        | some old =>
          obtain ⟨d0, hold⟩ := h.pending form old hm
          have hne : old ≠ id := by
            intro hc
            subst hc
            rw [hold] at hget
            injection hget with hget
            injection hget with hc _ _
            exact FormsCallback.noConfusion hc
          show (clearFormsTimer s.timers old).get? id = _
          rw [clearFormsTimer_get?_other _ _ _ hne]
          exact hget

theorem MobileForms.Inv.focus {s : MobileForms} (h : s.Inv) (isMobile : Bool) (input : Nat) :
    (handleInputFocus s isMobile input).Inv := by
  unfold handleInputFocus
  cases isMobile with
  | false => simpa using h
  | true =>
    simp only [Bool.not_true, Bool.false_eq_true, if_false]
    have hcleared : ∀ j c d,
        (match s.scrollTimer with
          | some id => clearFormsTimer s.timers id
          | none => s.timers).get? j = some ⟨c, d, true⟩ →
        s.timers.get? j = some ⟨c, d, true⟩ := by
      intro j c d hj
      cases hs : s.scrollTimer with
      | none => rw [hs] at hj; exact hj
      | some id => rw [hs] at hj; exact (clearFormsTimer_pending _ _ _ _ _ hj).1
    have hkeep : ∀ j g d, s.timers.get? j = some ⟨.restoreSubmit g, d, true⟩ →
        (match s.scrollTimer with
          | some id => clearFormsTimer s.timers id
          | none => s.timers).get? j = some ⟨.restoreSubmit g, d, true⟩ := by
      intro j g d hj
      cases hs : s.scrollTimer with
      | none => exact hj
      | some id =>
        obtain ⟨i0, d0, p0, hid⟩ := h.scroll id hs
        have hne : id ≠ j := by
          intro hc
          subst hc
          rw [hid] at hj
          injection hj with hj
          injection hj with hc _ _
          exact FormsCallback.noConfusion hc
        show (clearFormsTimer s.timers id).get? j = _
        rw [clearFormsTimer_get?_other _ _ _ hne]
        exact hj
    refine ⟨?_, ?_, ?_⟩
    · intro g j hp
      obtain ⟨d, hp⟩ := hp
      dsimp only at hp ⊢
      rcases get?_append_new _ _ _ j hp with ⟨_, hold⟩ | ⟨_, hnew⟩
      · exact h.stored g j ⟨d, hcleared j _ d hold⟩
      · injection hnew with hc _ _
        exact FormsCallback.noConfusion hc
    · intro g j hg
      dsimp only at hg ⊢
      obtain ⟨d, hd⟩ := h.pending g j hg
      exact ⟨d, get?_append_old _ _ _ _ (hkeep j g d hd)⟩
    · intro id hid
      dsimp only at hid ⊢
      have hid2 := (Option.some.inj hid).symm
      subst hid2
      exact ⟨input, 300, true, get?_newest _ _⟩

theorem MobileForms.Inv.blur {s : MobileForms} (h : s.Inv) (input : Nat) :
    (handleInputBlur s input).Inv :=
  ⟨h.stored, h.pending, h.scroll⟩

theorem MobileForms.Inv.enabled {s : MobileForms} (h : s.Inv) (form : Nat) :
    (s.enable form).Inv := by
  unfold MobileForms.enable
  split
  · exact ⟨h.stored, h.pending, h.scroll⟩
  · exact h

theorem get?_set_pending (timers : List FormsTimer) (i j : Nat) (t : FormsTimer)
    (c : FormsCallback) (d : Nat)
    (h : (timers.set i { t with pending := false }).get? j = some ⟨c, d, true⟩) :
    timers.get? j = some ⟨c, d, true⟩ ∧ i ≠ j := by
  by_cases hij : i = j
  · subst hij
    have hlen : i < timers.length := by
      have := lt_length_of_get? _ _ _ h
      rwa [List.length_set] at this
    rw [get?_set_self _ _ _ hlen] at h
    injection h with h
    injection h with _ _ hp
    exact absurd hp (by decide)
  · rw [get?_set_other _ _ _ _ hij] at h
    exact ⟨h, hij⟩

theorem MobileForms.Inv.fired {s : MobileForms} (h : s.Inv) (i : Nat) :
    (s.fireTimer i).Inv := by
  unfold MobileForms.fireTimer
  cases hget : s.timers.get? i with
  | none => exact h
  | some t =>
    dsimp only
    cases hp : t.pending with
    | false => simpa using h
    | true =>
      simp only [if_true]
      obtain ⟨c, d0, p0⟩ := t
      simp only at hp
      subst hp
      have hscroll : ∀ id, s.scrollTimer = some id → ∃ input delay p,
          (s.timers.set i ⟨c, d0, false⟩).get? id = some ⟨.scrollIntoView input, delay, p⟩ := by
        intro id hid
        obtain ⟨input, d, p, hg⟩ := h.scroll id hid
        by_cases hi : i = id
        · subst hi
          rw [hget] at hg
          injection hg with hg
          injection hg with hc hd _
          exact ⟨input, d, false, by
            rw [get?_set_self _ _ _ (lt_length_of_get? _ _ _ hget), hc, hd]⟩
        · exact ⟨input, d, p, by rw [get?_set_other _ _ _ _ hi]; exact hg⟩
      cases c with
      | scrollIntoView input =>
        refine ⟨?_, ?_, hscroll⟩
        · intro g j hpj
          obtain ⟨d, hpj⟩ := hpj
          exact h.stored g j ⟨d, (get?_set_pending _ _ _ _ _ _ hpj).1⟩
        · intro g j hg
          obtain ⟨d, hd⟩ := h.pending g j hg
          have hne : i ≠ j := by
            intro hc
            subst hc
            rw [hget] at hd
            injection hd with hd
            injection hd with hc _ _
            exact FormsCallback.noConfusion hc
          exact ⟨d, by
            show (s.timers.set i _).get? j = _
            rw [get?_set_other _ _ _ _ hne]; exact hd⟩
      | restoreSubmit f =>
        have hfi : mapGet s.submitTimers f = some i := h.stored f i ⟨d0, hget⟩
        refine ⟨?_, ?_, hscroll⟩
        · intro g j hpj
          obtain ⟨d, hpj⟩ := hpj
          obtain ⟨hold, hne⟩ := get?_set_pending _ _ _ _ _ _ hpj
          have hgj := h.stored g j ⟨d, hold⟩
          have hgf : g ≠ f := by
            intro hc
            subst hc
            rw [hfi] at hgj
            exact hne (Option.some.inj hgj)
          show mapGet (mapDelete s.submitTimers f) g = some j
          rw [mapGet_mapDelete_other _ _ _ hgf]
          exact hgj
        · intro g j hg
          have hg : mapGet (mapDelete s.submitTimers f) g = some j := hg
          have hgf : g ≠ f := by
            intro hc
            subst hc
            rw [mapGet_mapDelete] at hg
            exact absurd hg (by simp)
          rw [mapGet_mapDelete_other _ _ _ hgf] at hg
          obtain ⟨d, hd⟩ := h.pending g j hg
          have hne : i ≠ j := by
            intro hc
            subst hc
            rw [hget] at hd
            injection hd with hd
            injection hd with hc _ _
            injection hc with hc
            exact hgf hc.symm
          exact ⟨d, by
            show (s.timers.set i _).get? j = _
            rw [get?_set_other _ _ _ _ hne]; exact hd⟩

theorem clearFormsTimer_get?_self (timers : List FormsTimer) (id : Nat) (t : FormsTimer)
    (h : timers.get? id = some t) :
    (clearFormsTimer timers id).get? id = some { t with pending := false } := by
  unfold clearFormsTimer
  rw [h]
  dsimp only
  rw [get?_set_self _ _ _ (lt_length_of_get? _ _ _ h)]

theorem MobileForms.Inv.destroyed {s : MobileForms} (h : s.Inv) : s.destroy.Inv := by
  have hold : ∀ j c d, s.destroy.timers.get? j = some ⟨c, d, true⟩ →
      s.timers.get? j = some ⟨c, d, true⟩ := by
    intro j c d hj
    unfold MobileForms.destroy at hj
    dsimp only at hj
    cases hs : s.scrollTimer with
    | none => rw [hs] at hj; exact foldl_clear_pending _ _ _ _ _ hj
    | some id =>
      rw [hs] at hj
      exact foldl_clear_pending _ _ _ _ _ (clearFormsTimer_pending _ _ _ _ _ hj).1
  refine ⟨?_, ?_, ?_⟩
  · intro g j hpj
    obtain ⟨d, hpj⟩ := hpj
    have hmem := mem_of_mapGet _ _ _ (h.stored g j ⟨d, hold j _ d hpj⟩)
    have hoff := (MobileForms.destroy_cancels s).2.1 (g, j) hmem
    unfold formsTimerPending at hoff
    rw [hpj] at hoff
    simp at hoff
  · intro g j hg
    exact absurd (show (none : Option Nat) = some j from hg) (by simp)
  · intro id hid
    have hid : s.scrollTimer = some id := hid
    obtain ⟨input, d, p, hg⟩ := h.scroll id hid
    have hlen : ∀ (m : List (Nat × Nat)) (ts : List FormsTimer),
        ts.get? id = some ⟨.scrollIntoView input, d, p⟩ ∨
          ts.get? id = some ⟨.scrollIntoView input, d, false⟩ →
        (m.foldl (fun ts kv => clearFormsTimer ts kv.2) ts).get? id =
            some ⟨.scrollIntoView input, d, p⟩ ∨
          (m.foldl (fun ts kv => clearFormsTimer ts kv.2) ts).get? id =
            some ⟨.scrollIntoView input, d, false⟩ := by
      intro m
      induction m with
      | nil => intro ts hts; exact hts
      | cons kv rest ih =>
        intro ts hts
        apply ih
        by_cases hk : kv.2 = id
        · right
          show (clearFormsTimer ts kv.2).get? id = _
          rw [hk]
          rcases hts with hts | hts <;>
            exact clearFormsTimer_get?_self _ _ _ hts
        · rw [clearFormsTimer_get?_other _ _ _ hk]
          exact hts
    have hfold := hlen s.submitTimers s.timers (Or.inl hg)
    have hfinal : s.destroy.timers.get? id = some ⟨.scrollIntoView input, d, false⟩ := by
      unfold MobileForms.destroy
      dsimp only
      rw [hid]
      dsimp only
      rcases hfold with hf | hf <;>
        exact clearFormsTimer_get?_self _ _ _ hf
    exact ⟨input, d, false, hfinal⟩

theorem MobileForms.Inv.constructed (buttons : List (Option SubmitButton)) :
    (MobileForms.construct buttons).Inv := by
  refine ⟨?_, ?_, ?_⟩
  · intro g j hpj
    obtain ⟨d, hpj⟩ := hpj
    exact absurd (show (none : Option FormsTimer) = some _ from hpj) (by simp)
  · intro g j hg
    exact absurd (show (none : Option Nat) = some j from hg) (by simp)
  · intro id hid
    exact absurd (show (none : Option Nat) = some id from hid) (by simp)

theorem MobileForms.Inv.stepped {s : MobileForms} (h : s.Inv) (op : FormsOp) :
    (s.step op).Inv := by
  cases op with
  | submit form => exact h.submit form
  | focus isMobile input => exact h.focus isMobile input
  | blur input => exact h.blur input
  | timer i => exact h.fired i
  | enable form => exact h.enabled form
  | destroy => exact h.destroyed

theorem MobileForms.Inv.reached {s : MobileForms} (h : s.Inv) (ops : List FormsOp) :
    (s.run ops).Inv := by
  induction ops generalizing s with
  | nil => exact h
  | cons op rest ih => exact ih (h.stepped op)

theorem handleFormSubmit_of_disabled (s : MobileForms) (form : Nat) (btn : SubmitButton)
    (hbtn : s.submitBtn form = some btn) (hdis : btn.disabled = true) :
    handleFormSubmit s form = s := by
  unfold handleFormSubmit
  rw [hbtn]
  simp [hdis]

/-- C27: a submit event on a form whose submit button is disabled leaves the
whole state of `MobileForms` as it was (buttons, timers and `submitTimers`);
and in every state reached from `new MobileForms()` by submit, focus and blur
events, timers running, other code enabling a button, and `destroy`, a form
has at most one pending fallback timer, and `submitTimers` holds timer `i` for
a form exactly when `i` is a pending fallback timer of that form. -/
theorem double_submit_prevented (buttons : List (Option SubmitButton)) (ops : List FormsOp)
    (form i j : Nat) :
    (∀ btn, ((MobileForms.construct buttons).run ops).submitBtn form = some btn →
      btn.disabled = true →
      handleFormSubmit ((MobileForms.construct buttons).run ops) form =
        (MobileForms.construct buttons).run ops) ∧
    (((MobileForms.construct buttons).run ops).fallbackPending form i →
      ((MobileForms.construct buttons).run ops).fallbackPending form j → i = j) ∧
    (mapGet ((MobileForms.construct buttons).run ops).submitTimers form = some i ↔
      ((MobileForms.construct buttons).run ops).fallbackPending form i) := by
  have hinv := (MobileForms.Inv.constructed buttons).reached ops
  refine ⟨?_, ?_, ?_⟩
  · intro btn hbtn hdis
    exact handleFormSubmit_of_disabled _ form btn hbtn hdis
  · intro hi hj
    have h1 := hinv.stored form i hi
    have h2 := hinv.stored form j hj
    rw [h1] at h2
    exact Option.some.inj h2
  · exact ⟨hinv.pending form i, hinv.stored form i⟩

/-- A double submit on the one-form page: the second submit changes nothing, and
after the first one timer 0 is the pending fallback timer stored for the form. -/
theorem double_submit_prevented_evaluated :
    oneForm.run [.submit 0, .submit 0] = oneForm.run [.submit 0] ∧
    (oneForm.run [.submit 0, .submit 0]).timers = [⟨.restoreSubmit 0, 5000, true⟩] ∧
    (oneForm.run [.submit 0, .submit 0]).submitTimers = [(0, 0)] ∧
    (oneForm.run [.submit 0, .enable 0, .submit 0]).timers =
      [⟨.restoreSubmit 0, 5000, false⟩, ⟨.restoreSubmit 0, 5000, true⟩] ∧
    (oneForm.run [.submit 0, .enable 0, .submit 0]).submitTimers = [(0, 1)] := by
  decide

theorem double_submit_prevented_witness :
    handleFormSubmit (oneForm.run [.submit 0]) 0 = oneForm.run [.submit 0] ∧
    (mapGet (oneForm.run [.submit 0]).submitTimers 0 = some 0 ↔
      (oneForm.run [.submit 0]).fallbackPending 0 0) ∧
    mapGet (oneForm.run [.submit 0]).submitTimers 0 = some 0 :=
  ⟨(double_submit_prevented
      [some { classList := ["btn"], disabled := false, ariaBusy := none }] [.submit 0] 0 0 0).1
      { classList := ["btn", "loading"], disabled := true, ariaBusy := some "true" }
      (by decide) (by decide),
   (double_submit_prevented
      [some { classList := ["btn"], disabled := false, ariaBusy := none }] [.submit 0] 0 0 0).2.2,
   by decide⟩

/-! ## Claims on the delete handlers -/

/-- C21: when the user declines the confirmation, `deleteToy` and the
`.delete-toy-btn` click handler of `initAdminPanel` leave the browser as it
was, and `deleteToySimple` sends no request, shows no loading overlay and does
not reload (it shows an alert when the button has no toy id, before it would
ask). -/
theorem no_delete_without_confirmation (page : AdminPage) (toyId : String)
    (simpleId : Option String) (outcome : FetchOutcome) (s : AdminState) :
    deleteToy page toyId false outcome s = s ∧
    deleteButtonClick page toyId false outcome s = s ∧
    (deleteToySimple page simpleId false outcome s).requests = s.requests ∧
    (deleteToySimple page simpleId false outcome s).overlays = s.overlays ∧
    (deleteToySimple page simpleId false outcome s).reloads = s.reloads ∧
    (deleteToySimple page simpleId false outcome s).uncaught = s.uncaught := by
  refine ⟨rfl, rfl, ?_, ?_, ?_, ?_⟩ <;>
    · unfold deleteToySimple
      cases truthy simpleId <;> rfl

/-- A confirmed delete on the sample admin page sends its request, so the
confirmation is what holds the request back. -/
theorem confirmation_gates_request :
    (deleteToy adminPage "7" true .networkError quietAdmin).requests.length = 1 ∧
    (deleteToy adminPage "7" false .networkError quietAdmin).requests = [] ∧
    (deleteToySimple adminPage (some "7") true .networkError quietAdmin).requests.length = 1 ∧
    (deleteToySimple adminPage (some "7") false .networkError quietAdmin).requests = [] ∧
    (deleteButtonClick adminPage "7" true .networkError quietAdmin).requests.length = 1 ∧
    (deleteButtonClick adminPage "7" false .networkError quietAdmin).requests = [] := by
  decide

/-- C22, counterexample: `deleteToy` and `deleteToySimple` never look at the
status of the response.  A response with status 500 whose body is the JSON
object with `success: true` makes both reload the page and report success. -/
theorem non_ok_success_body_reloads :
    (deleteToy adminPage "7" true failedButSuccessBody quietAdmin).reloads = 1 ∧
    (deleteToy adminPage "7" true failedButSuccessBody quietAdmin).toasts =
      [("Juguete eliminado exitosamente", "success")] ∧
    (deleteToySimple adminPage (some "7") true failedButSuccessBody quietAdmin).reloads = 1 ∧
    (deleteToySimple adminPage (some "7") true failedButSuccessBody quietAdmin).alerts =
      ["Juguete eliminado exitosamente"] := by
  decide

theorem deleteToy_response (page : AdminPage) (toyId : String) (tok : Option String)
    (ok redirected : Bool) (payload : Payload) (s : AdminState)
    (htok : getCsrfToken page.csrf = .returned tok) :
    (payload.succeeds = true →
      (deleteToy page toyId true (.response ok redirected payload) s).reloads = s.reloads + 1) ∧
    (payload.succeeds = false →
      (deleteToy page toyId true (.response ok redirected payload) s).reloads = s.reloads ∧
      ∃ message, (deleteToy page toyId true (.response ok redirected payload) s).toasts =
        s.toasts ++ [(message, "error")]) := by
  unfold deleteToy deleteToyRequest
  simp only [if_true, htok]
  cases payload with
  | notJson => exact ⟨fun h => absurd h (by decide), fun _ => ⟨rfl, _, rfl⟩⟩
  | null => exact ⟨fun h => absurd h (by decide), fun _ => ⟨rfl, _, rfl⟩⟩
  | object success message cartCount =>
    cases success with
    | true => exact ⟨fun _ => rfl, fun h => absurd (show true = false from h) (by decide)⟩
    | false =>
      exact ⟨fun h => absurd (show false = true from h) (by decide), fun _ => ⟨rfl, _, rfl⟩⟩

theorem deleteToySimple_response (page : AdminPage) (toyId : Option String)
    (ok redirected : Bool) (payload : Payload) (s : AdminState)
    (hid : truthy toyId = true) (hmeta : truthy page.csrf.metaContent.join = true) :
    (payload.succeeds = true →
      (deleteToySimple page toyId true (.response ok redirected payload) s).reloads =
        s.reloads + 1) ∧
    (payload.succeeds = false →
      (deleteToySimple page toyId true (.response ok redirected payload) s).reloads =
        s.reloads ∧
      ∃ message,
        (deleteToySimple page toyId true (.response ok redirected payload) s).alerts =
          s.alerts ++ [message]) := by
  unfold deleteToySimple deleteToySimpleRequest
  simp only [hid, hmeta, Bool.not_true, Bool.false_eq_true, if_false]
  cases payload with
  | notJson => exact ⟨fun h => absurd h (by decide), fun _ => ⟨rfl, _, rfl⟩⟩
  | null => exact ⟨fun h => absurd h (by decide), fun _ => ⟨rfl, _, rfl⟩⟩
  | object success message cartCount =>
    cases success with
    | true => exact ⟨fun _ => rfl, fun h => absurd (show true = false from h) (by decide)⟩
    | false =>
      exact ⟨fun h => absurd (show false = true from h) (by decide), fun _ => ⟨rfl, _, rfl⟩⟩

theorem deleteButtonClick_not_ok (page : AdminPage) (toyId : String) (tok : Option String)
    (redirected : Bool) (payload : Payload) (s : AdminState)
    (htok : getCsrfToken page.csrf = .returned tok) :
    (deleteButtonClick page toyId true (.response false redirected payload) s).reloads =
      s.reloads ∧
    (deleteButtonClick page toyId true (.response false redirected payload) s).swals =
      s.swals ++ [("Error", "No se pudo eliminar el juguete.", "error")] := by
  unfold deleteButtonClick deleteButtonRequest deleteRequest
  simp only [if_true, htok]
  exact ⟨rfl, rfl⟩

theorem deleteFormSubmit_not_ok (page : AdminPage) (formId : String) (tok : Option String)
    (redirected : Bool) (payload : Payload) (s : AdminState)
    (htok : getCsrfToken page.csrf = .returned tok) (hform : page.deleteToyId = some formId) :
    (deleteFormSubmit page (.response false redirected payload) s).reloads = s.reloads ∧
    (deleteFormSubmit page (.response false redirected payload) s).alerts =
      s.alerts ++ ["Error al eliminar el juguete"] := by
  unfold deleteFormSubmit deleteFormRequest deleteRequest
  simp only [hform, htok]
  exact ⟨rfl, rfl⟩

/-- C22, amended: once the request is sent (the token lookup returned), a
response with a non-OK status never reloads the page and shows an error when
it reaches the delete handlers of `initAdminPanel` (a SweetAlert error for the
button, an alert for the form), whatever its body.  For `deleteToy` and, when
the button has a toy id and the meta tag gives a token, `deleteToySimple`, the
same holds unless the body is JSON with a truthy `success`: then the page is
reloaded; otherwise there is no reload and an error toast or alert. -/
theorem non_ok_delete_response (page : AdminPage) (toyId : String) (tok : Option String)
    (redirected : Bool) (payload : Payload) (s : AdminState)
    (htok : getCsrfToken page.csrf = .returned tok) :
    ((deleteButtonClick page toyId true (.response false redirected payload) s).reloads =
        s.reloads ∧
      (deleteButtonClick page toyId true (.response false redirected payload) s).swals =
        s.swals ++ [("Error", "No se pudo eliminar el juguete.", "error")]) ∧
    (∀ formId, page.deleteToyId = some formId →
      (deleteFormSubmit page (.response false redirected payload) s).reloads = s.reloads ∧
      (deleteFormSubmit page (.response false redirected payload) s).alerts =
        s.alerts ++ ["Error al eliminar el juguete"]) ∧
    (payload.succeeds = true →
      (deleteToy page toyId true (.response false redirected payload) s).reloads =
        s.reloads + 1) ∧
    (payload.succeeds = false →
      (deleteToy page toyId true (.response false redirected payload) s).reloads = s.reloads ∧
      ∃ message, (deleteToy page toyId true (.response false redirected payload) s).toasts =
        s.toasts ++ [(message, "error")]) ∧
    (∀ simpleId, truthy simpleId = true → truthy page.csrf.metaContent.join = true →
      (payload.succeeds = true →
        (deleteToySimple page simpleId true (.response false redirected payload) s).reloads =
          s.reloads + 1) ∧
      (payload.succeeds = false →
        (deleteToySimple page simpleId true (.response false redirected payload) s).reloads =
          s.reloads ∧
        ∃ message,
          (deleteToySimple page simpleId true (.response false redirected payload) s).alerts =
            s.alerts ++ [message])) :=
  ⟨deleteButtonClick_not_ok page toyId tok redirected payload s htok,
   fun formId hform => deleteFormSubmit_not_ok page formId tok redirected payload s htok hform,
   (deleteToy_response page toyId tok false redirected payload s htok).1,
   (deleteToy_response page toyId tok false redirected payload s htok).2,
   fun simpleId hid hmeta =>
     deleteToySimple_response page simpleId false redirected payload s hid hmeta⟩

theorem non_ok_delete_response_witness :
    getCsrfToken adminPage.csrf = .returned (some "tok") ∧
    (deleteButtonClick adminPage "7" true failedHtml quietAdmin).reloads = 0 ∧
    (deleteButtonClick adminPage "7" true failedHtml quietAdmin).swals =
      [("Error", "No se pudo eliminar el juguete.", "error")] ∧
    (deleteFormSubmit adminPage failedHtml quietAdmin).reloads = 0 ∧
    (deleteToy adminPage "7" true failedHtml quietAdmin).reloads = 0 ∧
    (deleteToySimple adminPage (some "7") true failedHtml quietAdmin).reloads = 0 :=
  ⟨by decide,
   (non_ok_delete_response adminPage "7" (some "tok") false .notJson quietAdmin
      (by decide)).1.1,
   (non_ok_delete_response adminPage "7" (some "tok") false .notJson quietAdmin
      (by decide)).1.2,
   ((non_ok_delete_response adminPage "7" (some "tok") false .notJson quietAdmin
      (by decide)).2.1 "7" (by decide)).1,
   ((non_ok_delete_response adminPage "7" (some "tok") false .notJson quietAdmin
      (by decide)).2.2.2.1 (by decide)).1,
   (((non_ok_delete_response adminPage "7" (some "tok") false .notJson quietAdmin
      (by decide)).2.2.2.2 (some "7") (by decide) (by decide)).2 (by decide)).1⟩

/-! ## Claims on the loading overlay -/

theorem showLoading_iterate (n : Nat) (s : AdminState) :
    (Nat.iterate showLoading n s).overlays =
      s.overlays ++ List.replicate n "loading-overlay" := by
  induction n generalizing s with
  | zero => simp
  | succ n ih =>
    rw [Function.iterate_succ_apply, ih]
    show (s.overlays ++ ["loading-overlay"]) ++ _ = _
    rw [List.append_assoc]
    rfl

theorem showLoadingFirst_of_present (s : AdminState) (h : "globalLoading" ∈ s.overlays) :
    showLoadingFirst s = s := by
  unfold showLoadingFirst
  rw [if_pos h]

theorem showLoadingFirst_iterate (n : Nat) (s : AdminState) :
    (Nat.iterate showLoadingFirst (n + 1) { s with overlays := [] }).overlays =
      ["globalLoading"] := by
  induction n with
  | zero => rfl
  | succ n ih =>
    rw [Function.iterate_succ_apply', showLoadingFirst_of_present _ (by rw [ih]; decide)]
    exact ih

/-- C29, what the code does: the declaration of `showLoading` that is in effect
appends an overlay on every call and `hideLoading` removes one, so in a
document without overlays `n + 2` calls of `showLoading` followed by one
`hideLoading` leave `n + 1` overlays.  The first declarations of the two
functions, which the later ones replace, do have the property: `n + 1` calls
followed by one `hideLoadingFirst` leave no overlay. -/
theorem showLoading_stacks (n : Nat) (s : AdminState) :
    (showLoading (showLoading { s with overlays := [] })).overlays =
      ["loading-overlay", "loading-overlay"] ∧
    (hideLoading (Nat.iterate showLoading (n + 2) { s with overlays := [] })).overlays =
      List.replicate (n + 1) "loading-overlay" ∧
    (hideLoadingFirst (Nat.iterate showLoadingFirst (n + 1) { s with overlays := [] })).overlays =
      [] := by
  refine ⟨rfl, ?_, ?_⟩
  · unfold hideLoading
    rw [showLoading_iterate]
    rfl
  · unfold hideLoadingFirst
    rw [showLoadingFirst_iterate]
    rfl

/-- Two calls of `showLoading` and one `hideLoading` in the quiet browser leave
one overlay in the document. -/
theorem showLoading_twice_leaves_overlay :
    (hideLoading (showLoading (showLoading quietAdmin))).overlays = ["loading-overlay"] := by
  decide

/-! ## Claims on addToCart -/

theorem updateBadges_of_link (badges : List String) (count : Int)
    (hbadges : badges.length ≤ 1) :
    updateBadges true badges count = if count > 0 then [toString count] else [] := by
  unfold updateBadges
  match badges, hbadges with
  | [], _ => simp
  | [_], _ => simp
  | _ :: _ :: _, h => simp at h

/-- C23: on a page with the `csrf-token` meta tag, a response that was not
redirected and whose body is the JSON object with a truthy `success` and
`cart_count: n` makes `addToCart` request one success toast; for each cart
link of the page (desktop or mobile) that has at most one badge, afterwards a
badge exists exactly when `n > 0`, and its text is `n`; a navigation bar
without a cart link keeps its badges. -/
theorem addToCart_success_updates_badge (page : CartPage) (toyId : String)
    (content message : Option String) (ok : Bool) (n : Int)
    (hmeta : page.csrf.metaContent = some content) :
    (addToCart page toyId (.response ok false (.object true message (some n)))).toasts =
      page.toasts ++ [("✨ ¡Producto agregado al carrito!", "success")] ∧
    (page.desktopLink = true → page.desktopBadges.length ≤ 1 →
      (addToCart page toyId (.response ok false (.object true message (some n)))).desktopBadges =
        if n > 0 then [toString n] else []) ∧
    (page.mobileLink = true → page.mobileBadges.length ≤ 1 →
      (addToCart page toyId (.response ok false (.object true message (some n)))).mobileBadges =
        if n > 0 then [toString n] else []) ∧
    (page.desktopLink = false →
      (addToCart page toyId (.response ok false (.object true message (some n)))).desktopBadges =
        page.desktopBadges) ∧
    (page.mobileLink = false →
      (addToCart page toyId (.response ok false (.object true message (some n)))).mobileBadges =
        page.mobileBadges) := by
  unfold addToCart addToCartRequest
  simp only [hmeta, Bool.false_eq_true, if_false]
  unfold addToCartData
  simp only [if_true]
  refine ⟨rfl, ?_, ?_, ?_, ?_⟩
  · intro hlink hbadges
    show updateBadges page.desktopLink page.desktopBadges n = _
    rw [hlink]
    exact updateBadges_of_link _ n hbadges
  · intro hlink hbadges
    show updateBadges page.mobileLink page.mobileBadges n = _
    rw [hlink]
    exact updateBadges_of_link _ n hbadges
  · intro hlink
    show updateBadges page.desktopLink page.desktopBadges n = _
    rw [hlink]
    rfl
  · intro hlink
    show updateBadges page.mobileLink page.mobileBadges n = _
    rw [hlink]
    rfl

theorem addToCart_success_updates_badge_witness :
    shopPage.csrf.metaContent = some (some "tok") ∧
    (addToCart shopPage "5" (.response true false (.object true none (some 3)))).toasts =
      [("✨ ¡Producto agregado al carrito!", "success")] ∧
    (addToCart shopPage "5" (.response true false (.object true none (some 3)))).desktopBadges =
      ["3"] ∧
    (addToCart shopPage "5" (.response true false (.object true none (some 3)))).mobileBadges =
      ["3"] ∧
    (addToCart shopPage "5" (.response true false (.object true none (some 0)))).desktopBadges =
      [] :=
  ⟨rfl,
   (addToCart_success_updates_badge shopPage "5" (some "tok") none true 3 rfl).1,
   ((addToCart_success_updates_badge shopPage "5" (some "tok") none true 3 rfl).2.1
      (by decide) (by decide)).trans (by decide),
   ((addToCart_success_updates_badge shopPage "5" (some "tok") none true 3 rfl).2.2.1
      (by decide) (by decide)).trans (by decide),
   ((addToCart_success_updates_badge shopPage "5" (some "tok") none true 0 rfl).2.1
      (by decide) (by decide)).trans (by decide)⟩

/-- C24, what the code does: on a page without the `csrf-token` meta tag
`addToCart` ends with a `TypeError` that nothing catches, before any request
and without a toast, whatever the server would have answered. -/
theorem addToCart_without_meta_throws (page : CartPage) (toyId : String)
    (inputValue : Option String) (outcome : FetchOutcome) :
    (addToCart { page with csrf := ⟨none, inputValue⟩ } toyId outcome).uncaught =
      page.uncaught + 1 ∧
    (addToCart { page with csrf := ⟨none, inputValue⟩ } toyId outcome).toasts = page.toasts ∧
    (addToCart { page with csrf := ⟨none, inputValue⟩ } toyId outcome).requests =
      page.requests :=
  ⟨rfl, rfl, rfl⟩

/-- With the meta tag, a network failure, a body that is not JSON, a `null` body
and a body with a falsy `success` each give one error toast, no uncaught error
and the same badges. -/
theorem addToCart_failure_toast (page : CartPage) (toyId : String)
    (inputValue content message : Option String) (ok : Bool) (cartCount : Option Int) :
    ∀ failure ∈ [FetchOutcome.networkError, .response ok false .notJson,
        .response ok false .null, .response ok false (.object false message cartCount)],
      (addToCart { page with csrf := ⟨some content, inputValue⟩ } toyId failure).uncaught =
        page.uncaught ∧
      (∃ text, (addToCart { page with csrf := ⟨some content, inputValue⟩ } toyId failure).toasts =
        page.toasts ++ [(text, "error")]) ∧
      (addToCart { page with csrf := ⟨some content, inputValue⟩ } toyId failure).desktopBadges =
        page.desktopBadges ∧
      (addToCart { page with csrf := ⟨some content, inputValue⟩ } toyId failure).mobileBadges =
        page.mobileBadges := by
  intro failure hmem
  simp only [List.mem_cons, List.mem_singleton, List.not_mem_nil, or_false] at hmem
  rcases hmem with h | h | h | h <;> subst h <;> exact ⟨rfl, ⟨_, rfl⟩, rfl, rfl⟩

/-- The shop page without the meta tag: `addToCart` throws, sends nothing and
shows nothing; `deleteToySimple` on the same kind of page shows an alert. -/
theorem addToCart_without_meta_evaluated :
    (addToCart shopPageWithoutMeta "5" .networkError).uncaught = 1 ∧
    (addToCart shopPageWithoutMeta "5" .networkError).toasts = [] ∧
    (addToCart shopPageWithoutMeta "5" .networkError).requests = [] ∧
    (deleteToySimple { adminPage with csrf := ⟨none, none⟩ } (some "7") true .networkError
      quietAdmin).uncaught = 0 ∧
    (deleteToySimple { adminPage with csrf := ⟨none, none⟩ } (some "7") true .networkError
      quietAdmin).alerts = ["Error: Token de seguridad no encontrado"] := by
  decide

/-- C28, what the code does: on a page with the `csrf-token` meta tag a
redirected response makes `addToCart` call `showToast` twice with the success
message, once in each `then` callback.  Every other outcome gives exactly one
call. -/
theorem addToCart_redirected_two_toasts (page : CartPage) (toyId : String)
    (inputValue content : Option String) (ok : Bool) (payload : Payload) :
    (addToCart { page with csrf := ⟨some content, inputValue⟩ } toyId
        (.response ok true payload)).toasts =
      page.toasts ++ [("✨ ¡Producto agregado al carrito!", "success"),
        ("✨ ¡Producto agregado al carrito!", "success")] ∧
    (addToCart { page with csrf := ⟨some content, inputValue⟩ } toyId
        (.response ok false payload)).toasts.length = page.toasts.length + 1 ∧
    (addToCart { page with csrf := ⟨some content, inputValue⟩ } toyId
        .networkError).toasts.length = page.toasts.length + 1 := by
  refine ⟨?_, ?_, ?_⟩
  · show (page.toasts ++ [_]) ++ [_] = _
    rw [List.append_assoc]
    rfl
  · cases payload with
    | notJson => exact List.length_append _ _
    | null => exact List.length_append _ _
    | object success message cartCount =>
      cases success with
      | true =>
        cases cartCount with
        | none => exact List.length_append _ _
        | some count => exact List.length_append _ _
      | false => exact List.length_append _ _
  · exact List.length_append _ _

/-- A redirected response on the shop page: two success toasts. -/
theorem addToCart_redirected_evaluated :
    (addToCart shopPage "5" (.response true true .notJson)).toasts =
      [("✨ ¡Producto agregado al carrito!", "success"),
       ("✨ ¡Producto agregado al carrito!", "success")] := by
  decide

/-! ## Claims on the user filters -/

theorem includes_iff (text term : String) :
    includes text term = true ↔ term.toList <:+: text.toList := by
  unfold includes
  rw [List.any_eq_true, List.infix_iff_prefix_suffix]
  constructor
  · rintro ⟨rest, hmem, hpre⟩
    exact ⟨rest, List.isPrefixOf_iff_prefix.mp hpre, (List.mem_tails _ _).mp hmem⟩
  · rintro ⟨rest, hpre, hsuf⟩
    exact ⟨rest, (List.mem_tails _ _).mpr hsuf, List.isPrefixOf_iff_prefix.mpr hpre⟩

/-- The display a card ends with, as a Boolean test on its attributes. -/
theorem filterCard_returned (term status : String) (card : UserCard)
    (hname : term = "" ∨ card.name ≠ none) :
    ∃ shown, filterCard term status card = .returned shown ∧
      shown = { card with display := shown.display } ∧
      (shown.display = "block" ∨ shown.display = "none") ∧
      (shown.display = "block" ↔ card.matchesFilters term status) := by
  obtain ⟨name, active, admin, display⟩ := card
  unfold UserCard.matchesFilters
  by_cases hterm : term = ""
  · subst hterm
    by_cases h1 : status = "active" <;> by_cases h2 : status = "inactive" <;>
      by_cases h3 : status = "admin" <;> by_cases h4 : active = some "true" <;>
      by_cases h5 : admin = some "true" <;>
      simp [filterCard, h1, h2, h3, h4, h5]
  · cases name with
    | none => rcases hname with h | h <;> simp_all
    | some text =>
      have hinc := includes_iff text term
      by_cases h0 : includes text term = true <;>
        by_cases h1 : status = "active" <;> by_cases h2 : status = "inactive" <;>
        by_cases h3 : status = "admin" <;> by_cases h4 : active = some "true" <;>
        by_cases h5 : admin = some "true" <;>
        simp [filterCard, hterm, h0, h1, h2, h3, h4, h5] <;> simp_all

theorem filterCard_throws (term status : String) (card : UserCard)
    (hterm : term ≠ "") (hname : card.name = none) :
    filterCard term status card = .typeError := by
  unfold filterCard
  simp [hterm, hname]

theorem filterCards_returned (term status : String) (cards : List UserCard)
    (hnames : term = "" ∨ ∀ card ∈ cards, card.name ≠ none) :
    (filterCards term status cards).2 = false ∧
    List.Forall₂ (fun card shown =>
        shown = { card with display := shown.display } ∧
        (shown.display = "block" ∨ shown.display = "none") ∧
        (shown.display = "block" ↔ card.matchesFilters term status))
      cards (filterCards term status cards).1 := by
  induction cards with
  | nil => exact ⟨rfl, List.Forall₂.nil⟩
  | cons card rest ih =>
    have hrest : term = "" ∨ ∀ c ∈ rest, c.name ≠ none :=
      hnames.imp id (fun h c hc => h c (List.mem_cons_of_mem _ hc))
    have hcard : term = "" ∨ card.name ≠ none :=
      hnames.imp id (fun h => h card (List.mem_cons_self _ _))
    obtain ⟨shown, hshown, hprops⟩ := filterCard_returned term status card hcard
    obtain ⟨hthrew, hall⟩ := ih hrest
    unfold filterCards
    rw [hshown]
    exact ⟨hthrew, List.Forall₂.cons hprops hall⟩

/-- C30: when the lower-cased search text is empty or every card has a
`data-name`, `applyUserFilters` ends without an error and changes nothing but
the display of each card, which becomes `block` if and only if (the lower-cased
search text is empty or occurs in the `data-name` of the card) and (status
`active` implies `data-active` is `true`) and (status `inactive` implies
`data-active` is not `true`) and (status `admin` implies `data-admin` is
`true`), and `none` otherwise.  Two search texts with the same lower-casing
give the same result. -/
theorem applyUserFilters_visibility (toLowerCase : String → String)
    (userSearch other statusFilter : String) (cards : List UserCard)
    (hnames : toLowerCase userSearch = "" ∨ ∀ card ∈ cards, card.name ≠ none) :
    (applyUserFilters toLowerCase userSearch statusFilter cards).2 = false ∧
    List.Forall₂ (fun card shown =>
        shown = { card with display := shown.display } ∧
        (shown.display = "block" ∨ shown.display = "none") ∧
        (shown.display = "block" ↔
          card.matchesFilters (toLowerCase userSearch) statusFilter))
      cards (applyUserFilters toLowerCase userSearch statusFilter cards).1 ∧
    (toLowerCase other = toLowerCase userSearch →
      applyUserFilters toLowerCase other statusFilter cards =
        applyUserFilters toLowerCase userSearch statusFilter cards) := by
  refine ⟨(filterCards_returned _ statusFilter cards hnames).1,
    (filterCards_returned _ statusFilter cards hnames).2, ?_⟩
  intro hsame
  unfold applyUserFilters
  rw [hsame]

theorem applyUserFilters_visibility_witness :
    (∀ card ∈ sampleCards, card.name ≠ none) ∧
    (applyUserFilters asciiLower "ANA" "active" sampleCards).2 = false ∧
    (applyUserFilters asciiLower "ANA" "active" sampleCards).1.map (fun card => card.display) =
      ["block", "none", "block"] ∧
    applyUserFilters asciiLower "Ana" "active" sampleCards =
      applyUserFilters asciiLower "ANA" "active" sampleCards :=
  ⟨by decide,
   (applyUserFilters_visibility asciiLower "ANA" "Ana" "active" sampleCards
      (Or.inr (by decide))).1,
   by decide,
   (applyUserFilters_visibility asciiLower "ANA" "Ana" "active" sampleCards
      (Or.inr (by decide))).2.2 (by decide)⟩

/-- A card without `data-name` stops the loop when the search text is not empty:
the cards from it onwards keep their display. -/
theorem applyUserFilters_nameless_card :
    applyUserFilters asciiLower "a" ""
        [⟨some "ana", none, none, ""⟩, ⟨none, none, none, ""⟩, ⟨some "ada", none, none, ""⟩] =
      ([⟨some "ana", none, none, "block"⟩, ⟨none, none, none, ""⟩,
        ⟨some "ada", none, none, ""⟩], true) := by
  decide

end Tienda
